import Mathlib

/-!
# Governance object: vote ingestion, orphan sweep, sentinel flags and validation

A shallow embedding of `src/governance-object.cpp` (class `CGovernanceObject`).

* The object is a record of its member variables; every member function becomes a
  pure function from the object before the call to the object after it (plus the
  return value and the externally visible effects of the call).
* The collaborators the code reaches through globals (`governance`, `mnodeman`,
  the clock) are passed explicitly as a `World`; header constants, chain
  parameters and the vote hash function are passed as an `Env`.
* `int64_t` arithmetic on times and amounts is two's complement arithmetic (`wrap64`),
  `int` arithmetic on the voter count and the confirmations is `wrap32`.
* Validation (`IsCollateralValid`, `IsValidLocally`, `Sign`, `CheckSignature`) takes its
  constants, the hash, the scripts and the signer as a `ValidationEnv` and the chain and
  roster answers as a `ChainWorld`.
-/

set_option autoImplicit false

namespace Governance

/-! ## Machine integers -/

/-- Value of a two's complement `int64_t` holding the mathematical integer `x`. -/
def wrap64 (x : Int) : Int := (x + 2 ^ 63) % 2 ^ 64 - 2 ^ 63

/-- Value of a two's complement 32-bit `int` holding the mathematical integer `x`. -/
def wrap32 (x : Int) : Int := (x + 2 ^ 31) % 2 ^ 32 - 2 ^ 31

/-! ## `std::map<int, T>` as an association list

`find?` is `map::find`, `insert` is `map::insert` (which never overwrites an
existing key) and `assign` is a write through the reference `it->second`. -/

namespace stdmap

variable {α : Type}

/-- The value stored under key `k`, as `map::find` followed by `it->second`. -/
def find? : List (Int × α) → Int → Option α
  | [], _ => none
  | (k', v) :: rest, k => if k' = k then some v else find? rest k

/-- Insertion of a fresh key at its place in ascending key order. -/
def insertSorted (k : Int) (v : α) : List (Int × α) → List (Int × α)
  | [] => [(k, v)]
  | (k', v') :: rest =>
    if k < k' then (k, v) :: (k', v') :: rest else (k', v') :: insertSorted k v rest

/-- The map after `map::insert(value_type(k, v))`: unchanged when `k` is present. -/
def insert (m : List (Int × α)) (k : Int) (v : α) : List (Int × α) :=
  match find? m k with
  | some _ => m
  | none => insertSorted k v m

/-- The map after the assignment `it->second = v` where `it = find(k)`. -/
def assign : List (Int × α) → Int → α → List (Int × α)
  | [], _, _ => []
  | (k', v') :: rest, k, v =>
    if k' = k then (k', v) :: rest else (k', v') :: assign rest k v

end stdmap

/-! ## Data model -/

/-- A `COutPoint`: transaction hash and output index. -/
structure COutPoint where
  hash : Nat
  n : Nat
deriving DecidableEq, Repr

/-- A `CTxIn`, the identity of a masternode (voter). -/
structure CTxIn where
  prevout : COutPoint
  scriptSig : List Nat
  nSequence : Nat
deriving DecidableEq, Repr

/-- The fields of a `CGovernanceVote` that `ProcessVote` reads through its getters.
Signal and outcome are the integer values of `vote_signal_enum_t` and
`vote_outcome_enum_t`. -/
structure CGovernanceVote where
  vinMasternode : CTxIn
  nParentHash : Nat
  nVoteSignal : Int
  nVoteOutcome : Int
  nTime : Int
deriving DecidableEq, Repr

/-- The struct `vote_instance_t`: outcome, last update time `nTime`, creation time. -/
structure vote_instance_t where
  eOutcome : Int
  nTime : Int
  nCreationTime : Int
deriving DecidableEq, Repr

/-- The struct `vote_rec_t`: one `vote_instance_t` per signal. -/
structure vote_rec_t where
  mapInstances : List (Int × vote_instance_t)
deriving DecidableEq, Repr

/-- Kinds of `CGovernanceException`. -/
inductive governance_exception_type_enum_t where
  | GOVERNANCE_EXCEPTION_NONE
  | GOVERNANCE_EXCEPTION_WARNING
  | GOVERNANCE_EXCEPTION_PERMANENT_ERROR
  | GOVERNANCE_EXCEPTION_TEMPORARY_ERROR
  | GOVERNANCE_EXCEPTION_INTERNAL_ERROR
deriving DecidableEq, Repr

/-- A `CGovernanceException` without its log text: kind and node penalty (ban weight,
0 when the constructor is called without one). -/
structure CGovernanceException where
  eType : governance_exception_type_enum_t
  nNodePenalty : Int
deriving DecidableEq, Repr

/-- An item of the orphan cache `mapOrphanVotes`: key and `vote_time_pair_t`. -/
structure OrphanItem where
  key : CTxIn
  vote : CGovernanceVote
  nExpiry : Int
deriving DecidableEq, Repr

/-- The member variables of `CGovernanceObject`. -/
structure CGovernanceObject where
  nObjectType : Int
  nHashParent : Nat
  nRevision : Int
  nTime : Int
  nDeletionTime : Int
  nCollateralHash : Nat
  strData : String
  vinMasternode : CTxIn
  vchSig : List Nat
  fCachedLocalValidity : Bool
  strLocalValidityError : String
  fCachedFunding : Bool
  fCachedValid : Bool
  fCachedDelete : Bool
  fCachedEndorsed : Bool
  fDirtyCache : Bool
  fExpired : Bool
  fUnparsable : Bool
  mapCurrentMNVotes : List (Int × vote_rec_t)
  mapOrphanVotes : List OrphanItem
  fileVotes : List CGovernanceVote
deriving DecidableEq, Repr

/-- Constants and pure functions declared in headers that are not part of the
sources, taken as parameters: enumerators of `vote_signal_enum_t` and
`vote_outcome_enum_t`, `MAX_SUPPORTED_VOTE_SIGNAL`, the governance time constants,
the chain parameters read by `UpdateSentinelVariables` and `CGovernanceVote::GetHash`. -/
structure Env where
  VOTE_SIGNAL_NONE : Int
  VOTE_SIGNAL_FUNDING : Int
  VOTE_SIGNAL_VALID : Int
  VOTE_SIGNAL_DELETE : Int
  VOTE_SIGNAL_ENDORSED : Int
  MAX_SUPPORTED_VOTE_SIGNAL : Int
  VOTE_OUTCOME_NONE : Int
  VOTE_OUTCOME_YES : Int
  VOTE_OUTCOME_NO : Int
  VOTE_OUTCOME_ABSTAIN : Int
  GOVERNANCE_UPDATE_MIN : Int
  GOVERNANCE_ORPHAN_EXPIRATION_TIME : Int
  nGovernanceMinQuorum : Int
  fMainNetwork : Bool
  voteGetHash : CGovernanceVote → Nat

/-- What the external collaborators answer during one call: the roster
(`governance.GetMasternodeIndex`, `mnodeman.Has`, `mnodeman.CountEnabled`,
`mnodeman.AddGovernanceVote`), the clocks, the rate-check switch and
`CGovernanceVote::IsValid(true)`. -/
structure World where
  GetMasternodeIndex : CTxIn → Int
  Has : CTxIn → Bool
  CountEnabled : Int
  AddGovernanceVote : CTxIn → Nat → Bool
  GetAdjustedTime : Int
  GetTime : Int
  AreRateChecksEnabled : Bool
  IsValid : CGovernanceVote → Bool

/-- The default `vote_instance_t()`: outcome none, both times 0. -/
def vote_instance_t.default (E : Env) : vote_instance_t :=
  { eOutcome := E.VOTE_OUTCOME_NONE, nTime := 0, nCreationTime := 0 }

/-- The default `vote_rec_t()`: no instances. -/
def vote_rec_t.default : vote_rec_t := { mapInstances := [] }

/-! ## Orphan cache and vote store -/

/-- Modelled from the spec: `CacheMultiMap::Insert` (cachemultimap.h is not part of
the sources). The orphan cache holds (voter identity, vote, expiry) entries, newest
first; inserting an entry that is already present changes nothing and reports
`false`, otherwise the entry is added and `true` (newly inserted) is reported. -/
def CacheMultiMap.Insert (items : List OrphanItem) (key : CTxIn)
    (value : CGovernanceVote × Int) : List OrphanItem × Bool :=
  let item : OrphanItem := { key := key, vote := value.1, nExpiry := value.2 }
  if item ∈ items then (items, false) else (item :: items, true)

/-- Modelled from the spec: `CacheMultiMap::Erase` (cachemultimap.h is not part of
the sources): point removal of the entry with this key and value. -/
def CacheMultiMap.Erase (items : List OrphanItem) (key : CTxIn)
    (value : CGovernanceVote × Int) : List OrphanItem :=
  items.filter
    (fun it => !decide (it = { key := key, vote := value.1, nExpiry := value.2 }))

/-- Modelled from the spec: `CGovernanceObjectVoteFile::HasVote` (governance-votedb.h
is not part of the sources): whether a vote with this hash is in the VoteStore. -/
def fileVotes_HasVote (E : Env) (store : List CGovernanceVote) (nHash : Nat) : Bool :=
  store.any (fun v => decide (E.voteGetHash v = nHash))

/-- Modelled from the spec: `CGovernanceObjectVoteFile::AddVote` (governance-votedb.h
is not part of the sources): the vote is appended to the VoteStore. -/
def fileVotes_AddVote (store : List CGovernanceVote) (vote : CGovernanceVote) :
    List CGovernanceVote :=
  store ++ [vote]

/-! ## ProcessVote -/

/-- Everything a call of `ProcessVote` produces: the return value, the exception
written to the out-parameter (`none` when it is left untouched), the object after the
call, whether `mnodeman.AskForMN` was called and whether the vote was handed to
`governance.AddInvalidVote`. -/
structure ProcessVoteResult where
  ret : Bool
  exception : Option CGovernanceException
  obj : CGovernanceObject
  fAskedForMN : Bool
  fAddedInvalidVote : Bool
deriving DecidableEq, Repr

open governance_exception_type_enum_t

/-- `CGovernanceObject::ProcessVote(pfrom, vote, exception)`; `pfrom` is `true` when
the peer pointer is not null. -/
def ProcessVote (E : Env) (W : World) (pfrom : Bool) (vote : CGovernanceVote)
    (self : CGovernanceObject) : ProcessVoteResult :=
  let nMNIndex := W.GetMasternodeIndex vote.vinMasternode
  if nMNIndex < 0 then
    let ins := CacheMultiMap.Insert self.mapOrphanVotes vote.vinMasternode
      (vote, wrap64 (W.GetAdjustedTime + E.GOVERNANCE_ORPHAN_EXPIRATION_TIME))
    { ret := false
      exception := some ⟨GOVERNANCE_EXCEPTION_WARNING, 0⟩
      obj := { self with mapOrphanVotes := ins.1 }
      fAskedForMN := ins.2 && pfrom
      fAddedInvalidVote := false }
  else
    -- it = mapCurrentMNVotes.find(nMNIndex), inserted when absent
    let votes1 := stdmap.insert self.mapCurrentMNVotes nMNIndex vote_rec_t.default
    let recVote := (stdmap.find? votes1 nMNIndex).getD vote_rec_t.default
    let self1 := { self with mapCurrentMNVotes := votes1 }
    let eSignal := vote.nVoteSignal
    if eSignal = E.VOTE_SIGNAL_NONE then
      { ret := false
        exception := some ⟨GOVERNANCE_EXCEPTION_WARNING, 0⟩
        obj := self1, fAskedForMN := false, fAddedInvalidVote := false }
    else if eSignal > E.MAX_SUPPORTED_VOTE_SIGNAL then
      { ret := false
        exception := some ⟨GOVERNANCE_EXCEPTION_PERMANENT_ERROR, 20⟩
        obj := self1, fAskedForMN := false, fAddedInvalidVote := false }
    else
      -- it2 = recVote.mapInstances.find(int(eSignal)), inserted when absent
      let instances1 := stdmap.insert recVote.mapInstances eSignal (vote_instance_t.default E)
      let voteInstance := (stdmap.find? instances1 eSignal).getD (vote_instance_t.default E)
      let self2 := { self1 with
        mapCurrentMNVotes := stdmap.assign votes1 nMNIndex { mapInstances := instances1 } }
      if vote.nTime < voteInstance.nCreationTime then
        { ret := false
          exception := some ⟨GOVERNANCE_EXCEPTION_NONE, 0⟩
          obj := self2, fAskedForMN := false, fAddedInvalidVote := false }
      else
        let nNow := W.GetTime
        let nVoteTimeUpdate := voteInstance.nTime
        if W.AreRateChecksEnabled
            && decide (wrap64 (nNow - voteInstance.nTime) < E.GOVERNANCE_UPDATE_MIN) then
          -- the assignment `nVoteTimeUpdate = nNow` here is to a local that is dropped
          { ret := false
            exception := some ⟨GOVERNANCE_EXCEPTION_TEMPORARY_ERROR, 0⟩
            obj := self2, fAskedForMN := false, fAddedInvalidVote := false }
        else if !W.IsValid vote then
          { ret := false
            exception := some ⟨GOVERNANCE_EXCEPTION_PERMANENT_ERROR, 20⟩
            obj := self2, fAskedForMN := false, fAddedInvalidVote := true }
        else if !W.AddGovernanceVote vote.vinMasternode vote.nParentHash then
          { ret := false
            exception := some ⟨GOVERNANCE_EXCEPTION_PERMANENT_ERROR, 0⟩
            obj := self2, fAskedForMN := false, fAddedInvalidVote := false }
        else
          let instances2 := stdmap.assign instances1 eSignal
            { eOutcome := vote.nVoteOutcome, nTime := nVoteTimeUpdate,
              nCreationTime := vote.nTime }
          { ret := true
            exception := none
            obj := { self2 with
              mapCurrentMNVotes :=
                stdmap.assign votes1 nMNIndex { mapInstances := instances2 }
              fileVotes :=
                if fileVotes_HasVote E self.fileVotes (E.voteGetHash vote) then self.fileVotes
                else fileVotes_AddVote self.fileVotes vote
              fDirtyCache := true }
            fAskedForMN := false, fAddedInvalidVote := false }

/-! ## Vote tallying -/

/-- `CGovernanceObject::CountMatchingVotes(eVoteSignalIn, eVoteOutcomeIn)`: the loop
over `mapCurrentMNVotes`, started with `nCount = 0`. -/
def CountMatchingVotes_loop (eVoteSignalIn eVoteOutcomeIn : Int) :
    List (Int × vote_rec_t) → Int
  | [] => 0
  | (_, recVote) :: rest =>
    match stdmap.find? recVote.mapInstances eVoteSignalIn with
    | none => CountMatchingVotes_loop eVoteSignalIn eVoteOutcomeIn rest
    | some voteInstance =>
      if voteInstance.eOutcome = eVoteOutcomeIn then
        CountMatchingVotes_loop eVoteSignalIn eVoteOutcomeIn rest + 1
      else CountMatchingVotes_loop eVoteSignalIn eVoteOutcomeIn rest

/-- `CGovernanceObject::CountMatchingVotes`. -/
def CountMatchingVotes (self : CGovernanceObject) (eVoteSignalIn eVoteOutcomeIn : Int) : Int :=
  CountMatchingVotes_loop eVoteSignalIn eVoteOutcomeIn self.mapCurrentMNVotes

/-- `CGovernanceObject::GetYesCount`. -/
def GetYesCount (E : Env) (self : CGovernanceObject) (eVoteSignalIn : Int) : Int :=
  CountMatchingVotes self eVoteSignalIn E.VOTE_OUTCOME_YES

/-- `CGovernanceObject::GetNoCount`. -/
def GetNoCount (E : Env) (self : CGovernanceObject) (eVoteSignalIn : Int) : Int :=
  CountMatchingVotes self eVoteSignalIn E.VOTE_OUTCOME_NO

/-- `CGovernanceObject::GetAbstainCount`. -/
def GetAbstainCount (E : Env) (self : CGovernanceObject) (eVoteSignalIn : Int) : Int :=
  CountMatchingVotes self eVoteSignalIn E.VOTE_OUTCOME_ABSTAIN

/-- `CGovernanceObject::GetAbsoluteYesCount`. -/
def GetAbsoluteYesCount (E : Env) (self : CGovernanceObject) (eVoteSignalIn : Int) : Int :=
  GetYesCount E self eVoteSignalIn - GetNoCount E self eVoteSignalIn

/-- `CGovernanceObject::GetAbsoluteNoCount`. -/
def GetAbsoluteNoCount (E : Env) (self : CGovernanceObject) (eVoteSignalIn : Int) : Int :=
  GetNoCount E self eVoteSignalIn - GetYesCount E self eVoteSignalIn

/-! ## UpdateSentinelVariables -/

/-- The local `nAbsVoteReq` of `UpdateSentinelVariables` for `nMnCount` enabled voters. -/
def nAbsVoteReq (E : Env) (nMnCount : Int) : Int :=
  if E.fMainNetwork then max E.nGovernanceMinQuorum (Int.tdiv nMnCount 10)
  else E.nGovernanceMinQuorum

/-- The local `nAbsDeleteReq` of `UpdateSentinelVariables` for `nMnCount` enabled voters. -/
def nAbsDeleteReq (E : Env) (nMnCount : Int) : Int :=
  if E.fMainNetwork then max E.nGovernanceMinQuorum (Int.tdiv (wrap32 (2 * nMnCount)) 3)
  else E.nGovernanceMinQuorum

/-- `CGovernanceObject::UpdateSentinelVariables()`. -/
def UpdateSentinelVariables (E : Env) (W : World) (self : CGovernanceObject) :
    CGovernanceObject :=
  let nMnCount := W.CountEnabled
  if nMnCount = 0 then self
  else
    let s0 := { self with
      fCachedFunding := false, fCachedValid := true, fCachedEndorsed := false,
      fDirtyCache := false }
    let s1 :=
      if GetAbsoluteYesCount E s0 E.VOTE_SIGNAL_FUNDING ≥ nAbsVoteReq E nMnCount then
        { s0 with fCachedFunding := true }
      else s0
    let s2 :=
      if decide (GetAbsoluteYesCount E s1 E.VOTE_SIGNAL_DELETE ≥ nAbsDeleteReq E nMnCount)
          && !s1.fCachedDelete then
        { s1 with
          fCachedDelete := true
          nDeletionTime := if s1.nDeletionTime = 0 then W.GetAdjustedTime else s1.nDeletionTime }
      else s1
    let s3 :=
      if GetAbsoluteYesCount E s2 E.VOTE_SIGNAL_ENDORSED ≥ nAbsVoteReq E nMnCount then
        { s2 with fCachedEndorsed := true }
      else s2
    if GetAbsoluteNoCount E s3 E.VOTE_SIGNAL_VALID ≥ nAbsVoteReq E nMnCount then
      { s3 with fCachedValid := false }
    else s3

/-! ## CheckOrphanVotes -/

/-- State threaded through the loop of `CheckOrphanVotes`: the object, the votes handed
to `vote.Relay()` so far, and the calls of `ProcessVote` made so far (the entry whose
vote was passed and the value returned), both oldest first. -/
structure SweepState where
  obj : CGovernanceObject
  relayed : List CGovernanceVote
  calls : List (OrphanItem × Bool)
deriving DecidableEq, Repr

/-- One pass through the body of the `while` loop of `CheckOrphanVotes`, with the
iterator at `item`. -/
def CheckOrphanVotes_body (E : Env) (W : World) (nNow : Int) (item : OrphanItem)
    (st : SweepState) : SweepState :=
  let vote := item.vote
  if !decide (item.nExpiry < nNow) && !W.Has vote.vinMasternode then
    -- not expired, voter still unknown: ++it; continue
    st
  else
    let fRemove0 := decide (item.nExpiry < nNow)
    let r := ProcessVote E W false vote st.obj
    let fRemove := if r.ret then true else fRemove0
    let relayed := if r.ret then st.relayed ++ [vote] else st.relayed
    let obj :=
      if fRemove then
        { r.obj with mapOrphanVotes :=
            CacheMultiMap.Erase r.obj.mapOrphanVotes item.key (item.vote, item.nExpiry) }
      else r.obj
    { obj := obj, relayed := relayed, calls := st.calls ++ [(item, r.ret)] }

/-- The `while` loop of `CheckOrphanVotes` over the entries of the orphan cache from the
iterator position on. `Wk k` is what the collaborators answer during iteration `k`.
Entries inserted while the loop runs are placed before the iterator and are not
visited. -/
def CheckOrphanVotes_loop (E : Env) (Wk : Nat → World) (nNow : Int) :
    Nat → List OrphanItem → SweepState → SweepState
  | _, [], st => st
  | k, item :: rest, st =>
    CheckOrphanVotes_loop E Wk nNow (k + 1) rest (CheckOrphanVotes_body E (Wk k) nNow item st)

/-- `CGovernanceObject::CheckOrphanVotes()`, with `nNow` the value of
`GetAdjustedTime()` read at its start. -/
def CheckOrphanVotes (E : Env) (Wk : Nat → World) (nNow : Int) (self : CGovernanceObject) :
    SweepState :=
  CheckOrphanVotes_loop E Wk nNow 0 self.mapOrphanVotes
    { obj := self, relayed := [], calls := [] }

/-! ## Concrete environment used in the examples -/

/-- The enumerator values and constants of the upstream headers, on a test network
with minimum quorum 10; the vote hash is the vote timestamp plus the outcome. -/
def exampleEnv : Env :=
  { VOTE_SIGNAL_NONE := 0, VOTE_SIGNAL_FUNDING := 1, VOTE_SIGNAL_VALID := 2,
    VOTE_SIGNAL_DELETE := 3, VOTE_SIGNAL_ENDORSED := 4, MAX_SUPPORTED_VOTE_SIGNAL := 4,
    VOTE_OUTCOME_NONE := 0, VOTE_OUTCOME_YES := 1, VOTE_OUTCOME_NO := 2,
    VOTE_OUTCOME_ABSTAIN := 3, GOVERNANCE_UPDATE_MIN := 3600,
    GOVERNANCE_ORPHAN_EXPIRATION_TIME := 600, nGovernanceMinQuorum := 10,
    fMainNetwork := false,
    voteGetHash := fun v => v.nTime.toNat * 4 + v.nVoteOutcome.toNat }

/-- The voter with outpoint `(h, 0)`. -/
def exampleVin (h : Nat) : CTxIn :=
  { prevout := { hash := h, n := 0 }, scriptSig := [], nSequence := 0 }

/-- A roster that resolves voter `(h, 0)` to index `h`, accepts every vote and has
rate checks enabled; the clocks read `now`. -/
def exampleWorld (now : Int) : World :=
  { GetMasternodeIndex := fun vin => vin.prevout.hash
    Has := fun _ => true
    CountEnabled := 100
    AddGovernanceVote := fun _ _ => true
    GetAdjustedTime := now
    GetTime := now
    AreRateChecksEnabled := true
    IsValid := fun _ => true }

/-- A freshly constructed object (default constructor). -/
def exampleObject : CGovernanceObject :=
  { nObjectType := 0, nHashParent := 0, nRevision := 0, nTime := 0, nDeletionTime := 0,
    nCollateralHash := 0, strData := "", vinMasternode := exampleVin 0, vchSig := [],
    fCachedLocalValidity := false, strLocalValidityError := "", fCachedFunding := false,
    fCachedValid := true, fCachedDelete := false, fCachedEndorsed := false,
    fDirtyCache := true, fExpired := false, fUnparsable := false,
    mapCurrentMNVotes := [], mapOrphanVotes := [], fileVotes := [] }

/-- A vote of voter `(h, 0)`. -/
def exampleVote (h : Nat) (signal outcome time : Int) : CGovernanceVote :=
  { vinMasternode := exampleVin h, nParentHash := 0, nVoteSignal := signal,
    nVoteOutcome := outcome, nTime := time }

/-! ## Auxiliary definitions used in the statements -/

/-- Number of VoteStore entries whose hash is `nHash`. -/
def fileVotes_CountHash (E : Env) (store : List CGovernanceVote) (nHash : Nat) : Nat :=
  (store.filter (fun v => decide (E.voteGetHash v = nHash))).length

/-- The entry `CacheMultiMap.Insert` files for a vote whose voter is not resolved. -/
def orphanEntry (E : Env) (W : World) (vote : CGovernanceVote) : OrphanItem :=
  { key := vote.vinMasternode, vote := vote,
    nExpiry := wrap64 (W.GetAdjustedTime + E.GOVERNANCE_ORPHAN_EXPIRATION_TIME) }

/-- The calls of `ProcessVote` recorded for the entry `x`. -/
def callsFor (x : OrphanItem) (calls : List (OrphanItem × Bool)) : List (OrphanItem × Bool) :=
  calls.filter (fun c => decide (c.1 = x))

/-! ## Further concrete inputs -/

/-- The constants of `exampleEnv` on the primary network. -/
def exampleMainEnv : Env := { exampleEnv with fMainNetwork := true }

/-- An object whose ledger holds, for voter index 0 and the funding signal, a yes vote
created at time 100 and last updated at time 9000. -/
def exampleVotedObject : CGovernanceObject :=
  { exampleObject with
    mapCurrentMNVotes :=
      [(0, { mapInstances := [(1, { eOutcome := 1, nTime := 9000, nCreationTime := 100 })] })]
    fDirtyCache := false }

/-- An object whose ledger holds a yes vote on the funding signal (signal 1, outcome 1)
of each of the voters with index below `n`. -/
def exampleYesObject (n : Nat) : CGovernanceObject :=
  { exampleObject with
    mapCurrentMNVotes := (List.range n).map (fun i =>
      ((i : Int), { mapInstances := [(1, { eOutcome := 1, nTime := 0, nCreationTime := 100 })] })) }

/-- An orphan entry holding the yes vote of voter `(7, 0)` on the funding signal, with
vote timestamp 100 and expiry `nExpiry`. -/
def exampleOrphan (nExpiry : Int) : OrphanItem :=
  { key := exampleVin 7, vote := exampleVote 7 1 1 100, nExpiry := nExpiry }

/-! ## Strings, identity hash and signed message -/

/-- The lower-case hexadecimal digit of `d < 16`. -/
def hexChar (d : Nat) : Char :=
  if d < 10 then Char.ofNat (48 + d) else Char.ofNat (87 + d)

/-- The `w` hexadecimal digits of `x`, most significant first. -/
def hexFixed : Nat → Nat → List Char
  | 0, _ => []
  | w + 1, x => hexFixed w (x / 16) ++ [hexChar (x % 16)]

/-- Modelled from the spec: `uint256::ToString()` (uint256.h is not part of the sources),
the fixed-width hexadecimal form of a 256-bit value: 64 digits. -/
def uint256_ToString (x : Nat) : String := String.mk (hexFixed 64 x)

/-- The decimal digits of `n`, most significant first; `fuel` bounds the number of
digits. -/
def decDigits : Nat → Nat → List Char
  | 0, _ => []
  | fuel + 1, n =>
    if n < 10 then [Char.ofNat (48 + n)]
    else decDigits fuel (n / 10) ++ [Char.ofNat (48 + n % 10)]

/-- The decimal form of a natural number, as `%u` and `%d` print it. -/
def natToDecimal (n : Nat) : String := String.mk (decDigits (n + 1) n)

/-- The decimal form `boost::lexical_cast<std::string>` gives an `int` or `int64_t`. -/
def lexical_cast_string (x : Int) : String :=
  if x < 0 then "-" ++ natToDecimal (-x).toNat else natToDecimal x.toNat

/-- Modelled from the spec: `COutPoint::ToStringShort()` (primitives/transaction.h is
not part of the sources), the short form of an outpoint: transaction hash, a dash, and
the output index. -/
def COutPoint.ToStringShort (o : COutPoint) : String :=
  uint256_ToString o.hash ++ "-" ++ natToDecimal o.n

/-- A value written to a `CHashWriter` with `<<`. -/
inductive SerItem where
  | uint256 (x : Nat)
  | int32 (x : Int)
  | int64 (x : Int)
  | string (s : String)
  | txin (v : CTxIn)
  | bytes (b : List Nat)
deriving DecidableEq, Repr

/-- A `CTxOut`: amount and script. -/
structure CTxOut where
  nValue : Int
  scriptPubKey : List Nat
deriving DecidableEq, Repr

/-- The inputs and outputs of a `CTransaction`. -/
structure CTransaction where
  vin : List CTxIn
  vout : List CTxOut
deriving DecidableEq, Repr

/-- The height of a `CBlockIndex`. -/
structure CBlockIndex where
  nHeight : Int
deriving DecidableEq, Repr

/-- The fields of `masternode_info_t` that `IsValidLocally` reads. -/
structure masternode_info_t where
  fInfoValid : Bool
  pubKeyMasternode : Nat
deriving DecidableEq, Repr

/-- Constants and pure functions that validation takes from headers and libraries not
part of the sources, taken as parameters: the object type enumerators, the fee and
confirmation constants, the hash of a `CHashWriter` stream, the script
`CScript() << OP_RETURN << ToByteVector(hash)`, the two script predicates,
`CTransaction::ToString`, `CPubKey::GetID().ToString()`, and the message signer
(`SignMessage` gets the message, the key and the old content of the signature buffer
and yields its result and the new content of the buffer). -/
structure ValidationEnv where
  GOVERNANCE_OBJECT_PROPOSAL : Int
  GOVERNANCE_OBJECT_TRIGGER : Int
  GOVERNANCE_OBJECT_WATCHDOG : Int
  GOVERNANCE_PROPOSAL_FEE_TX : Int
  MAX_MONEY : Int
  GOVERNANCE_FEE_CONFIRMATIONS : Int
  CHashWriter_GetHash : List SerItem → Nat
  OpReturnScript : Nat → List Nat
  IsNormalPaymentScript : List Nat → Bool
  IsUnspendable : List Nat → Bool
  CTransaction_ToString : CTransaction → String
  CPubKey_GetID_ToString : Nat → String
  SignMessage : String → Nat → List Nat → Bool × List Nat
  VerifyMessage : Nat → List Nat → String → Bool

/-- What the chain state and the roster answer during one call: `GetTransaction` (the
transaction and the hash of its block, 0 when it is in no block), `GetIXConfirmations`,
`mapBlockIndex` (a found, non-null entry), `chainActive.Contains`, `chainActive.Height`,
and of the roster `GetMasternodeInfo`, `Get`, `Has`, `GetMasternodeVinForIndexOld` and
`GetMasternodeIndex`. -/
structure ChainWorld where
  GetTransaction : Nat → Option (CTransaction × Nat)
  GetIXConfirmations : Nat → Int
  mapBlockIndex : Nat → Option CBlockIndex
  chainActive_Contains : CBlockIndex → Bool
  chainActive_Height : Int
  GetMasternodeInfo : CTxIn → masternode_info_t
  Get : Int → Option CTxIn
  Has : CTxIn → Bool
  GetMasternodeVinForIndexOld : Int → Option CTxIn
  GetMasternodeIndex : CTxIn → Int

/-- `CGovernanceObject::GetSignatureMessage()`. -/
def GetSignatureMessage (self : CGovernanceObject) : String :=
  uint256_ToString self.nHashParent ++ "|" ++
    lexical_cast_string self.nRevision ++ "|" ++
    lexical_cast_string self.nTime ++ "|" ++
    self.strData ++ "|" ++
    self.vinMasternode.prevout.ToStringShort ++ "|" ++
    uint256_ToString self.nCollateralHash

/-- `CGovernanceObject::GetHash()`: the hash of the stream the six fields are written
to; the collateral hash is left out. -/
def GetHash (V : ValidationEnv) (self : CGovernanceObject) : Nat :=
  V.CHashWriter_GetHash
    [SerItem.uint256 self.nHashParent, SerItem.int32 self.nRevision,
      SerItem.int64 self.nTime, SerItem.string self.strData,
      SerItem.txin self.vinMasternode, SerItem.bytes self.vchSig]

/-- `CGovernanceObject::Sign(keyMasternode, pubKeyMasternode)`: the return value and the
object afterwards (`vchSig` is the buffer `SignMessage` writes to). -/
def Sign (V : ValidationEnv) (keyMasternode pubKeyMasternode : Nat)
    (self : CGovernanceObject) : Bool × CGovernanceObject :=
  let strMessage := GetSignatureMessage self
  let signed := V.SignMessage strMessage keyMasternode self.vchSig
  let self1 := { self with vchSig := signed.2 }
  if !signed.1 then (false, self1)
  else if !V.VerifyMessage pubKeyMasternode self1.vchSig strMessage then (false, self1)
  else (true, self1)

/-- `CGovernanceObject::CheckSignature(pubKeyMasternode)`. -/
def CheckSignature (V : ValidationEnv) (pubKeyMasternode : Nat)
    (self : CGovernanceObject) : Bool :=
  let strMessage := GetSignatureMessage self
  if !V.VerifyMessage pubKeyMasternode self.vchSig strMessage then false else true

/-! ## Collateral validation -/

/-- `CGovernanceObject::GetMinCollateralFee()`. -/
def GetMinCollateralFee (V : ValidationEnv) (self : CGovernanceObject) : Int :=
  if self.nObjectType = V.GOVERNANCE_OBJECT_PROPOSAL then V.GOVERNANCE_PROPOSAL_FEE_TX
  else if self.nObjectType = V.GOVERNANCE_OBJECT_TRIGGER then 0
  else if self.nObjectType = V.GOVERNANCE_OBJECT_WATCHDOG then 0
  else V.MAX_MONEY

/-- The first loop of `IsCollateralValid` over the outputs: `none` when an output script
is neither a normal payment nor unspendable (the function returns false there), else
the value of `foundOpReturn`, started with `found`. -/
def IsCollateralValid_scanOutputs (V : ValidationEnv) (findScript : List Nat) :
    List CTxOut → Bool → Option Bool
  | [], found => some found
  | o :: rest, found =>
    if !V.IsNormalPaymentScript o.scriptPubKey && !V.IsUnspendable o.scriptPubKey then none
    else if o.scriptPubKey = findScript then
      IsCollateralValid_scanOutputs V findScript rest true
    else IsCollateralValid_scanOutputs V findScript rest found

/-- The loop of `IsCollateralValid` that adds up the outputs, started with
`nValueOut`. -/
def IsCollateralValid_sumOutputs : List CTxOut → Int → Int
  | [], nValueOut => nValueOut
  | txout :: rest, nValueOut =>
    IsCollateralValid_sumOutputs rest (wrap64 (nValueOut + txout.nValue))

/-- The loop of `IsCollateralValid` over the inputs, started with `nValueIn` and
`fMissingTx`: the value of the referenced output is added when the previous transaction
is found and has that output, and `fMissingTx` is set when it is not found. -/
def IsCollateralValid_sumInputs (Ch : ChainWorld) : List CTxIn → Int × Bool → Int × Bool
  | [], acc => acc
  | txin :: rest, (nValueIn, fMissingTx) =>
    match Ch.GetTransaction txin.prevout.hash with
    | some (txPrev, _) =>
      if txPrev.vout.length > txin.prevout.n then
        IsCollateralValid_sumInputs Ch rest
          (wrap64 (nValueIn + (txPrev.vout.getD txin.prevout.n ⟨0, []⟩).nValue), fMissingTx)
      else IsCollateralValid_sumInputs Ch rest (nValueIn, fMissingTx)
    | none => IsCollateralValid_sumInputs Ch rest (nValueIn, true)

/-- The confirmation count `nConfirmationsIn` of `IsCollateralValid`. -/
def IsCollateralValid_confirmations (Ch : ChainWorld) (nCollateralHash nBlockHash : Nat) :
    Int :=
  let nConfirmationsIn := Ch.GetIXConfirmations nCollateralHash
  if nBlockHash ≠ 0 then
    match Ch.mapBlockIndex nBlockHash with
    | some pindex =>
      if Ch.chainActive_Contains pindex then
        wrap32 (nConfirmationsIn + wrap32 (wrap32 (Ch.chainActive_Height - pindex.nHeight) + 1))
      else nConfirmationsIn
    | none => nConfirmationsIn
  else nConfirmationsIn

/-- `CGovernanceObject::IsCollateralValid(strError)`: the return value and the error
string afterwards (the string passed in is overwritten first). When `GetTransaction`
fails `txCollateral` is still the empty transaction. -/
def IsCollateralValid (V : ValidationEnv) (Ch : ChainWorld) (self : CGovernanceObject) :
    Bool × String :=
  let nMinFee := GetMinCollateralFee V self
  let nExpectedHash := GetHash V self
  match Ch.GetTransaction self.nCollateralHash with
  | none =>
    (false, "Can't find collateral tx " ++ V.CTransaction_ToString ⟨[], []⟩)
  | some (txCollateral, nBlockHash) =>
    if txCollateral.vout.length < 1 then
      (false, "tx vout size less than 1 | " ++ natToDecimal txCollateral.vout.length)
    else
      let findScript := V.OpReturnScript nExpectedHash
      match IsCollateralValid_scanOutputs V findScript txCollateral.vout false with
      | none => (false, "Invalid Script " ++ V.CTransaction_ToString txCollateral)
      | some foundOpReturn =>
        if !foundOpReturn then
          (false, "Couldn't find opReturn " ++ uint256_ToString nExpectedHash ++ " in "
            ++ V.CTransaction_ToString txCollateral)
        else
          let nValueOut := IsCollateralValid_sumOutputs txCollateral.vout 0
          let sumIn := IsCollateralValid_sumInputs Ch txCollateral.vin (0, false)
          let nValueIn := sumIn.1
          let fMissingTx := sumIn.2
          if fMissingTx then (false, "")
          else if nValueOut > nValueIn || wrap64 (nValueIn - nValueOut) < nMinFee then
            (false, "")
          else
            let nConfirmationsIn :=
              IsCollateralValid_confirmations Ch self.nCollateralHash nBlockHash
            if nConfirmationsIn ≥ V.GOVERNANCE_FEE_CONFIRMATIONS then (true, "valid")
            else
              (false, "Collateral requires at least "
                ++ lexical_cast_string V.GOVERNANCE_FEE_CONFIRMATIONS
                ++ " confirmations - " ++ lexical_cast_string nConfirmationsIn
                ++ " confirmations")

/-! ## Local validity -/

/-- What `IsValidLocally(strError, fMissingMasternode, fCheckCollateral)` produces: the
return value and the two out-parameters. -/
structure IsValidLocallyResult where
  ret : Bool
  strError : String
  fMissingMasternode : Bool
deriving DecidableEq, Repr

/-- `CGovernanceObject::IsValidLocally(strError, fMissingMasternode, fCheckCollateral)`;
`strError` is the content of the error string before the call. -/
def IsValidLocally (V : ValidationEnv) (Ch : ChainWorld) (self : CGovernanceObject)
    (strError : String) (fCheckCollateral : Bool) : IsValidLocallyResult :=
  if self.fUnparsable then
    { ret := false, strError := "Object data unparseable", fMissingMasternode := false }
  else if ¬ (self.nObjectType = V.GOVERNANCE_OBJECT_PROPOSAL
      ∨ self.nObjectType = V.GOVERNANCE_OBJECT_TRIGGER
      ∨ self.nObjectType = V.GOVERNANCE_OBJECT_WATCHDOG) then
    { ret := false
      strError := "Invalid object type " ++ lexical_cast_string self.nObjectType
      fMissingMasternode := false }
  else if fCheckCollateral then
    if self.nObjectType = V.GOVERNANCE_OBJECT_TRIGGER
        ∨ self.nObjectType = V.GOVERNANCE_OBJECT_WATCHDOG then
      let strOutpoint := self.vinMasternode.prevout.ToStringShort
      let infoMn := Ch.GetMasternodeInfo self.vinMasternode
      if !infoMn.fInfoValid then
        { ret := false, strError := "Masternode not found: " ++ strOutpoint
          fMissingMasternode := true }
      else if !CheckSignature V infoMn.pubKeyMasternode self then
        { ret := false
          strError := "Invalid masternode signature for: " ++ strOutpoint
            ++ ", pubkey id = " ++ V.CPubKey_GetID_ToString infoMn.pubKeyMasternode
          fMissingMasternode := false }
      else { ret := true, strError := strError, fMissingMasternode := false }
    else
      let r := IsCollateralValid V Ch self
      if !r.1 then
        { ret := false
          strError := if r.2 = "" then "Collateral is invalid" else r.2
          fMissingMasternode := false }
      else { ret := true, strError := r.2, fMissingMasternode := false }
  else { ret := true, strError := strError, fMissingMasternode := false }

/-! ## Ledger maintenance -/

/-- Modelled from the spec: `CGovernanceObjectVoteFile::RemoveVotesFromMasternode`
(governance-votedb.h is not part of the sources): the VoteStore entries of the voter
are purged. -/
def fileVotes_RemoveVotesFromMasternode (store : List CGovernanceVote) (vinMasternode : CTxIn) :
    List CGovernanceVote :=
  store.filter (fun v => !decide (v.vinMasternode = vinMasternode))

/-- The `while` loop of `ClearMasternodeVotes` from the iterator position on: the
ledger entries that stay and the VoteStore afterwards. -/
def ClearMasternodeVotes_loop (Ch : ChainWorld) :
    List (Int × vote_rec_t) → List CGovernanceVote →
      List (Int × vote_rec_t) × List CGovernanceVote
  | [], store => ([], store)
  | entry :: rest, store =>
    match Ch.Get entry.1 with
    | some vinMasternode =>
      if Ch.Has vinMasternode then
        -- fRemove = false: ++it
        ((entry :: (ClearMasternodeVotes_loop Ch rest store).1),
          (ClearMasternodeVotes_loop Ch rest store).2)
      else
        ClearMasternodeVotes_loop Ch rest
          (fileVotes_RemoveVotesFromMasternode store vinMasternode)
    | none => ClearMasternodeVotes_loop Ch rest store

/-- `CGovernanceObject::ClearMasternodeVotes()`. -/
def ClearMasternodeVotes (Ch : ChainWorld) (self : CGovernanceObject) : CGovernanceObject :=
  { self with
    mapCurrentMNVotes := (ClearMasternodeVotes_loop Ch self.mapCurrentMNVotes self.fileVotes).1
    fileVotes := (ClearMasternodeVotes_loop Ch self.mapCurrentMNVotes self.fileVotes).2 }

/-- The current index of the voter a ledger entry with index `nOldIndex` belongs to, when
the voter can be located: the old index has an identity and the identity has a current
index that is not negative. -/
def RebuildVoteMap_newIndex (Ch : ChainWorld) (nOldIndex : Int) : Option Int :=
  match Ch.GetMasternodeVinForIndexOld nOldIndex with
  | some vinMasternode =>
    if Ch.GetMasternodeIndex vinMasternode ≥ 0 then some (Ch.GetMasternodeIndex vinMasternode)
    else none
  | none => none

/-- The `for` loop of `RebuildVoteMap` from the iterator position on, with
`mapMNVotesNew` as built so far; `mapMNVotesNew[nNewIndex] = it->second` creates the
key when it is absent and overwrites the record. -/
def RebuildVoteMap_loop (Ch : ChainWorld) :
    List (Int × vote_rec_t) → List (Int × vote_rec_t) → List (Int × vote_rec_t)
  | [], mapMNVotesNew => mapMNVotesNew
  | entry :: rest, mapMNVotesNew =>
    match RebuildVoteMap_newIndex Ch entry.1 with
    | some nNewIndex =>
      RebuildVoteMap_loop Ch rest
        (stdmap.assign (stdmap.insert mapMNVotesNew nNewIndex vote_rec_t.default)
          nNewIndex entry.2)
    | none => RebuildVoteMap_loop Ch rest mapMNVotesNew

/-- `CGovernanceObject::RebuildVoteMap()`. -/
def RebuildVoteMap (Ch : ChainWorld) (self : CGovernanceObject) : CGovernanceObject :=
  { self with mapCurrentMNVotes := RebuildVoteMap_loop Ch self.mapCurrentMNVotes [] }

/-! ## Concrete inputs for validation and maintenance -/

/-- The enumerator values and constants of the upstream headers; the stream hash adds up
the lengths of the items it can see, scripts of one byte 106 are unspendable, all other
scripts are normal payments, and the signature of a message under key `k` is accepted
under public key `k`. -/
def exampleValidationEnv : ValidationEnv :=
  { GOVERNANCE_OBJECT_PROPOSAL := 1, GOVERNANCE_OBJECT_TRIGGER := 2,
    GOVERNANCE_OBJECT_WATCHDOG := 3, GOVERNANCE_PROPOSAL_FEE_TX := 500000000,
    MAX_MONEY := 4200000000000000, GOVERNANCE_FEE_CONFIRMATIONS := 6,
    CHashWriter_GetHash := fun items => items.length + 1000,
    OpReturnScript := fun h => [106, h],
    IsNormalPaymentScript := fun script => decide (script.head? ≠ some 106),
    IsUnspendable := fun script => decide (script.head? = some 106),
    CTransaction_ToString := fun tx => natToDecimal tx.vout.length,
    CPubKey_GetID_ToString := fun k => natToDecimal k,
    SignMessage := fun msg k _ => (true, [k, msg.length]),
    VerifyMessage := fun pk sig msg => decide (sig = [pk, msg.length]) }

/-- A proposal whose collateral transaction has hash 77. -/
def exampleProposal : CGovernanceObject :=
  { exampleObject with nObjectType := 1, nCollateralHash := 77 }

/-- A chain in which transaction 77 is in block 5 at height 90 of an active chain of
height 100, spends output 0 of transaction 88 and has the outputs `vout`; output 0 of
transaction 88 holds `nValuePrev`. The roster knows no voter. -/
def exampleChain (vout : List CTxOut) (nValuePrev : Int) : ChainWorld :=
  { GetTransaction := fun h =>
      if h = 77 then
        some ({ vin := [{ prevout := { hash := 88, n := 0 }, scriptSig := [], nSequence := 0 }],
                vout := vout }, 5)
      else if h = 88 then some ({ vin := [], vout := [{ nValue := nValuePrev, scriptPubKey := [1] }] }, 4)
      else none
    GetIXConfirmations := fun _ => 0
    mapBlockIndex := fun b => if b = 5 then some { nHeight := 90 } else none
    chainActive_Contains := fun _ => true
    chainActive_Height := 100
    GetMasternodeInfo := fun _ => { fInfoValid := false, pubKeyMasternode := 0 }
    Get := fun _ => none
    Has := fun _ => false
    GetMasternodeVinForIndexOld := fun _ => none
    GetMasternodeIndex := fun _ => -1 }

/-- The chain of `exampleChain` without transaction 88: the input of transaction 77
refers to an unknown transaction. -/
def exampleChainUnknownInput (vout : List CTxOut) : ChainWorld :=
  { exampleChain vout 0 with
    GetTransaction := fun h =>
      if h = 77 then
        some ({ vin := [{ prevout := { hash := 88, n := 0 }, scriptSig := [], nSequence := 0 }],
                vout := vout }, 5)
      else none }

/-- The value an input of the collateral transaction contributes: the value of the
output it refers to, 0 when the previous transaction is unknown or has no such output. -/
def inputValue (Ch : ChainWorld) (txin : CTxIn) : Int :=
  match Ch.GetTransaction txin.prevout.hash with
  | some (txPrev, _) =>
    if txPrev.vout.length > txin.prevout.n then
      (txPrev.vout.getD txin.prevout.n ⟨0, []⟩).nValue
    else 0
  | none => 0

/-- The net value of a transaction: the sum of the values its inputs contribute minus
the sum of its output values, as mathematical integers. -/
def netValue (Ch : ChainWorld) (tx : CTransaction) : Int :=
  (tx.vin.map (inputValue Ch)).sum - (tx.vout.map (fun o => o.nValue)).sum

/-- The instance the ledger holds for voter index `nMNIndex` and signal `eSignal`. -/
def ledgerInstance (ledger : List (Int × vote_rec_t)) (nMNIndex eSignal : Int) :
    Option vote_instance_t :=
  (stdmap.find? ledger nMNIndex).bind (fun recVote => stdmap.find? recVote.mapInstances eSignal)

/-- The decision table of `IsValidLocally` in the words of the specification: the
validity and the missing-voter-identity flag. -/
def IsValidLocally_table (V : ValidationEnv) (Ch : ChainWorld) (self : CGovernanceObject)
    (fCheckCollateral : Bool) : Bool × Bool :=
  if self.fUnparsable then (false, false)
  else if self.nObjectType ≠ V.GOVERNANCE_OBJECT_PROPOSAL
      ∧ self.nObjectType ≠ V.GOVERNANCE_OBJECT_TRIGGER
      ∧ self.nObjectType ≠ V.GOVERNANCE_OBJECT_WATCHDOG then (false, false)
  else if fCheckCollateral = false then (true, false)
  else if self.nObjectType = V.GOVERNANCE_OBJECT_TRIGGER
      ∨ self.nObjectType = V.GOVERNANCE_OBJECT_WATCHDOG then
    if (Ch.GetMasternodeInfo self.vinMasternode).fInfoValid = false then (false, true)
    else if CheckSignature V (Ch.GetMasternodeInfo self.vinMasternode).pubKeyMasternode self
        = false then (false, false)
    else (true, false)
  else ((IsCollateralValid V Ch self).1, false)

/-- Whether `ClearMasternodeVotes` keeps a ledger entry: its index resolves to an
identity and the roster has that identity. -/
def ClearMasternodeVotes_keeps (Ch : ChainWorld) (entry : Int × vote_rec_t) : Bool :=
  match Ch.Get entry.1 with
  | some vinMasternode => Ch.Has vinMasternode
  | none => false

/-- The ledger entries whose voter can be located, each under the voter's current
index. -/
def RebuildVoteMap_located (Ch : ChainWorld) (ledger : List (Int × vote_rec_t)) :
    List (Int × vote_rec_t) :=
  ledger.filterMap (fun entry =>
    (RebuildVoteMap_newIndex Ch entry.1).map (fun nNewIndex => (nNewIndex, entry.2)))

/-- A roster in which the indices 0, 1 and 2 belong to the voters `(0, 0)`, `(1, 0)` and
`(2, 0)`, only voter `(0, 0)` is still present, and after re-indexing voter `(h, 0)` has
index `h + 10`, except voter `(1, 0)`, who has none. Index 7 belongs to nobody. -/
def exampleRoster : ChainWorld :=
  { exampleChain [] 0 with
    Get := fun i => if 0 ≤ i ∧ i < 3 then some (exampleVin i.toNat) else none
    Has := fun vin => decide (vin = exampleVin 0)
    GetMasternodeVinForIndexOld := fun i =>
      if 0 ≤ i ∧ i < 3 then some (exampleVin i.toNat) else none
    GetMasternodeIndex := fun vin => if vin.prevout.hash = 1 then -1 else vin.prevout.hash + 10 }

/-- An object with yes votes on the funding signal of the voters with indices 0, 1 and
2, and their three votes in the VoteStore. -/
def exampleThreeVotersObject : CGovernanceObject :=
  { exampleYesObject 3 with
    fileVotes := [exampleVote 0 1 1 100, exampleVote 1 1 1 100, exampleVote 2 1 1 100] }

/-! ## The checks of ProcessVote, in the order of the specification -/

/-- The instance `ProcessVote` examines for a vote: the one the ledger holds for the
voter index and signal, or a default-constructed one when there is none. -/
def ProcessVote_voteInstance (E : Env) (W : World) (vote : CGovernanceVote)
    (self : CGovernanceObject) : vote_instance_t :=
  (ledgerInstance self.mapCurrentMNVotes (W.GetMasternodeIndex vote.vinMasternode)
    vote.nVoteSignal).getD (vote_instance_t.default E)

/-- The seven checks of `ProcessVote` in the words of the specification, in its order:
for each check whether the vote fails it, and the exception reported when it does. -/
def ProcessVote_checks (E : Env) (W : World) (vote : CGovernanceVote)
    (self : CGovernanceObject) : List (Bool × CGovernanceException) :=
  let voteInstance := ProcessVote_voteInstance E W vote self
  [ -- voter resolved
    (decide (W.GetMasternodeIndex vote.vinMasternode < 0),
      ⟨GOVERNANCE_EXCEPTION_WARNING, 0⟩),
    -- signal not None
    (decide (vote.nVoteSignal = E.VOTE_SIGNAL_NONE), ⟨GOVERNANCE_EXCEPTION_WARNING, 0⟩),
    -- signal not above MAX_SUPPORTED_VOTE_SIGNAL
    (decide (vote.nVoteSignal > E.MAX_SUPPORTED_VOTE_SIGNAL),
      ⟨GOVERNANCE_EXCEPTION_PERMANENT_ERROR, 20⟩),
    -- not obsolete
    (decide (vote.nTime < voteInstance.nCreationTime), ⟨GOVERNANCE_EXCEPTION_NONE, 0⟩),
    -- rate limit
    (W.AreRateChecksEnabled
        && decide (wrap64 (W.GetTime - voteInstance.nTime) < E.GOVERNANCE_UPDATE_MIN),
      ⟨GOVERNANCE_EXCEPTION_TEMPORARY_ERROR, 0⟩),
    -- signature valid
    (!W.IsValid vote, ⟨GOVERNANCE_EXCEPTION_PERMANENT_ERROR, 20⟩),
    -- roster registration
    (!W.AddGovernanceVote vote.vinMasternode vote.nParentHash,
      ⟨GOVERNANCE_EXCEPTION_PERMANENT_ERROR, 0⟩) ]

/-- The exception of the first failing check, in the words of the specification. -/
def ProcessVote_firstFailure (E : Env) (W : World) (vote : CGovernanceVote)
    (self : CGovernanceObject) : Option CGovernanceException :=
  ((ProcessVote_checks E W vote self).find? (fun c => c.1)).map (fun c => c.2)

/-- A sequence of `ProcessVote` calls on one object, each with what the collaborators
answer during that call; the object after the last call. -/
def ProcessVote_sequence (E : Env) :
    List (World × Bool × CGovernanceVote) → CGovernanceObject → CGovernanceObject
  | [], self => self
  | (W, pfrom, vote) :: rest, self =>
    ProcessVote_sequence E rest (ProcessVote E W pfrom vote self).obj

/-- The roster of `exampleWorld` when it knows no voter: no identity resolves to an
index and `Has` answers false. -/
def exampleUnresolvedWorld (now : Int) : World :=
  { exampleWorld now with GetMasternodeIndex := fun _ => -1, Has := fun _ => false }

end Governance

namespace Governance

open governance_exception_type_enum_t

/-! ## Facts about the association-list maps -/

namespace stdmap

variable {α : Type}

theorem find?_insertSorted_self (m : List (Int × α)) (k : Int) (v : α)
    (h : find? m k = none) : find? (insertSorted k v m) k = some v := by
  induction m with
  | nil => simp [insertSorted, find?]
  | cons p rest ih =>
    obtain ⟨k', v'⟩ := p
    simp only [find?] at h
    by_cases hk : k' = k
    · simp [hk] at h
    · simp only [hk, if_false] at h
      unfold insertSorted
      by_cases hlt : k < k'
      · simp [hlt, find?]
      · simp [hlt, find?, hk, ih h]

theorem insert_of_find?_some (m : List (Int × α)) (k : Int) (v x : α)
    (h : find? m k = some x) : insert m k v = m := by
  simp [insert, h]

theorem find?_insert_self (m : List (Int × α)) (k : Int) (v : α) :
    find? (insert m k v) k = some ((find? m k).getD v) := by
  unfold insert
  cases h : find? m k with
  | none => simpa using find?_insertSorted_self m k v h
  | some x => simp [h]

theorem find?_assign_self (m : List (Int × α)) (k : Int) (v x : α)
    (h : find? m k = some x) : find? (assign m k v) k = some v := by
  induction m with
  | nil => simp [find?] at h
  | cons p rest ih =>
    obtain ⟨k', v'⟩ := p
    by_cases hk : k' = k
    · simp [assign, find?, hk]
    · simp only [find?, hk, if_false] at h
      simp [assign, find?, hk, ih h]

theorem assign_of_find? (m : List (Int × α)) (k : Int) (v : α)
    (h : find? m k = some v) : assign m k v = m := by
  induction m with
  | nil => rfl
  | cons p rest ih =>
    obtain ⟨k', v'⟩ := p
    by_cases hk : k' = k
    · simp only [find?, hk, if_true, Option.some.injEq] at h
      simp [assign, hk, h]
    · simp only [find?, hk, if_false] at h
      simp [assign, hk, ih h]

theorem assign_assign (m : List (Int × α)) (k : Int) (v w : α) :
    assign (assign m k v) k w = assign m k w := by
  induction m with
  | nil => rfl
  | cons p rest ih =>
    obtain ⟨k', v'⟩ := p
    by_cases hk : k' = k
    · simp [assign, hk]
    · simp [assign, hk, ih]

end stdmap

/-! ## Machine arithmetic without overflow -/

/-- An `int` product that does not overflow is the mathematical product. -/
theorem wrap32_of_range (x : Int) (h0 : -2 ^ 31 ≤ x) (h1 : x < 2 ^ 31) : wrap32 x = x := by
  unfold wrap32
  omega

/-- An `int64_t` result that does not overflow is the mathematical result. -/
theorem wrap64_of_range (x : Int) (h0 : -2 ^ 63 ≤ x) (h1 : x < 2 ^ 63) : wrap64 x = x := by
  unfold wrap64
  omega

/-! ## ProcessVote when the voter's record and instance already exist -/

/-- The object is rebuilt unchanged when its ledger is written back. -/
theorem obj_with_ledger_self (s : CGovernanceObject) :
    { s with mapCurrentMNVotes := s.mapCurrentMNVotes } = s := rfl

/-- When the voter's record `recVote` and its instance `inst` for the vote's signal
exist already, `ProcessVote` creates nothing: every failing check leaves the object as it
was and the commit overwrites `inst` in place. -/
theorem ProcessVote_found (E : Env) (W : World) (pfrom : Bool) (vote : CGovernanceVote)
    (s : CGovernanceObject) (recVote : vote_rec_t) (inst : vote_instance_t)
    (hidx : ¬ W.GetMasternodeIndex vote.vinMasternode < 0)
    (hnone : vote.nVoteSignal ≠ E.VOTE_SIGNAL_NONE)
    (hmax : ¬ vote.nVoteSignal > E.MAX_SUPPORTED_VOTE_SIGNAL)
    (hrec : stdmap.find? s.mapCurrentMNVotes (W.GetMasternodeIndex vote.vinMasternode)
      = some recVote)
    (hinst : stdmap.find? recVote.mapInstances vote.nVoteSignal = some inst) :
    ProcessVote E W pfrom vote s =
      if vote.nTime < inst.nCreationTime then
        { ret := false, exception := some ⟨GOVERNANCE_EXCEPTION_NONE, 0⟩, obj := s,
          fAskedForMN := false, fAddedInvalidVote := false }
      else if W.AreRateChecksEnabled
          && decide (wrap64 (W.GetTime - inst.nTime) < E.GOVERNANCE_UPDATE_MIN) then
        { ret := false, exception := some ⟨GOVERNANCE_EXCEPTION_TEMPORARY_ERROR, 0⟩, obj := s,
          fAskedForMN := false, fAddedInvalidVote := false }
      else if !W.IsValid vote then
        { ret := false, exception := some ⟨GOVERNANCE_EXCEPTION_PERMANENT_ERROR, 20⟩, obj := s,
          fAskedForMN := false, fAddedInvalidVote := true }
      else if !W.AddGovernanceVote vote.vinMasternode vote.nParentHash then
        { ret := false, exception := some ⟨GOVERNANCE_EXCEPTION_PERMANENT_ERROR, 0⟩, obj := s,
          fAskedForMN := false, fAddedInvalidVote := false }
      else
        { ret := true, exception := none
          obj := { s with
            mapCurrentMNVotes :=
              stdmap.assign s.mapCurrentMNVotes (W.GetMasternodeIndex vote.vinMasternode)
                { mapInstances := stdmap.assign recVote.mapInstances vote.nVoteSignal
                    { eOutcome := vote.nVoteOutcome, nTime := inst.nTime,
                      nCreationTime := vote.nTime } }
            fileVotes :=
              if fileVotes_HasVote E s.fileVotes (E.voteGetHash vote) then s.fileVotes
              else fileVotes_AddVote s.fileVotes vote
            fDirtyCache := true }
          fAskedForMN := false, fAddedInvalidVote := false } := by
  have hv1 : stdmap.insert s.mapCurrentMNVotes (W.GetMasternodeIndex vote.vinMasternode)
      vote_rec_t.default = s.mapCurrentMNVotes :=
    stdmap.insert_of_find?_some _ _ _ _ hrec
  have hi1 : stdmap.insert recVote.mapInstances vote.nVoteSignal (vote_instance_t.default E)
      = recVote.mapInstances :=
    stdmap.insert_of_find?_some _ _ _ _ hinst
  have hself : stdmap.assign s.mapCurrentMNVotes (W.GetMasternodeIndex vote.vinMasternode)
      { mapInstances := recVote.mapInstances } = s.mapCurrentMNVotes :=
    stdmap.assign_of_find? _ _ _ hrec
  unfold ProcessVote
  simp only [hidx, hnone, hmax, if_false, hv1, hrec, Option.getD_some, hi1, hinst, hself]

/-- After the commit's "add unless present" step the vote's hash is in the VoteStore. -/
theorem fileVotes_HasVote_after (E : Env) (store : List CGovernanceVote)
    (vote : CGovernanceVote) :
    fileVotes_HasVote E
      (if fileVotes_HasVote E store (E.voteGetHash vote) then store
        else fileVotes_AddVote store vote) (E.voteGetHash vote) = true := by
  by_cases h : fileVotes_HasVote E store (E.voteGetHash vote) = true
  · simp only [h, if_true]
  · simp only [h]
    simp [fileVotes_AddVote, fileVotes_HasVote]

/-- What a successful `ProcessVote` leaves behind: the voter was resolved, the signal is
supported, and the ledger holds, for the voter's index and the vote's signal, an
instance with the vote's outcome and the vote's timestamp as creation time; the vote's
hash is in the VoteStore. -/
theorem ProcessVote_commit (E : Env) (W : World) (pfrom : Bool) (vote : CGovernanceVote)
    (s : CGovernanceObject) (h : (ProcessVote E W pfrom vote s).ret = true) :
    ¬ W.GetMasternodeIndex vote.vinMasternode < 0 ∧
    vote.nVoteSignal ≠ E.VOTE_SIGNAL_NONE ∧
    ¬ vote.nVoteSignal > E.MAX_SUPPORTED_VOTE_SIGNAL ∧
    (∃ recVote inst,
      stdmap.find? (ProcessVote E W pfrom vote s).obj.mapCurrentMNVotes
        (W.GetMasternodeIndex vote.vinMasternode) = some recVote ∧
      stdmap.find? recVote.mapInstances vote.nVoteSignal = some inst ∧
      inst.eOutcome = vote.nVoteOutcome ∧ inst.nCreationTime = vote.nTime) ∧
    fileVotes_HasVote E (ProcessVote E W pfrom vote s).obj.fileVotes (E.voteGetHash vote)
      = true := by
  unfold ProcessVote at h ⊢
  by_cases hidx : W.GetMasternodeIndex vote.vinMasternode < 0
  · simp [hidx] at h
  by_cases hnone : vote.nVoteSignal = E.VOTE_SIGNAL_NONE
  · simp [hidx, hnone] at h
  by_cases hmax : vote.nVoteSignal > E.MAX_SUPPORTED_VOTE_SIGNAL
  · simp [hidx, hnone, hmax] at h
  simp only [hidx, hnone, hmax, if_false] at h ⊢
  split_ifs at h with h1 h2 h3 h4 h5
  all_goals
    rw [if_neg h1, if_neg h2, if_neg h3, if_neg h4]
    refine ⟨not_false, hnone, not_false, ?_, ?_⟩
    · have e1 := stdmap.find?_insert_self s.mapCurrentMNVotes
        (W.GetMasternodeIndex vote.vinMasternode) vote_rec_t.default
      have e2 := stdmap.find?_insert_self
        ((stdmap.find? (stdmap.insert s.mapCurrentMNVotes
          (W.GetMasternodeIndex vote.vinMasternode) vote_rec_t.default)
          (W.GetMasternodeIndex vote.vinMasternode)).getD vote_rec_t.default).mapInstances
        vote.nVoteSignal (vote_instance_t.default E)
      exact ⟨_, _, stdmap.find?_assign_self _ _ _ _ e1,
        stdmap.find?_assign_self _ _ _ _ e2, rfl, rfl⟩
    · exact fileVotes_HasVote_after E s.fileVotes vote

/-! ## Rate limiting and obsolete votes -/

/-- C1 (the code at the failing input): on a fresh object, with rate checks enabled and
`GOVERNANCE_UPDATE_MIN = 3600`, a vote of voter 0 on the funding signal is committed at
time 10000; the committed instance keeps `nTime = 0`, not 10000. A second, newer vote of
the same voter on the same signal processed at time 10001, one second after the commit,
is not rejected as a temporary error: it is committed as well. -/
theorem C1_vote_one_second_after_commit_is_committed :
    (ProcessVote exampleEnv (exampleWorld 10000) false (exampleVote 0 1 1 100)
      exampleObject).ret = true ∧
    (ProcessVote exampleEnv (exampleWorld 10000) false (exampleVote 0 1 1 100)
      exampleObject).obj.mapCurrentMNVotes
      = [(0, { mapInstances := [(1, { eOutcome := 1, nTime := 0, nCreationTime := 100 })] })] ∧
    (exampleWorld 10001).AreRateChecksEnabled = true ∧
    (0 : Int) ≤ 10001 - 10000 ∧ (10001 : Int) - 10000 < exampleEnv.GOVERNANCE_UPDATE_MIN ∧
    (ProcessVote exampleEnv (exampleWorld 10001) false (exampleVote 0 1 2 200)
      (ProcessVote exampleEnv (exampleWorld 10000) false (exampleVote 0 1 1 100)
        exampleObject).obj).ret = true ∧
    (ProcessVote exampleEnv (exampleWorld 10001) false (exampleVote 0 1 2 200)
      (ProcessVote exampleEnv (exampleWorld 10000) false (exampleVote 0 1 1 100)
        exampleObject).obj).exception = none ∧
    (ProcessVote exampleEnv (exampleWorld 10001) false (exampleVote 0 1 2 200)
      (ProcessVote exampleEnv (exampleWorld 10000) false (exampleVote 0 1 1 100)
        exampleObject).obj).obj.mapCurrentMNVotes
      = [(0, { mapInstances := [(1, { eOutcome := 2, nTime := 0, nCreationTime := 200 })] })] := by
  decide

/-- C2: once `ProcessVote` has committed `V1`, `ProcessVote` of any `V2` of a voter
resolving to the same index, with the same signal and a timestamp smaller than that of
`V1`, returns false with the exception of type none and penalty 0, whatever the
collaborators answer during the second call (signature validity, rate checks, clock),
and leaves the object, hence the committed instance, unchanged. -/
theorem C2_older_vote_after_commit_is_obsolete (E : Env) (W1 W2 : World) (pf1 pf2 : Bool)
    (V1 V2 : CGovernanceVote) (s : CGovernanceObject)
    (hcommit : (ProcessVote E W1 pf1 V1 s).ret = true)
    (hidx : W2.GetMasternodeIndex V2.vinMasternode = W1.GetMasternodeIndex V1.vinMasternode)
    (hsig : V2.nVoteSignal = V1.nVoteSignal)
    (hold : V2.nTime < V1.nTime) :
    ProcessVote E W2 pf2 V2 (ProcessVote E W1 pf1 V1 s).obj =
      { ret := false
        exception := some { eType := GOVERNANCE_EXCEPTION_NONE, nNodePenalty := 0 }
        obj := (ProcessVote E W1 pf1 V1 s).obj
        fAskedForMN := false
        fAddedInvalidVote := false } := by
  obtain ⟨h0, hnone, hmax, ⟨recVote, inst, hrec, hinst, _, hct⟩, _⟩ :=
    ProcessVote_commit E W1 pf1 V1 s hcommit
  rw [← hidx] at h0 hrec
  rw [← hsig] at hnone hmax hinst
  rw [ProcessVote_found E W2 pf2 V2 _ recVote inst h0 hnone hmax hrec hinst]
  rw [if_pos (by rw [hct]; exact hold)]

/-- C2 at a concrete input: a vote with timestamp 50 after the commit of one with
timestamp 100. -/
theorem C2_older_vote_after_commit_is_obsolete_witness :
    ProcessVote exampleEnv (exampleWorld 20000) true (exampleVote 0 1 2 50)
        (ProcessVote exampleEnv (exampleWorld 10000) false (exampleVote 0 1 1 100)
          exampleObject).obj =
      { ret := false
        exception := some { eType := GOVERNANCE_EXCEPTION_NONE, nNodePenalty := 0 }
        obj := (ProcessVote exampleEnv (exampleWorld 10000) false (exampleVote 0 1 1 100)
          exampleObject).obj
        fAskedForMN := false
        fAddedInvalidVote := false } :=
  C2_older_vote_after_commit_is_obsolete exampleEnv (exampleWorld 10000) (exampleWorld 20000)
    false true (exampleVote 0 1 1 100) (exampleVote 0 1 2 50) exampleObject
    (by decide) (by decide) (by decide) (by decide)

/-- C6: when the instance of the vote's (voter index, signal) exists with last update
time `inst.nTime`, the vote is not obsolete, its signal is supported, rate checks are
enabled and the time difference `nNow - inst.nTime` computed by the code (in `int64_t`,
so equal to the mathematical difference whenever that is representable, see
`wrap64_of_range`) is below `GOVERNANCE_UPDATE_MIN`, then `ProcessVote` returns false
with a temporary error (penalty 0) and the whole object, in particular the instance,
the VoteStore and the dirty flag, is unchanged. -/
theorem C6_rate_limited_vote_is_temporary_error (E : Env) (W : World) (pfrom : Bool)
    (vote : CGovernanceVote) (s : CGovernanceObject) (recVote : vote_rec_t)
    (inst : vote_instance_t)
    (hidx : 0 ≤ W.GetMasternodeIndex vote.vinMasternode)
    (hrec : stdmap.find? s.mapCurrentMNVotes (W.GetMasternodeIndex vote.vinMasternode)
      = some recVote)
    (hinst : stdmap.find? recVote.mapInstances vote.nVoteSignal = some inst)
    (hnone : vote.nVoteSignal ≠ E.VOTE_SIGNAL_NONE)
    (hmax : vote.nVoteSignal ≤ E.MAX_SUPPORTED_VOTE_SIGNAL)
    (hfresh : inst.nCreationTime ≤ vote.nTime)
    (hrate : W.AreRateChecksEnabled = true)
    (hdelta : wrap64 (W.GetTime - inst.nTime) < E.GOVERNANCE_UPDATE_MIN) :
    ProcessVote E W pfrom vote s =
      { ret := false
        exception := some { eType := GOVERNANCE_EXCEPTION_TEMPORARY_ERROR, nNodePenalty := 0 }
        obj := s
        fAskedForMN := false
        fAddedInvalidVote := false } := by
  rw [ProcessVote_found E W pfrom vote s recVote inst (not_lt.mpr hidx) hnone
    (not_lt.mpr hmax) hrec hinst]
  rw [if_neg (not_lt.mpr hfresh), if_pos (by simp [hrate, hdelta])]

/-- C6 at a concrete input: a vote processed at time 10000, 1000 seconds after the last
update time 9000, with a minimum interval of 3600 seconds. -/
theorem C6_rate_limited_vote_is_temporary_error_witness :
    ProcessVote exampleEnv (exampleWorld 10000) true (exampleVote 0 1 2 200)
        exampleVotedObject =
      { ret := false
        exception := some { eType := GOVERNANCE_EXCEPTION_TEMPORARY_ERROR, nNodePenalty := 0 }
        obj := exampleVotedObject
        fAskedForMN := false
        fAddedInvalidVote := false } :=
  C6_rate_limited_vote_is_temporary_error exampleEnv (exampleWorld 10000) true
    (exampleVote 0 1 2 200) exampleVotedObject
    { mapInstances := [(1, { eOutcome := 1, nTime := 9000, nCreationTime := 100 })] }
    { eOutcome := 1, nTime := 9000, nCreationTime := 100 }
    (by decide) (by decide) (by decide) (by decide) (by decide) (by decide) (by decide)
    (by decide)

/-! ## Re-submission of a committed vote -/

theorem fileVotes_CountHash_of_not_HasVote (E : Env) (store : List CGovernanceVote)
    (nHash : Nat) (h : ¬ fileVotes_HasVote E store nHash = true) :
    fileVotes_CountHash E store nHash = 0 := by
  simp only [fileVotes_HasVote, List.any_eq_true, decide_eq_true_eq, not_exists, not_and] at h
  simp only [fileVotes_CountHash, List.length_eq_zero, List.filter_eq_nil_iff,
    decide_eq_true_eq]
  exact h

theorem fileVotes_CountHash_of_HasVote (E : Env) (store : List CGovernanceVote)
    (nHash : Nat) (h : fileVotes_HasVote E store nHash = true) :
    1 ≤ fileVotes_CountHash E store nHash := by
  simp only [fileVotes_HasVote, List.any_eq_true, decide_eq_true_eq] at h
  obtain ⟨v, hv, hh⟩ := h
  have hmem : v ∈ store.filter (fun v => decide (E.voteGetHash v = nHash)) := by
    simp [List.mem_filter, hv, hh]
  exact List.length_pos_of_mem hmem

/-- The VoteStore after any `ProcessVote`: touched only by a commit, which adds the vote
unless its hash is present. -/
theorem ProcessVote_fileVotes (E : Env) (W : World) (pfrom : Bool) (vote : CGovernanceVote)
    (s : CGovernanceObject) :
    (ProcessVote E W pfrom vote s).obj.fileVotes =
      if (ProcessVote E W pfrom vote s).ret then
        (if fileVotes_HasVote E s.fileVotes (E.voteGetHash vote) then s.fileVotes
          else fileVotes_AddVote s.fileVotes vote)
      else s.fileVotes := by
  generalize hr : ProcessVote E W pfrom vote s = r
  unfold ProcessVote at hr
  dsimp only at hr
  split_ifs at hr <;> subst hr <;> first | rfl | (simp only [*, if_true, if_false] <;> rfl)

/-- A `ProcessVote` of an unresolved voter touches the orphan cache only. -/
theorem ProcessVote_unresolved (E : Env) (W : World) (pfrom : Bool) (vote : CGovernanceVote)
    (s : CGovernanceObject) (h : W.GetMasternodeIndex vote.vinMasternode < 0) :
    ProcessVote E W pfrom vote s =
      { ret := false
        exception := some { eType := GOVERNANCE_EXCEPTION_WARNING, nNodePenalty := 0 }
        obj := { s with mapOrphanVotes :=
          (CacheMultiMap.Insert s.mapOrphanVotes vote.vinMasternode
            (vote, wrap64 (W.GetAdjustedTime + E.GOVERNANCE_ORPHAN_EXPIRATION_TIME))).1 }
        fAskedForMN :=
          (CacheMultiMap.Insert s.mapOrphanVotes vote.vinMasternode
            (vote, wrap64 (W.GetAdjustedTime + E.GOVERNANCE_ORPHAN_EXPIRATION_TIME))).2 && pfrom
        fAddedInvalidVote := false } := by
  unfold ProcessVote
  simp only [h, if_true]

/-- Processing a committed vote again, by a voter resolving to the same index or to
none, changes neither the ledger nor the VoteStore. -/
theorem ProcessVote_again_ledger_store (E : Env) (W1 W2 : World) (pf1 pf2 : Bool)
    (V : CGovernanceVote) (s : CGovernanceObject)
    (hcommit : (ProcessVote E W1 pf1 V s).ret = true)
    (hidx : W2.GetMasternodeIndex V.vinMasternode = W1.GetMasternodeIndex V.vinMasternode
      ∨ W2.GetMasternodeIndex V.vinMasternode < 0) :
    (ProcessVote E W2 pf2 V (ProcessVote E W1 pf1 V s).obj).obj.mapCurrentMNVotes
      = (ProcessVote E W1 pf1 V s).obj.mapCurrentMNVotes ∧
    (ProcessVote E W2 pf2 V (ProcessVote E W1 pf1 V s).obj).obj.fileVotes
      = (ProcessVote E W1 pf1 V s).obj.fileVotes := by
  obtain ⟨h0, hnone, hmax, ⟨recVote, inst, hrec, hinst, hout, hct⟩, hhas⟩ :=
    ProcessVote_commit E W1 pf1 V s hcommit
  by_cases hneg : W2.GetMasternodeIndex V.vinMasternode < 0
  · rw [ProcessVote_unresolved E W2 pf2 V _ hneg]
    exact ⟨rfl, rfl⟩
  · have hsame : W2.GetMasternodeIndex V.vinMasternode
        = W1.GetMasternodeIndex V.vinMasternode := by
      rcases hidx with h | h
      · exact h
      · exact absurd h hneg
    rw [← hsame] at h0 hrec
    rw [ProcessVote_found E W2 pf2 V _ recVote inst h0 hnone hmax hrec hinst]
    have hinst_eq : vote_instance_t.mk V.nVoteOutcome inst.nTime V.nTime = inst := by
      rw [← hout, ← hct]
    have hrec_eq : vote_rec_t.mk (stdmap.assign recVote.mapInstances V.nVoteSignal
        (vote_instance_t.mk V.nVoteOutcome inst.nTime V.nTime)) = recVote := by
      rw [hinst_eq, stdmap.assign_of_find? _ _ _ hinst]
    rw [hrec_eq, stdmap.assign_of_find? _ _ _ hrec, if_pos hhas]
    split_ifs <;> exact ⟨rfl, rfl⟩

/-- C5 (counterexample): the yes vote of voter `(0, 0)` on the funding signal is
committed while the roster resolves the voter to index 0, and the identical vote is
submitted again after the roster has come to resolve the voter to index 1. The second
call succeeds and files the vote under index 1 next to the record of index 0: the
VoteStore still holds one entry for the hash, but the yes count of the funding signal
goes from 1 to 2. -/
theorem C5_resubmitted_vote_after_reindexing_is_counted_again :
    (ProcessVote exampleEnv (exampleWorld 10000) false (exampleVote 0 1 1 100)
      exampleObject).ret = true ∧
    GetYesCount exampleEnv
      (ProcessVote exampleEnv (exampleWorld 10000) false (exampleVote 0 1 1 100)
        exampleObject).obj 1 = 1 ∧
    (ProcessVote exampleEnv { exampleWorld 20000 with GetMasternodeIndex := fun _ => 1 } false
      (exampleVote 0 1 1 100)
      (ProcessVote exampleEnv (exampleWorld 10000) false (exampleVote 0 1 1 100)
        exampleObject).obj).ret = true ∧
    GetYesCount exampleEnv
      (ProcessVote exampleEnv { exampleWorld 20000 with GetMasternodeIndex := fun _ => 1 } false
        (exampleVote 0 1 1 100)
        (ProcessVote exampleEnv (exampleWorld 10000) false (exampleVote 0 1 1 100)
          exampleObject).obj).obj 1 = 2 ∧
    fileVotes_CountHash exampleEnv
      (ProcessVote exampleEnv { exampleWorld 20000 with GetMasternodeIndex := fun _ => 1 } false
        (exampleVote 0 1 1 100)
        (ProcessVote exampleEnv (exampleWorld 10000) false (exampleVote 0 1 1 100)
          exampleObject).obj).obj.fileVotes
      (exampleEnv.voteGetHash (exampleVote 0 1 1 100)) = 1 := by
  decide

/-- C5 (amended): after a successful `ProcessVote(V)`, a further `ProcessVote(V)` of the
identical vote, whether it succeeds or is rejected and whatever the roster then answers,
leaves the VoteStore as it was, with exactly one entry for the hash of `V` (given it
held at most one before `V` was first committed, as a store that only adds absent
hashes does). When the voter still resolves to the same index, or to none, the second
call also leaves `CountMatchingVotes` for every signal and outcome, and so the yes, no
and abstain counts, unchanged. -/
theorem C5_resubmitted_vote_same_index_changes_no_tally (E : Env) (W1 W2 : World)
    (pf1 pf2 : Bool) (V : CGovernanceVote) (s : CGovernanceObject)
    (hcommit : (ProcessVote E W1 pf1 V s).ret = true)
    (hstore : fileVotes_CountHash E s.fileVotes (E.voteGetHash V) ≤ 1) :
    fileVotes_CountHash E (ProcessVote E W1 pf1 V s).obj.fileVotes (E.voteGetHash V) = 1 ∧
    fileVotes_CountHash E
      (ProcessVote E W2 pf2 V (ProcessVote E W1 pf1 V s).obj).obj.fileVotes
      (E.voteGetHash V) = 1 ∧
    (ProcessVote E W2 pf2 V (ProcessVote E W1 pf1 V s).obj).obj.fileVotes
      = (ProcessVote E W1 pf1 V s).obj.fileVotes ∧
    ((W2.GetMasternodeIndex V.vinMasternode = W1.GetMasternodeIndex V.vinMasternode
        ∨ W2.GetMasternodeIndex V.vinMasternode < 0) →
      (∀ eSignal eOutcome : Int,
        CountMatchingVotes (ProcessVote E W2 pf2 V (ProcessVote E W1 pf1 V s).obj).obj
            eSignal eOutcome
          = CountMatchingVotes (ProcessVote E W1 pf1 V s).obj eSignal eOutcome) ∧
      (∀ eSignal : Int,
        GetYesCount E (ProcessVote E W2 pf2 V (ProcessVote E W1 pf1 V s).obj).obj eSignal
          = GetYesCount E (ProcessVote E W1 pf1 V s).obj eSignal ∧
        GetNoCount E (ProcessVote E W2 pf2 V (ProcessVote E W1 pf1 V s).obj).obj eSignal
          = GetNoCount E (ProcessVote E W1 pf1 V s).obj eSignal ∧
        GetAbstainCount E (ProcessVote E W2 pf2 V (ProcessVote E W1 pf1 V s).obj).obj eSignal
          = GetAbstainCount E (ProcessVote E W1 pf1 V s).obj eSignal)) := by
  have hone : fileVotes_CountHash E (ProcessVote E W1 pf1 V s).obj.fileVotes
      (E.voteGetHash V) = 1 := by
    rw [ProcessVote_fileVotes, hcommit, if_pos rfl]
    by_cases hhas : fileVotes_HasVote E s.fileVotes (E.voteGetHash V) = true
    · rw [if_pos hhas]
      have := fileVotes_CountHash_of_HasVote E s.fileVotes _ hhas
      omega
    · rw [if_neg hhas]
      have h0 := fileVotes_CountHash_of_not_HasVote E s.fileVotes _ hhas
      simp only [fileVotes_CountHash] at h0 ⊢
      simp [fileVotes_AddVote, List.filter_append, h0]
  have hhas : fileVotes_HasVote E (ProcessVote E W1 pf1 V s).obj.fileVotes
      (E.voteGetHash V) = true := (ProcessVote_commit E W1 pf1 V s hcommit).2.2.2.2
  have hfile : (ProcessVote E W2 pf2 V (ProcessVote E W1 pf1 V s).obj).obj.fileVotes
      = (ProcessVote E W1 pf1 V s).obj.fileVotes := by
    rw [ProcessVote_fileVotes E W2 pf2 V, if_pos hhas]
    split_ifs <;> rfl
  refine ⟨hone, ?_, hfile, ?_⟩
  · rw [hfile]
    exact hone
  · intro hidx
    obtain ⟨hledger, _⟩ := ProcessVote_again_ledger_store E W1 W2 pf1 pf2 V s hcommit hidx
    have hcount : ∀ eSignal eOutcome : Int,
        CountMatchingVotes (ProcessVote E W2 pf2 V (ProcessVote E W1 pf1 V s).obj).obj
            eSignal eOutcome
          = CountMatchingVotes (ProcessVote E W1 pf1 V s).obj eSignal eOutcome := by
      intro eSignal eOutcome
      simp only [CountMatchingVotes, hledger]
    exact ⟨hcount, fun eSignal => ⟨hcount _ _, hcount _ _, hcount _ _⟩⟩

/-- C5 (amended) at a concrete input: the yes vote of voter 0 on the funding signal,
committed at time 10000 and submitted again at time 20000 under the same index. -/
theorem C5_resubmitted_vote_same_index_changes_no_tally_witness :
    fileVotes_CountHash exampleEnv
      (ProcessVote exampleEnv (exampleWorld 20000) false (exampleVote 0 1 1 100)
        (ProcessVote exampleEnv (exampleWorld 10000) false (exampleVote 0 1 1 100)
          exampleObject).obj).obj.fileVotes
      (exampleEnv.voteGetHash (exampleVote 0 1 1 100)) = 1 ∧
    GetYesCount exampleEnv
      (ProcessVote exampleEnv (exampleWorld 20000) false (exampleVote 0 1 1 100)
        (ProcessVote exampleEnv (exampleWorld 10000) false (exampleVote 0 1 1 100)
          exampleObject).obj).obj 1 = 1 :=
  have h := C5_resubmitted_vote_same_index_changes_no_tally exampleEnv (exampleWorld 10000)
    (exampleWorld 20000) false false (exampleVote 0 1 1 100) exampleObject
    (by decide) (by decide)
  ⟨h.2.1, (((h.2.2.2 (Or.inl (by decide))).2 1).1).trans (by decide)⟩

/-! ## Sentinel flags -/

/-- The tallies read the ledger only. -/
theorem CountMatchingVotes_congr (s t : CGovernanceObject)
    (h : t.mapCurrentMNVotes = s.mapCurrentMNVotes) (eSignal eOutcome : Int) :
    CountMatchingVotes t eSignal eOutcome = CountMatchingVotes s eSignal eOutcome := by
  simp only [CountMatchingVotes, h]

theorem GetAbsoluteYesCount_congr (E : Env) (s t : CGovernanceObject)
    (h : t.mapCurrentMNVotes = s.mapCurrentMNVotes) (eSignal : Int) :
    GetAbsoluteYesCount E t eSignal = GetAbsoluteYesCount E s eSignal := by
  simp only [GetAbsoluteYesCount, GetYesCount, GetNoCount, CountMatchingVotes, h]

theorem GetAbsoluteNoCount_congr (E : Env) (s t : CGovernanceObject)
    (h : t.mapCurrentMNVotes = s.mapCurrentMNVotes) (eSignal : Int) :
    GetAbsoluteNoCount E t eSignal = GetAbsoluteNoCount E s eSignal := by
  simp only [GetAbsoluteNoCount, GetYesCount, GetNoCount, CountMatchingVotes, h]

/-- `UpdateSentinelVariables` never touches the ledger. -/
theorem UpdateSentinelVariables_ledger (E : Env) (W : World) (s : CGovernanceObject) :
    (UpdateSentinelVariables E W s).mapCurrentMNVotes = s.mapCurrentMNVotes := by
  unfold UpdateSentinelVariables
  dsimp only
  split_ifs <;> rfl

/-- The four flags, the deletion time and the dirty flag after `UpdateSentinelVariables`
with a non-zero count of enabled voters, as functions of the object before the call. -/
theorem UpdateSentinelVariables_fields (E : Env) (W : World) (s : CGovernanceObject)
    (hn : W.CountEnabled ≠ 0) :
    (UpdateSentinelVariables E W s).fCachedFunding
      = decide (GetAbsoluteYesCount E s E.VOTE_SIGNAL_FUNDING ≥ nAbsVoteReq E W.CountEnabled) ∧
    (UpdateSentinelVariables E W s).fCachedEndorsed
      = decide (GetAbsoluteYesCount E s E.VOTE_SIGNAL_ENDORSED ≥ nAbsVoteReq E W.CountEnabled) ∧
    (UpdateSentinelVariables E W s).fCachedValid
      = !decide (GetAbsoluteNoCount E s E.VOTE_SIGNAL_VALID ≥ nAbsVoteReq E W.CountEnabled) ∧
    (UpdateSentinelVariables E W s).fCachedDelete
      = (s.fCachedDelete ||
          decide (GetAbsoluteYesCount E s E.VOTE_SIGNAL_DELETE ≥ nAbsDeleteReq E W.CountEnabled)) ∧
    (UpdateSentinelVariables E W s).nDeletionTime
      = (if decide (GetAbsoluteYesCount E s E.VOTE_SIGNAL_DELETE
            ≥ nAbsDeleteReq E W.CountEnabled) && !s.fCachedDelete
            && decide (s.nDeletionTime = 0)
          then W.GetAdjustedTime else s.nDeletionTime) ∧
    (UpdateSentinelVariables E W s).fDirtyCache = false := by
  generalize hr : UpdateSentinelVariables E W s = r
  unfold UpdateSentinelVariables at hr
  simp only [hn, if_false] at hr
  have hF : ∀ t : CGovernanceObject, t.mapCurrentMNVotes = s.mapCurrentMNVotes →
      ∀ sig, GetAbsoluteYesCount E t sig = GetAbsoluteYesCount E s sig :=
    fun t ht sig => GetAbsoluteYesCount_congr E s t ht sig
  have hN : ∀ t : CGovernanceObject, t.mapCurrentMNVotes = s.mapCurrentMNVotes →
      ∀ sig, GetAbsoluteNoCount E t sig = GetAbsoluteNoCount E s sig :=
    fun t ht sig => GetAbsoluteNoCount_congr E s t ht sig
  split_ifs at hr <;> subst hr <;> simp_all <;> split_ifs <;> simp_all

/-- C7: with a non-zero count of enabled voters, after `UpdateSentinelVariables` the
funding flag is true iff yes minus no on the funding signal reaches `nAbsVoteReq`, the
endorsed flag is true iff yes minus no on the endorsed signal reaches `nAbsVoteReq`, and
the valid flag is false iff no minus yes on the valid signal reaches `nAbsVoteReq`; the
tallies are those of the object before the call (the call does not touch the ledger),
and two objects with the same ledger get the same three flags whatever their flags
were before. -/
theorem C7_flags_are_functions_of_tallies (E : Env) (W : World) (s : CGovernanceObject)
    (hn : W.CountEnabled ≠ 0) :
    ((UpdateSentinelVariables E W s).fCachedFunding = true ↔
      GetYesCount E s E.VOTE_SIGNAL_FUNDING - GetNoCount E s E.VOTE_SIGNAL_FUNDING
        ≥ nAbsVoteReq E W.CountEnabled) ∧
    ((UpdateSentinelVariables E W s).fCachedEndorsed = true ↔
      GetYesCount E s E.VOTE_SIGNAL_ENDORSED - GetNoCount E s E.VOTE_SIGNAL_ENDORSED
        ≥ nAbsVoteReq E W.CountEnabled) ∧
    ((UpdateSentinelVariables E W s).fCachedValid = false ↔
      GetNoCount E s E.VOTE_SIGNAL_VALID - GetYesCount E s E.VOTE_SIGNAL_VALID
        ≥ nAbsVoteReq E W.CountEnabled) ∧
    (∀ eSignal eOutcome : Int,
      CountMatchingVotes (UpdateSentinelVariables E W s) eSignal eOutcome
        = CountMatchingVotes s eSignal eOutcome) ∧
    (∀ t : CGovernanceObject, t.mapCurrentMNVotes = s.mapCurrentMNVotes →
      (UpdateSentinelVariables E W t).fCachedFunding
        = (UpdateSentinelVariables E W s).fCachedFunding ∧
      (UpdateSentinelVariables E W t).fCachedEndorsed
        = (UpdateSentinelVariables E W s).fCachedEndorsed ∧
      (UpdateSentinelVariables E W t).fCachedValid
        = (UpdateSentinelVariables E W s).fCachedValid) := by
  obtain ⟨hF, hE, hV, _, _, _⟩ := UpdateSentinelVariables_fields E W s hn
  refine ⟨?_, ?_, ?_, ?_, ?_⟩
  · rw [hF, decide_eq_true_eq]
    rfl
  · rw [hE, decide_eq_true_eq]
    rfl
  · rw [hV, Bool.not_eq_false', decide_eq_true_eq]
    rfl
  · intro eSignal eOutcome
    exact CountMatchingVotes_congr s _ (UpdateSentinelVariables_ledger E W s) _ _
  · intro t ht
    obtain ⟨hF', hE', hV', _, _, _⟩ := UpdateSentinelVariables_fields E W t hn
    rw [hF, hE, hV, hF', hE', hV', GetAbsoluteYesCount_congr E s t ht,
      GetAbsoluteYesCount_congr E s t ht, GetAbsoluteNoCount_congr E s t ht]
    exact ⟨rfl, rfl, rfl⟩

/-- C7 at the quorum boundary: with vote quorum 10 (test network, 100 enabled voters),
nine yes votes and no no vote on the funding signal leave the funding flag false and ten
yes votes set it. -/
theorem C7_flags_are_functions_of_tallies_witness :
    nAbsVoteReq exampleEnv (exampleWorld 0).CountEnabled = 10 ∧
    (UpdateSentinelVariables exampleEnv (exampleWorld 0) (exampleYesObject 9)).fCachedFunding
      = false ∧
    (UpdateSentinelVariables exampleEnv (exampleWorld 0) (exampleYesObject 10)).fCachedFunding
      = true :=
  ⟨by decide,
    Bool.eq_false_iff.mpr (fun h =>
      absurd ((C7_flags_are_functions_of_tallies exampleEnv (exampleWorld 0)
        (exampleYesObject 9) (by decide)).1.mp h) (by decide)),
    (C7_flags_are_functions_of_tallies exampleEnv (exampleWorld 0) (exampleYesObject 10)
      (by decide)).1.mpr (by decide)⟩

/-- C8: for `n > 0` enabled voters, `2 * n` representable as an `int`, and configured
minimum quorum `q`: on the primary network `nAbsVoteReq` is `max q (n / 10)` and
`nAbsDeleteReq` is `max q (2 * n / 3)`, on every other network both are `q`; both
thresholds are at least `q`, and on the primary network the delete threshold is not
below the vote threshold. -/
theorem C8_quorum_thresholds (E : Env) (n : Int) (hn : 0 < n) (hrep : 2 * n < 2 ^ 31) :
    nAbsVoteReq E n
      = (if E.fMainNetwork then max E.nGovernanceMinQuorum (n / 10)
          else E.nGovernanceMinQuorum) ∧
    nAbsDeleteReq E n
      = (if E.fMainNetwork then max E.nGovernanceMinQuorum (2 * n / 3)
          else E.nGovernanceMinQuorum) ∧
    E.nGovernanceMinQuorum ≤ nAbsVoteReq E n ∧
    E.nGovernanceMinQuorum ≤ nAbsDeleteReq E n ∧
    (E.fMainNetwork = true → nAbsVoteReq E n ≤ nAbsDeleteReq E n) := by
  have hw : wrap32 (2 * n) = 2 * n := wrap32_of_range _ (by omega) hrep
  have h10 : Int.tdiv n 10 = n / 10 := Int.tdiv_eq_ediv (by omega) (by omega)
  have h3 : Int.tdiv (2 * n) 3 = 2 * n / 3 := Int.tdiv_eq_ediv (by omega) (by omega)
  unfold nAbsVoteReq nAbsDeleteReq
  rw [hw, h10, h3]
  refine ⟨rfl, rfl, ?_, ?_, ?_⟩
  · split_ifs
    · exact le_max_left _ _
    · exact le_refl _
  · split_ifs
    · exact le_max_left _ _
    · exact le_refl _
  · intro hmain
    rw [if_pos hmain, if_pos hmain]
    exact max_le_max (le_refl _) (by omega)

/-- C8 at a concrete input: 4500 enabled voters on the primary network with minimum
quorum 10 give a vote threshold of 450 and a delete threshold of 3000. -/
theorem C8_quorum_thresholds_witness :
    nAbsVoteReq exampleMainEnv 4500 = 450 ∧ nAbsDeleteReq exampleMainEnv 4500 = 3000 :=
  have h := C8_quorum_thresholds exampleMainEnv 4500 (by decide) (by decide)
  ⟨h.1.trans (by decide), h.2.1.trans (by decide)⟩

/-- C9: when `fCachedDelete` is already true, `UpdateSentinelVariables` leaves it true
and leaves `nDeletionTime` as it was, whatever the tallies, the count of enabled voters
and the clock; and `nDeletionTime` changes only in a call that turns the flag from false
to true while `nDeletionTime` is 0 (it then becomes the adjusted time): a non-zero
`nDeletionTime` is never overwritten. -/
theorem C9_delete_flag_is_sticky (E : Env) (W : World) (s : CGovernanceObject) :
    (s.fCachedDelete = true →
      (UpdateSentinelVariables E W s).fCachedDelete = true ∧
      (UpdateSentinelVariables E W s).nDeletionTime = s.nDeletionTime) ∧
    ((UpdateSentinelVariables E W s).nDeletionTime ≠ s.nDeletionTime →
      s.fCachedDelete = false ∧ (UpdateSentinelVariables E W s).fCachedDelete = true ∧
      s.nDeletionTime = 0 ∧
      (UpdateSentinelVariables E W s).nDeletionTime = W.GetAdjustedTime) ∧
    (s.nDeletionTime ≠ 0 →
      (UpdateSentinelVariables E W s).nDeletionTime = s.nDeletionTime) := by
  by_cases hn : W.CountEnabled = 0
  · have hs : UpdateSentinelVariables E W s = s := by
      unfold UpdateSentinelVariables
      simp only [hn, if_true]
    rw [hs]
    exact ⟨fun h => ⟨h, rfl⟩, fun h => absurd rfl h, fun _ => rfl⟩
  · obtain ⟨_, _, _, hD, hT, _⟩ := UpdateSentinelVariables_fields E W s hn
    rw [hD, hT]
    refine ⟨?_, ?_, ?_⟩
    · intro h
      simp [h]
    · intro h
      split_ifs at h with hc
      · simp only [Bool.and_eq_true, decide_eq_true_eq, Bool.not_eq_true'] at hc
        simp [hc.1.1, hc.1.2, hc.2]
      · exact absurd rfl h
    · intro h
      simp [h]

/-- C9 at a concrete input: an object marked for deletion at time 500 with an empty
ledger (delete tally 0, below the quorum 10) keeps the flag and the deletion time when
recomputed at time 9000. -/
theorem C9_delete_flag_is_sticky_witness :
    (UpdateSentinelVariables exampleEnv (exampleWorld 9000)
      { exampleObject with fCachedDelete := true, nDeletionTime := 500 }).fCachedDelete = true ∧
    (UpdateSentinelVariables exampleEnv (exampleWorld 9000)
      { exampleObject with fCachedDelete := true, nDeletionTime := 500 }).nDeletionTime = 500 :=
  (C9_delete_flag_is_sticky exampleEnv (exampleWorld 9000)
    { exampleObject with fCachedDelete := true, nDeletionTime := 500 }).1 (by decide)

/-- C10: when the roster reports zero enabled voters `UpdateSentinelVariables` returns
the object unchanged (all flags, the deletion time and the dirty flag keep their
values); when the count is non-zero the dirty flag is false afterwards. -/
theorem C10_zero_voters_changes_nothing (E : Env) (W : World) (s : CGovernanceObject) :
    (W.CountEnabled = 0 → UpdateSentinelVariables E W s = s) ∧
    (W.CountEnabled ≠ 0 → (UpdateSentinelVariables E W s).fDirtyCache = false) := by
  refine ⟨?_, ?_⟩
  · intro hn
    unfold UpdateSentinelVariables
    simp only [hn, if_true]
  · intro hn
    exact (UpdateSentinelVariables_fields E W s hn).2.2.2.2.2

/-- C10 at concrete inputs: with no enabled voter a dirty object with ten yes votes on
funding keeps all its fields, with 100 enabled voters the dirty flag is cleared. -/
theorem C10_zero_voters_changes_nothing_witness :
    UpdateSentinelVariables exampleEnv { exampleWorld 0 with CountEnabled := 0 }
      (exampleYesObject 10) = exampleYesObject 10 ∧
    (UpdateSentinelVariables exampleEnv (exampleWorld 0) (exampleYesObject 10)).fDirtyCache
      = false :=
  ⟨(C10_zero_voters_changes_nothing exampleEnv { exampleWorld 0 with CountEnabled := 0 }
      (exampleYesObject 10)).1 (by decide),
    (C10_zero_voters_changes_nothing exampleEnv (exampleWorld 0) (exampleYesObject 10)).2
      (by decide)⟩

/-! ## Orphan sweep -/

/-- C3: an orphan entry past its expiry is not dropped unprocessed. The expired branch
of `CheckOrphanVotes` falls through to `ProcessVote`. With the entry expired at time
5000 and the sweep at time 10000: when the voter is still unknown, `ProcessVote` is
called, fails, and files the vote in the orphan cache again with the fresh expiry 10600,
so after the sweep the cache still holds the vote; the sweep at time 20000 repeats this
with expiry 20600; and the sweep at time 30000, when the voter has become resolvable,
commits the vote to the ledger and the VoteStore and relays it. When the voter is
resolvable at the first sweep already, the expired vote is committed and relayed
there. -/
theorem C3_expired_orphan_is_reprocessed_and_refiled :
    (exampleOrphan 5000).nExpiry < 10000 ∧
    (CheckOrphanVotes exampleEnv (fun _ => exampleUnresolvedWorld 10000) 10000
      { exampleObject with mapOrphanVotes := [exampleOrphan 5000] }).calls
      = [(exampleOrphan 5000, false)] ∧
    (CheckOrphanVotes exampleEnv (fun _ => exampleUnresolvedWorld 10000) 10000
      { exampleObject with mapOrphanVotes := [exampleOrphan 5000] }).obj
      = { exampleObject with mapOrphanVotes := [exampleOrphan 10600] } ∧
    (CheckOrphanVotes exampleEnv (fun _ => exampleUnresolvedWorld 20000) 20000
      { exampleObject with mapOrphanVotes := [exampleOrphan 10600] }).obj
      = { exampleObject with mapOrphanVotes := [exampleOrphan 20600] } ∧
    (CheckOrphanVotes exampleEnv (fun _ => exampleWorld 30000) 30000
      { exampleObject with mapOrphanVotes := [exampleOrphan 20600] }).calls
      = [(exampleOrphan 20600, true)] ∧
    (CheckOrphanVotes exampleEnv (fun _ => exampleWorld 30000) 30000
      { exampleObject with mapOrphanVotes := [exampleOrphan 20600] }).relayed
      = [exampleVote 7 1 1 100] ∧
    (CheckOrphanVotes exampleEnv (fun _ => exampleWorld 30000) 30000
      { exampleObject with mapOrphanVotes := [exampleOrphan 20600] }).obj.fileVotes
      = [exampleVote 7 1 1 100] ∧
    (CheckOrphanVotes exampleEnv (fun _ => exampleWorld 10000) 10000
      { exampleObject with mapOrphanVotes := [exampleOrphan 5000] }).calls
      = [(exampleOrphan 5000, true)] ∧
    (CheckOrphanVotes exampleEnv (fun _ => exampleWorld 10000) 10000
      { exampleObject with mapOrphanVotes := [exampleOrphan 5000] }).relayed
      = [exampleVote 7 1 1 100] ∧
    (CheckOrphanVotes exampleEnv (fun _ => exampleWorld 10000) 10000
      { exampleObject with mapOrphanVotes := [exampleOrphan 5000] }).obj.fileVotes
      = [exampleVote 7 1 1 100] ∧
    (CheckOrphanVotes exampleEnv (fun _ => exampleWorld 10000) 10000
      { exampleObject with mapOrphanVotes := [exampleOrphan 5000] }).obj.mapCurrentMNVotes
      = [(7, { mapInstances := [(1, { eOutcome := 1, nTime := 0, nCreationTime := 100 })] })] := by
  decide

/-- C4 (counterexample): the orphan cache holds one entry that expires at time 20000,
the sweep runs at time 10000, the voter is in the roster, and `ProcessVote` fails because
the vote's signature is invalid. The entry was retried, but after the sweep it is still
in the orphan cache. -/
theorem C4_failed_retry_stays_in_cache :
    ¬ (exampleOrphan 20000).nExpiry < 10000 ∧
    ({ exampleWorld 10000 with IsValid := fun _ => false } : World).Has
      (exampleOrphan 20000).vote.vinMasternode = true ∧
    (CheckOrphanVotes exampleEnv (fun _ => { exampleWorld 10000 with IsValid := fun _ => false })
      10000 { exampleObject with mapOrphanVotes := [exampleOrphan 20000] }).calls
      = [(exampleOrphan 20000, false)] ∧
    exampleOrphan 20000 ∈
      (CheckOrphanVotes exampleEnv
        (fun _ => { exampleWorld 10000 with IsValid := fun _ => false })
        10000 { exampleObject with mapOrphanVotes := [exampleOrphan 20000] }).obj.mapOrphanVotes := by
  decide

theorem mem_Insert (items : List OrphanItem) (key : CTxIn) (value : CGovernanceVote × Int)
    (x : OrphanItem) :
    x ∈ (CacheMultiMap.Insert items key value).1 ↔
      x = { key := key, vote := value.1, nExpiry := value.2 } ∨ x ∈ items := by
  unfold CacheMultiMap.Insert
  dsimp only
  split_ifs with h
  · constructor
    · exact fun hx => Or.inr hx
    · rintro (hx | hx)
      · rw [hx]
        exact h
      · exact hx
  · exact List.mem_cons

theorem mem_Erase (items : List OrphanItem) (key : CTxIn) (value : CGovernanceVote × Int)
    (x : OrphanItem) :
    x ∈ CacheMultiMap.Erase items key value ↔
      x ∈ items ∧ x ≠ { key := key, vote := value.1, nExpiry := value.2 } := by
  simp [CacheMultiMap.Erase, List.mem_filter]

/-- The orphan cache after any `ProcessVote`: touched only when the voter is
unresolved. -/
theorem ProcessVote_mapOrphanVotes (E : Env) (W : World) (pfrom : Bool)
    (vote : CGovernanceVote) (s : CGovernanceObject) :
    (ProcessVote E W pfrom vote s).obj.mapOrphanVotes =
      if W.GetMasternodeIndex vote.vinMasternode < 0 then
        (CacheMultiMap.Insert s.mapOrphanVotes vote.vinMasternode
          (vote, wrap64 (W.GetAdjustedTime + E.GOVERNANCE_ORPHAN_EXPIRATION_TIME))).1
      else s.mapOrphanVotes := by
  generalize hr : ProcessVote E W pfrom vote s = r
  unfold ProcessVote at hr
  dsimp only at hr
  split_ifs at hr ⊢ <;> subst hr <;> rfl

/-- Entries of the orphan cache after `ProcessVote`: the old ones, plus the entry filed
for the vote when its voter is unresolved. -/
theorem mem_ProcessVote_mapOrphanVotes (E : Env) (W : World) (pfrom : Bool)
    (vote : CGovernanceVote) (s : CGovernanceObject) (x : OrphanItem) :
    x ∈ (ProcessVote E W pfrom vote s).obj.mapOrphanVotes ↔
      x ∈ s.mapOrphanVotes ∨
        (W.GetMasternodeIndex vote.vinMasternode < 0 ∧ x = orphanEntry E W vote) := by
  rw [ProcessVote_mapOrphanVotes]
  split_ifs with h
  · rw [mem_Insert]
    simp [h, orphanEntry, or_comm]
  · simp [h]

/-- A vote hash in the VoteStore stays in it through any `ProcessVote`. -/
theorem ProcessVote_HasVote_mono (E : Env) (W : World) (pfrom : Bool)
    (vote : CGovernanceVote) (s : CGovernanceObject) (nHash : Nat)
    (h : fileVotes_HasVote E s.fileVotes nHash = true) :
    fileVotes_HasVote E (ProcessVote E W pfrom vote s).obj.fileVotes nHash = true := by
  rw [ProcessVote_fileVotes]
  split_ifs
  · exact h
  · simp only [fileVotes_HasVote, fileVotes_AddVote, List.any_append, Bool.or_eq_true]
    exact Or.inl h
  · exact h

/-- The loop body of `CheckOrphanVotes` on an entry that is not expired and whose voter
is unknown: nothing happens. -/
theorem CheckOrphanVotes_body_skip (E : Env) (W : World) (nNow : Int) (item : OrphanItem)
    (st : SweepState) (hexp : ¬ item.nExpiry < nNow)
    (hhas : W.Has item.vote.vinMasternode = false) :
    CheckOrphanVotes_body E W nNow item st = st := by
  unfold CheckOrphanVotes_body
  simp [hexp, hhas]

/-- The loop body of `CheckOrphanVotes` on an entry that is expired or whose voter is in
the roster: the vote is passed to `ProcessVote`; it is relayed when the call succeeds and
the entry is erased when the call succeeds or the entry is expired. -/
theorem CheckOrphanVotes_body_processed (E : Env) (W : World) (nNow : Int)
    (item : OrphanItem) (st : SweepState)
    (h : item.nExpiry < nNow ∨ W.Has item.vote.vinMasternode = true) :
    (CheckOrphanVotes_body E W nNow item st).calls
      = st.calls ++ [(item, (ProcessVote E W false item.vote st.obj).ret)] ∧
    (CheckOrphanVotes_body E W nNow item st).relayed
      = (if (ProcessVote E W false item.vote st.obj).ret then st.relayed ++ [item.vote]
          else st.relayed) ∧
    (CheckOrphanVotes_body E W nNow item st).obj.fileVotes
      = (ProcessVote E W false item.vote st.obj).obj.fileVotes ∧
    (CheckOrphanVotes_body E W nNow item st).obj.mapOrphanVotes
      = (if (ProcessVote E W false item.vote st.obj).ret || decide (item.nExpiry < nNow) then
          CacheMultiMap.Erase (ProcessVote E W false item.vote st.obj).obj.mapOrphanVotes
            item.key (item.vote, item.nExpiry)
          else (ProcessVote E W false item.vote st.obj).obj.mapOrphanVotes) := by
  have hc : ¬ ((!decide (item.nExpiry < nNow) && !W.Has item.vote.vinMasternode) = true) := by
    rcases h with h | h <;> simp [h]
  unfold CheckOrphanVotes_body
  simp only [hc, if_false]
  generalize ProcessVote E W false item.vote st.obj = r
  refine ⟨rfl, rfl, ?_, ?_⟩
  · cases r.ret <;> by_cases hexp : item.nExpiry < nNow <;> simp [hexp]
  · cases r.ret <;> by_cases hexp : item.nExpiry < nNow <;> simp [hexp]

theorem CheckOrphanVotes_body_callsFor_of_ne (E : Env) (W : World) (nNow : Int)
    (item x : OrphanItem) (st : SweepState) (hne : item ≠ x) :
    callsFor x (CheckOrphanVotes_body E W nNow item st).calls = callsFor x st.calls := by
  by_cases hp : item.nExpiry < nNow ∨ W.Has item.vote.vinMasternode = true
  · rw [(CheckOrphanVotes_body_processed E W nNow item st hp).1]
    simp [callsFor, List.filter_append, hne]
  · rw [CheckOrphanVotes_body_skip E W nNow item st (fun h => hp (Or.inl h))
      (by simpa using fun h => hp (Or.inr h))]

theorem CheckOrphanVotes_body_relayed_mono (E : Env) (W : World) (nNow : Int)
    (item : OrphanItem) (st : SweepState) (v : CGovernanceVote) (hv : v ∈ st.relayed) :
    v ∈ (CheckOrphanVotes_body E W nNow item st).relayed := by
  by_cases hp : item.nExpiry < nNow ∨ W.Has item.vote.vinMasternode = true
  · rw [(CheckOrphanVotes_body_processed E W nNow item st hp).2.1]
    split_ifs
    · exact List.mem_append_left _ hv
    · exact hv
  · rw [CheckOrphanVotes_body_skip E W nNow item st (fun h => hp (Or.inl h))
      (by simpa using fun h => hp (Or.inr h))]
    exact hv

theorem CheckOrphanVotes_body_HasVote_mono (E : Env) (W : World) (nNow : Int)
    (item : OrphanItem) (st : SweepState) (nHash : Nat)
    (hv : fileVotes_HasVote E st.obj.fileVotes nHash = true) :
    fileVotes_HasVote E (CheckOrphanVotes_body E W nNow item st).obj.fileVotes nHash = true := by
  by_cases hp : item.nExpiry < nNow ∨ W.Has item.vote.vinMasternode = true
  · rw [(CheckOrphanVotes_body_processed E W nNow item st hp).2.2.1]
    exact ProcessVote_HasVote_mono E W false item.vote st.obj nHash hv
  · rw [CheckOrphanVotes_body_skip E W nNow item st (fun h => hp (Or.inl h))
      (by simpa using fun h => hp (Or.inr h))]
    exact hv

/-- The loop body erases no entry other than the one the iterator is at. -/
theorem CheckOrphanVotes_body_mem_of_ne (E : Env) (W : World) (nNow : Int)
    (item x : OrphanItem) (st : SweepState) (hne : item ≠ x)
    (hx : x ∈ st.obj.mapOrphanVotes) :
    x ∈ (CheckOrphanVotes_body E W nNow item st).obj.mapOrphanVotes := by
  by_cases hp : item.nExpiry < nNow ∨ W.Has item.vote.vinMasternode = true
  · rw [(CheckOrphanVotes_body_processed E W nNow item st hp).2.2.2]
    have hx' : x ∈ (ProcessVote E W false item.vote st.obj).obj.mapOrphanVotes :=
      (mem_ProcessVote_mapOrphanVotes E W false item.vote st.obj x).mpr (Or.inl hx)
    split_ifs
    · rw [mem_Erase]
      exact ⟨hx', fun h => hne h.symm⟩
    · exact hx'
  · rw [CheckOrphanVotes_body_skip E W nNow item st (fun h => hp (Or.inl h))
      (by simpa using fun h => hp (Or.inr h))]
    exact hx

/-- The loop body adds no entry other than the one `ProcessVote` files for an unresolved
voter. -/
theorem CheckOrphanVotes_body_not_mem (E : Env) (W : World) (nNow : Int)
    (item x : OrphanItem) (st : SweepState)
    (hnr : W.GetMasternodeIndex item.vote.vinMasternode < 0 → x ≠ orphanEntry E W item.vote)
    (hx : x ∉ st.obj.mapOrphanVotes) :
    x ∉ (CheckOrphanVotes_body E W nNow item st).obj.mapOrphanVotes := by
  by_cases hp : item.nExpiry < nNow ∨ W.Has item.vote.vinMasternode = true
  · rw [(CheckOrphanVotes_body_processed E W nNow item st hp).2.2.2]
    have hx' : x ∉ (ProcessVote E W false item.vote st.obj).obj.mapOrphanVotes := by
      rw [mem_ProcessVote_mapOrphanVotes]
      rintro (h | ⟨h1, h2⟩)
      · exact hx h
      · exact hnr h1 h2
    split_ifs
    · rw [mem_Erase]
      exact fun h => hx' h.1
    · exact hx'
  · rw [CheckOrphanVotes_body_skip E W nNow item st (fun h => hp (Or.inl h))
      (by simpa using fun h => hp (Or.inr h))]
    exact hx

/-! ### The loop -/

theorem CheckOrphanVotes_loop_append (E : Env) (Wk : Nat → World) (nNow : Int)
    (l1 l2 : List OrphanItem) :
    ∀ (k : Nat) (st : SweepState),
      CheckOrphanVotes_loop E Wk nNow k (l1 ++ l2) st
        = CheckOrphanVotes_loop E Wk nNow (k + l1.length) l2
            (CheckOrphanVotes_loop E Wk nNow k l1 st) := by
  induction l1 with
  | nil => intro k st; rfl
  | cons a l ih =>
    intro k st
    have e : CheckOrphanVotes_loop E Wk nNow k (a :: l ++ l2) st
        = CheckOrphanVotes_loop E Wk nNow (k + 1) (l ++ l2)
            (CheckOrphanVotes_body E (Wk k) nNow a st) := rfl
    rw [e, ih (k + 1)]
    have e2 : k + 1 + l.length = k + (a :: l).length := by
      simp only [List.length_cons]
      omega
    rw [e2]
    rfl

theorem CheckOrphanVotes_loop_callsFor (E : Env) (Wk : Nat → World) (nNow : Int)
    (x : OrphanItem) (l : List OrphanItem) (hx : x ∉ l) :
    ∀ (k : Nat) (st : SweepState),
      callsFor x (CheckOrphanVotes_loop E Wk nNow k l st).calls = callsFor x st.calls := by
  induction l with
  | nil => intro k st; rfl
  | cons a l ih =>
    intro k st
    rw [List.mem_cons, not_or] at hx
    simp only [CheckOrphanVotes_loop]
    rw [ih hx.2, CheckOrphanVotes_body_callsFor_of_ne E (Wk k) nNow a x st (Ne.symm hx.1)]

theorem CheckOrphanVotes_loop_relayed_mono (E : Env) (Wk : Nat → World) (nNow : Int)
    (v : CGovernanceVote) (l : List OrphanItem) :
    ∀ (k : Nat) (st : SweepState), v ∈ st.relayed →
      v ∈ (CheckOrphanVotes_loop E Wk nNow k l st).relayed := by
  induction l with
  | nil => intro k st h; exact h
  | cons a l ih =>
    intro k st h
    simp only [CheckOrphanVotes_loop]
    exact ih _ _ (CheckOrphanVotes_body_relayed_mono E (Wk k) nNow a st v h)

theorem CheckOrphanVotes_loop_HasVote_mono (E : Env) (Wk : Nat → World) (nNow : Int)
    (nHash : Nat) (l : List OrphanItem) :
    ∀ (k : Nat) (st : SweepState), fileVotes_HasVote E st.obj.fileVotes nHash = true →
      fileVotes_HasVote E (CheckOrphanVotes_loop E Wk nNow k l st).obj.fileVotes nHash
        = true := by
  induction l with
  | nil => intro k st h; exact h
  | cons a l ih =>
    intro k st h
    simp only [CheckOrphanVotes_loop]
    exact ih _ _ (CheckOrphanVotes_body_HasVote_mono E (Wk k) nNow a st nHash h)

theorem CheckOrphanVotes_loop_mem (E : Env) (Wk : Nat → World) (nNow : Int)
    (x : OrphanItem) (l : List OrphanItem) (hx : x ∉ l) :
    ∀ (k : Nat) (st : SweepState), x ∈ st.obj.mapOrphanVotes →
      x ∈ (CheckOrphanVotes_loop E Wk nNow k l st).obj.mapOrphanVotes := by
  induction l with
  | nil => intro k st h; exact h
  | cons a l ih =>
    intro k st h
    rw [List.mem_cons, not_or] at hx
    simp only [CheckOrphanVotes_loop]
    exact ih hx.2 _ _
      (CheckOrphanVotes_body_mem_of_ne E (Wk k) nNow a x st (Ne.symm hx.1) h)

theorem CheckOrphanVotes_loop_not_mem (E : Env) (Wk : Nat → World) (nNow : Int)
    (x : OrphanItem)
    (hnr : ∀ (k : Nat) (v : CGovernanceVote),
      (Wk k).GetMasternodeIndex v.vinMasternode < 0 → x ≠ orphanEntry E (Wk k) v)
    (l : List OrphanItem) :
    ∀ (k : Nat) (st : SweepState), x ∉ st.obj.mapOrphanVotes →
      x ∉ (CheckOrphanVotes_loop E Wk nNow k l st).obj.mapOrphanVotes := by
  induction l with
  | nil => intro k st h; exact h
  | cons a l ih =>
    intro k st h
    simp only [CheckOrphanVotes_loop]
    exact ih _ _ (CheckOrphanVotes_body_not_mem E (Wk k) nNow a x st (hnr k a.vote) h)

/-- The sweep seen from an entry `item` of a duplicate-free orphan cache: the loop runs
over the entries before it, then its body runs on `item`, then the loop runs over the
entries after it, and `item` is among neither. -/
theorem CheckOrphanVotes_split (E : Env) (Wk : Nat → World) (nNow : Int)
    (s : CGovernanceObject) (item : OrphanItem)
    (hnodup : s.mapOrphanVotes.Nodup) (hmem : item ∈ s.mapOrphanVotes) :
    ∃ pre post : List OrphanItem, item ∉ pre ∧ item ∉ post ∧
      CheckOrphanVotes E Wk nNow s =
        CheckOrphanVotes_loop E Wk nNow (pre.length + 1) post
          (CheckOrphanVotes_body E (Wk pre.length) nNow item
            (CheckOrphanVotes_loop E Wk nNow 0 pre { obj := s, relayed := [], calls := [] })) := by
  obtain ⟨pre, post, hsplit⟩ := List.append_of_mem hmem
  refine ⟨pre, post, ?_, ?_, ?_⟩
  · intro h
    rw [hsplit] at hnodup
    exact (List.nodup_append.mp hnodup).2.2 h (List.mem_cons_self _ _)
  · intro h
    rw [hsplit] at hnodup
    exact (List.nodup_cons.mp (List.nodup_append.mp hnodup).2.1).1 h
  · unfold CheckOrphanVotes
    rw [hsplit, CheckOrphanVotes_loop_append]
    simp only [CheckOrphanVotes_loop, Nat.zero_add]

/-- Every entry of a duplicate-free orphan cache whose expiry is earlier than the
sweep's now has its vote passed to `ProcessVote` exactly once by `CheckOrphanVotes`,
and that entry, with its old expiry, is gone from the cache after the sweep; when the
call returned true the vote is in the VoteStore and was relayed. The hypothesis on the
clock says that entries filed during the sweep get an expiry that is not before now,
so none of them is the erased entry. -/
theorem CheckOrphanVotes_expired_entry (E : Env) (Wk : Nat → World) (nNow : Int)
    (s : CGovernanceObject) (item : OrphanItem)
    (hnodup : s.mapOrphanVotes.Nodup) (hmem : item ∈ s.mapOrphanVotes)
    (hexp : item.nExpiry < nNow)
    (hclock : ∀ k, nNow ≤ wrap64 ((Wk k).GetAdjustedTime + E.GOVERNANCE_ORPHAN_EXPIRATION_TIME)) :
    ∃ r : Bool,
      callsFor item (CheckOrphanVotes E Wk nNow s).calls = [(item, r)] ∧
      item ∉ (CheckOrphanVotes E Wk nNow s).obj.mapOrphanVotes ∧
      (r = true →
        item.vote ∈ (CheckOrphanVotes E Wk nNow s).relayed ∧
        fileVotes_HasVote E (CheckOrphanVotes E Wk nNow s).obj.fileVotes
          (E.voteGetHash item.vote) = true) := by
  obtain ⟨pre, post, hpre, hpost, hsweep⟩ := CheckOrphanVotes_split E Wk nNow s item hnodup hmem
  rw [hsweep]
  obtain ⟨hcalls, hrelayed, hfile, hcache⟩ :=
    CheckOrphanVotes_body_processed E (Wk pre.length) nNow item
      (CheckOrphanVotes_loop E Wk nNow 0 pre { obj := s, relayed := [], calls := [] })
      (Or.inl hexp)
  refine ⟨(ProcessVote E (Wk pre.length) false item.vote
    (CheckOrphanVotes_loop E Wk nNow 0 pre { obj := s, relayed := [], calls := [] }).obj).ret,
    ?_, ?_, ?_⟩
  · rw [CheckOrphanVotes_loop_callsFor E Wk nNow item post hpost, hcalls]
    have h0 := CheckOrphanVotes_loop_callsFor E Wk nNow item pre hpre 0
      { obj := s, relayed := [], calls := [] }
    simp only [callsFor, List.filter_append] at h0 ⊢
    rw [h0]
    simp
  · apply CheckOrphanVotes_loop_not_mem E Wk nNow item _ post
    · rw [hcache]
      simp only [hexp, decide_True, Bool.or_true, if_true]
      rw [mem_Erase]
      exact fun h => h.2 rfl
    · intro k v _ heq
      have hk := hclock k
      rw [heq] at hexp
      simp only [orphanEntry] at hexp
      omega
  · intro hr
    constructor
    · apply CheckOrphanVotes_loop_relayed_mono
      rw [hrelayed, if_pos hr]
      exact List.mem_append_right _ (List.mem_singleton_self _)
    · apply CheckOrphanVotes_loop_HasVote_mono
      rw [hfile]
      exact (ProcessVote_commit E _ false item.vote _ hr).2.2.2.2

/-- C4 (amended): every entry of a duplicate-free orphan cache that is not expired and
whose voter is in the roster, the roster resolving the voter to the same index
throughout the sweep, has its vote passed to `ProcessVote` exactly once per sweep. When
that call returns true the entry is gone from the cache after the sweep and the vote was
relayed; when it returns false the entry is still in the cache after the sweep. -/
theorem C4_live_orphan_is_erased_only_on_success (E : Env) (Wk : Nat → World) (nNow : Int)
    (s : CGovernanceObject) (item : OrphanItem)
    (hnodup : s.mapOrphanVotes.Nodup) (hmem : item ∈ s.mapOrphanVotes)
    (hexp : ¬ item.nExpiry < nNow)
    (hhas : ∀ k, (Wk k).Has item.vote.vinMasternode = true)
    (hroster : ∀ k, (Wk k).GetMasternodeIndex item.vote.vinMasternode
      = (Wk 0).GetMasternodeIndex item.vote.vinMasternode) :
    ∃ r : Bool,
      callsFor item (CheckOrphanVotes E Wk nNow s).calls = [(item, r)] ∧
      (r = true →
        item ∉ (CheckOrphanVotes E Wk nNow s).obj.mapOrphanVotes ∧
        item.vote ∈ (CheckOrphanVotes E Wk nNow s).relayed) ∧
      (r = false → item ∈ (CheckOrphanVotes E Wk nNow s).obj.mapOrphanVotes) := by
  obtain ⟨pre, post, hpre, hpost, hsweep⟩ := CheckOrphanVotes_split E Wk nNow s item hnodup hmem
  rw [hsweep]
  obtain ⟨hcalls, hrelayed, _, hcache⟩ :=
    CheckOrphanVotes_body_processed E (Wk pre.length) nNow item
      (CheckOrphanVotes_loop E Wk nNow 0 pre { obj := s, relayed := [], calls := [] })
      (Or.inr (hhas pre.length))
  have hin : item ∈ (CheckOrphanVotes_loop E Wk nNow 0 pre
      { obj := s, relayed := [], calls := [] }).obj.mapOrphanVotes :=
    CheckOrphanVotes_loop_mem E Wk nNow item pre hpre 0 _ hmem
  refine ⟨(ProcessVote E (Wk pre.length) false item.vote
    (CheckOrphanVotes_loop E Wk nNow 0 pre { obj := s, relayed := [], calls := [] }).obj).ret,
    ?_, ?_, ?_⟩
  · rw [CheckOrphanVotes_loop_callsFor E Wk nNow item post hpost, hcalls]
    have h0 := CheckOrphanVotes_loop_callsFor E Wk nNow item pre hpre 0
      { obj := s, relayed := [], calls := [] }
    simp only [callsFor, List.filter_append] at h0 ⊢
    rw [h0]
    simp
  · intro hr
    have hidx := (ProcessVote_commit E _ false item.vote _ hr).1
    constructor
    · apply CheckOrphanVotes_loop_not_mem E Wk nNow item _ post
      · rw [hcache]
        simp only [hr, Bool.true_or, if_true]
        rw [mem_Erase]
        exact fun h => h.2 rfl
      · intro k v hneg heq
        have hv : v = item.vote := by
          rw [heq]
          rfl
        rw [hv, hroster k, ← hroster pre.length] at hneg
        exact hidx hneg
    · apply CheckOrphanVotes_loop_relayed_mono
      rw [hrelayed, if_pos hr]
      exact List.mem_append_right _ (List.mem_singleton_self _)
  · intro hr
    apply CheckOrphanVotes_loop_mem E Wk nNow item post hpost
    rw [hcache]
    simp only [hr, hexp, decide_False, Bool.or_false, Bool.false_eq_true, if_false]
    exact (mem_ProcessVote_mapOrphanVotes E _ false item.vote _ item).mpr (Or.inl hin)

/-- C4 (amended) at a concrete input: the entry of the counterexample, not expired and
with its voter in the roster, is passed to `ProcessVote` once, with return value false,
and is still in the cache after the sweep. -/
theorem C4_live_orphan_is_erased_only_on_success_witness :
    ¬ (exampleOrphan 20000).nExpiry < 10000 ∧
    exampleOrphan 20000 ∈
      (CheckOrphanVotes exampleEnv
        (fun _ => { exampleWorld 10000 with IsValid := fun _ => false }) 10000
        { exampleObject with mapOrphanVotes := [exampleOrphan 20000] }).obj.mapOrphanVotes := by
  refine ⟨by decide, ?_⟩
  obtain ⟨r, hcalls, _, hfalse⟩ := C4_live_orphan_is_erased_only_on_success exampleEnv
    (fun _ => { exampleWorld 10000 with IsValid := fun _ => false }) 10000
    { exampleObject with mapOrphanVotes := [exampleOrphan 20000] } (exampleOrphan 20000)
    (by decide) (by decide) (by decide) (fun _ => rfl) (fun _ => rfl)
  have hd : callsFor (exampleOrphan 20000)
      (CheckOrphanVotes exampleEnv
        (fun _ => { exampleWorld 10000 with IsValid := fun _ => false }) 10000
        { exampleObject with mapOrphanVotes := [exampleOrphan 20000] }).calls
      = [(exampleOrphan 20000, false)] := by decide
  rw [hd] at hcalls
  apply hfalse
  simpa using hcalls.symm

/-! ## Collateral validation -/

/-- C11 (the code at the failing inputs): a proposal whose collateral transaction carries
the commitment to the object's hash (script `[106, 1006]`) and pays 100 out of an input
of 500000099, one unit short of the fee of 500000000, is rejected with an empty error
string; so is the same transaction when its input refers to an unknown transaction.
With an input of 500000100 the same transaction is accepted with the string "valid". -/
theorem C11_fee_too_low_and_unknown_inputs_leave_error_empty :
    exampleValidationEnv.OpReturnScript (GetHash exampleValidationEnv exampleProposal)
      = [106, 1006] ∧
    IsCollateralValid exampleValidationEnv
      (exampleChain [⟨100, [1]⟩, ⟨0, [106, 1006]⟩] 500000099) exampleProposal = (false, "") ∧
    IsCollateralValid exampleValidationEnv
      (exampleChainUnknownInput [⟨100, [1]⟩, ⟨0, [106, 1006]⟩]) exampleProposal = (false, "") ∧
    IsCollateralValid exampleValidationEnv
      (exampleChain [⟨100, [1]⟩, ⟨0, [106, 1006]⟩] 500000100) exampleProposal
      = (true, "valid") := by
  decide

/-- Without an output carrying `findScript` the scan of the outputs stops at a bad
script or ends with `foundOpReturn` as it started. -/
theorem IsCollateralValid_scanOutputs_of_no_match (V : ValidationEnv) (findScript : List Nat)
    (vout : List CTxOut) (hno : ∀ o ∈ vout, o.scriptPubKey ≠ findScript) (found : Bool) :
    IsCollateralValid_scanOutputs V findScript vout found = none ∨
      IsCollateralValid_scanOutputs V findScript vout found = some found := by
  induction vout with
  | nil => exact Or.inr rfl
  | cons o rest ih =>
    have hne : o.scriptPubKey ≠ findScript := hno o (List.mem_cons_self _ _)
    have ih' := ih (fun x hx => hno x (List.mem_cons_of_mem _ hx))
    unfold IsCollateralValid_scanOutputs
    split_ifs
    · exact Or.inl rfl
    · exact ih'

/-- When every output script is a normal payment or unspendable the scan of the outputs
does not stop early. -/
theorem IsCollateralValid_scanOutputs_isSome (V : ValidationEnv) (findScript : List Nat)
    (vout : List CTxOut)
    (hok : ∀ o ∈ vout, V.IsNormalPaymentScript o.scriptPubKey = true
      ∨ V.IsUnspendable o.scriptPubKey = true) :
    ∀ found : Bool, IsCollateralValid_scanOutputs V findScript vout found ≠ none := by
  induction vout with
  | nil => intro found; simp [IsCollateralValid_scanOutputs]
  | cons o rest ih =>
    intro found
    have ho := hok o (List.mem_cons_self _ _)
    have ih' := ih (fun x hx => hok x (List.mem_cons_of_mem _ hx))
    unfold IsCollateralValid_scanOutputs
    have hc : ¬ ((!V.IsNormalPaymentScript o.scriptPubKey && !V.IsUnspendable o.scriptPubKey)
        = true) := by
      rcases ho with h | h <;> simp [h]
    rw [if_neg hc]
    split_ifs
    · exact ih' true
    · exact ih' found

/-- C12: when the collateral transaction is found and none of its outputs has the script
`OP_RETURN <GetHash()>`, `IsCollateralValid` returns false, whatever the values of its
inputs and outputs and the confirmation count; when in addition it has an output and
every output script is a normal payment or unspendable, the error string is the
"Couldn't find opReturn" message with the expected hash and the transaction. -/
theorem C12_missing_commitment_is_rejected (V : ValidationEnv) (Ch : ChainWorld)
    (self : CGovernanceObject) (tx : CTransaction) (nBlockHash : Nat)
    (hget : Ch.GetTransaction self.nCollateralHash = some (tx, nBlockHash))
    (hno : ∀ o ∈ tx.vout, o.scriptPubKey ≠ V.OpReturnScript (GetHash V self)) :
    (IsCollateralValid V Ch self).1 = false ∧
    (tx.vout ≠ [] →
      (∀ o ∈ tx.vout, V.IsNormalPaymentScript o.scriptPubKey = true
        ∨ V.IsUnspendable o.scriptPubKey = true) →
      (IsCollateralValid V Ch self).2 =
        "Couldn't find opReturn " ++ uint256_ToString (GetHash V self) ++ " in "
          ++ V.CTransaction_ToString tx) := by
  have hscan := IsCollateralValid_scanOutputs_of_no_match V _ tx.vout hno false
  unfold IsCollateralValid
  simp only [hget]
  constructor
  · rcases hscan with h | h
    · rw [h]
      split_ifs <;> rfl
    · rw [h]
      split_ifs <;> rfl
  · intro hne hok
    have hlen : ¬ tx.vout.length < 1 := by
      cases hv : tx.vout with
      | nil => exact absurd hv hne
      | cons a l => simp
    have hsome := IsCollateralValid_scanOutputs_isSome V (V.OpReturnScript (GetHash V self))
      tx.vout hok false
    rcases hscan with h | h
    · exact absurd h hsome
    · simp [hlen, h]

/-- C12 at a concrete input: the transaction commits to hash 1007 while the object's hash
is 1006; it pays a fee of 10^9, twice the required one. -/
theorem C12_missing_commitment_is_rejected_witness :
    (IsCollateralValid exampleValidationEnv
      (exampleChain [⟨100, [1]⟩, ⟨0, [106, 1007]⟩] 1000000100) exampleProposal).1 = false :=
  (C12_missing_commitment_is_rejected exampleValidationEnv
    (exampleChain [⟨100, [1]⟩, ⟨0, [106, 1007]⟩] 1000000100) exampleProposal
    { vin := [{ prevout := { hash := 88, n := 0 }, scriptSig := [], nSequence := 0 }],
      vout := [⟨100, [1]⟩, ⟨0, [106, 1007]⟩] } 5 (by decide) (by decide)).1

/-- Everything that holds when `IsCollateralValid` returns true: the collateral
transaction was found, the commitment was found, no input was missing, the outputs do not
exceed the inputs, the difference reaches the minimum fee, the confirmations suffice, and
the error string is "valid". -/
theorem IsCollateralValid_true (V : ValidationEnv) (Ch : ChainWorld)
    (self : CGovernanceObject) (h : (IsCollateralValid V Ch self).1 = true) :
    ∃ (tx : CTransaction) (nBlockHash : Nat),
      Ch.GetTransaction self.nCollateralHash = some (tx, nBlockHash) ∧
      IsCollateralValid_scanOutputs V (V.OpReturnScript (GetHash V self)) tx.vout false
        = some true ∧
      (IsCollateralValid_sumInputs Ch tx.vin (0, false)).2 = false ∧
      IsCollateralValid_sumOutputs tx.vout 0 ≤ (IsCollateralValid_sumInputs Ch tx.vin (0, false)).1 ∧
      GetMinCollateralFee V self ≤
        wrap64 ((IsCollateralValid_sumInputs Ch tx.vin (0, false)).1
          - IsCollateralValid_sumOutputs tx.vout 0) ∧
      V.GOVERNANCE_FEE_CONFIRMATIONS
        ≤ IsCollateralValid_confirmations Ch self.nCollateralHash nBlockHash ∧
      (IsCollateralValid V Ch self).2 = "valid" := by
  unfold IsCollateralValid at h ⊢
  cases hget : Ch.GetTransaction self.nCollateralHash with
  | none => simp [hget] at h
  | some p =>
    obtain ⟨tx, nBlockHash⟩ := p
    simp only [hget] at h ⊢
    refine ⟨tx, nBlockHash, rfl, ?_⟩
    by_cases hlen : tx.vout.length < 1
    · simp [hlen] at h
    simp only [hlen, if_false] at h ⊢
    cases hscan : IsCollateralValid_scanOutputs V (V.OpReturnScript (GetHash V self))
        tx.vout false with
    | none => simp [hscan] at h
    | some found =>
      simp only [hscan] at h ⊢
      cases found with
      | false => simp at h
      | true =>
        simp only [Bool.not_true, Bool.false_eq_true, if_false] at h ⊢
        split_ifs at h ⊢ with h1 h2 h3
        simp only [Bool.or_eq_true, decide_eq_true_eq, not_or, not_lt, Bool.not_eq_true] at h1 h2
        exact ⟨trivial, h1, h2.1, h2.2, h3, rfl⟩

/-- The accumulated output value is the mathematical sum when the amounts are not
negative and the sum is representable. -/
theorem IsCollateralValid_sumOutputs_eq (vout : List CTxOut)
    (hnn : ∀ o ∈ vout, 0 ≤ o.nValue) :
    ∀ acc : Int, 0 ≤ acc → acc + (vout.map (fun o => o.nValue)).sum < 2 ^ 63 →
      IsCollateralValid_sumOutputs vout acc = acc + (vout.map (fun o => o.nValue)).sum := by
  induction vout with
  | nil => intro acc _ _; simp [IsCollateralValid_sumOutputs]
  | cons o rest ih =>
    intro acc hacc hsum
    have ho := hnn o (List.mem_cons_self _ _)
    have hrest : 0 ≤ (rest.map (fun o => o.nValue)).sum :=
      List.sum_nonneg (fun x hx => by
        obtain ⟨y, hy, rfl⟩ := List.mem_map.mp hx
        exact hnn y (List.mem_cons_of_mem _ hy))
    simp only [List.map_cons, List.sum_cons] at hsum ⊢
    have hw : wrap64 (acc + o.nValue) = acc + o.nValue :=
      wrap64_of_range _ (by omega) (by omega)
    unfold IsCollateralValid_sumOutputs
    rw [hw, ih (fun x hx => hnn x (List.mem_cons_of_mem _ hx)) _ (by omega) (by omega)]
    omega

/-- The flag `fMissingTx` after the loop over the inputs. -/
theorem IsCollateralValid_sumInputs_snd (Ch : ChainWorld) (vin : List CTxIn) :
    ∀ (acc : Int) (fMissingTx : Bool),
      (IsCollateralValid_sumInputs Ch vin (acc, fMissingTx)).2 = true ↔
        fMissingTx = true ∨ ∃ txin ∈ vin, Ch.GetTransaction txin.prevout.hash = none := by
  induction vin with
  | nil => intro acc m; simp [IsCollateralValid_sumInputs]
  | cons txin rest ih =>
    intro acc m
    unfold IsCollateralValid_sumInputs
    cases hget : Ch.GetTransaction txin.prevout.hash with
    | none =>
      simp only [ih, List.mem_cons, exists_eq_or_imp, hget, true_or, or_true]
    | some p =>
      obtain ⟨txPrev, b⟩ := p
      simp only []
      split_ifs <;> simp [ih, hget]

/-- The accumulated input value is the mathematical sum of the contributions when they
are not negative and the sum is representable. -/
theorem IsCollateralValid_sumInputs_fst (Ch : ChainWorld) (vin : List CTxIn)
    (hnn : ∀ txin ∈ vin, 0 ≤ inputValue Ch txin) :
    ∀ (acc : Int) (fMissingTx : Bool), 0 ≤ acc →
      acc + (vin.map (inputValue Ch)).sum < 2 ^ 63 →
      (IsCollateralValid_sumInputs Ch vin (acc, fMissingTx)).1
        = acc + (vin.map (inputValue Ch)).sum := by
  induction vin with
  | nil => intro acc m _ _; simp [IsCollateralValid_sumInputs]
  | cons txin rest ih =>
    intro acc m hacc hsum
    have ho := hnn txin (List.mem_cons_self _ _)
    have hrest : 0 ≤ (rest.map (inputValue Ch)).sum :=
      List.sum_nonneg (fun x hx => by
        obtain ⟨y, hy, rfl⟩ := List.mem_map.mp hx
        exact hnn y (List.mem_cons_of_mem _ hy))
    have ih' := ih (fun x hx => hnn x (List.mem_cons_of_mem _ hx))
    simp only [List.map_cons, List.sum_cons] at hsum ⊢
    unfold IsCollateralValid_sumInputs
    cases hget : Ch.GetTransaction txin.prevout.hash with
    | none =>
      have hv : inputValue Ch txin = 0 := by simp [inputValue, hget]
      rw [hv] at hsum ⊢
      simp only []
      rw [ih' acc true hacc (by omega)]
      omega
    | some p =>
      obtain ⟨txPrev, b⟩ := p
      simp only []
      by_cases hlen : txPrev.vout.length > txin.prevout.n
      · have hv : inputValue Ch txin
            = (txPrev.vout.getD txin.prevout.n ⟨0, []⟩).nValue := by
          simp [inputValue, hget, hlen]
        rw [hv] at ho hsum ⊢
        have hw : wrap64 (acc + (txPrev.vout.getD txin.prevout.n ⟨0, []⟩).nValue)
            = acc + (txPrev.vout.getD txin.prevout.n ⟨0, []⟩).nValue :=
          wrap64_of_range _ (by omega) (by omega)
        rw [if_pos hlen, hw, ih' _ m (by omega) (by omega)]
        omega
      · have hv : inputValue Ch txin = 0 := by simp [inputValue, hget, hlen]
        rw [hv] at hsum ⊢
        rw [if_neg hlen, ih' acc m hacc (by omega)]
        omega

/-- C13: the minimum fee is `GOVERNANCE_PROPOSAL_FEE_TX` for a proposal, 0 for a trigger
and for a watchdog, and `MAX_MONEY` for any other type; `IsCollateralValid` returns true
only if the previous transaction of every input is found and, the amounts being
non-negative with representable sums, the net value (sum of the values the inputs
contribute, an input without such an output contributing 0, minus the sum of the
output values) is non-negative and at least the minimum fee; one input whose previous
transaction is missing makes it return false whatever the other inputs are. -/
theorem C13_true_only_if_inputs_found_and_fee_paid (V : ValidationEnv) (Ch : ChainWorld)
    (self : CGovernanceObject)
    (hPT : V.GOVERNANCE_OBJECT_PROPOSAL ≠ V.GOVERNANCE_OBJECT_TRIGGER)
    (hPW : V.GOVERNANCE_OBJECT_PROPOSAL ≠ V.GOVERNANCE_OBJECT_WATCHDOG) :
    ((self.nObjectType = V.GOVERNANCE_OBJECT_PROPOSAL →
        GetMinCollateralFee V self = V.GOVERNANCE_PROPOSAL_FEE_TX) ∧
      (self.nObjectType = V.GOVERNANCE_OBJECT_TRIGGER → GetMinCollateralFee V self = 0) ∧
      (self.nObjectType = V.GOVERNANCE_OBJECT_WATCHDOG → GetMinCollateralFee V self = 0) ∧
      (self.nObjectType ≠ V.GOVERNANCE_OBJECT_PROPOSAL →
        self.nObjectType ≠ V.GOVERNANCE_OBJECT_TRIGGER →
        self.nObjectType ≠ V.GOVERNANCE_OBJECT_WATCHDOG →
        GetMinCollateralFee V self = V.MAX_MONEY)) ∧
    ((IsCollateralValid V Ch self).1 = true →
      ∃ (tx : CTransaction) (nBlockHash : Nat),
        Ch.GetTransaction self.nCollateralHash = some (tx, nBlockHash) ∧
        (∀ txin ∈ tx.vin, Ch.GetTransaction txin.prevout.hash ≠ none) ∧
        ((∀ o ∈ tx.vout, 0 ≤ o.nValue) → (∀ txin ∈ tx.vin, 0 ≤ inputValue Ch txin) →
          (tx.vout.map (fun o => o.nValue)).sum < 2 ^ 63 →
          (tx.vin.map (inputValue Ch)).sum < 2 ^ 63 →
          0 ≤ netValue Ch tx ∧ GetMinCollateralFee V self ≤ netValue Ch tx)) ∧
    (∀ (tx : CTransaction) (nBlockHash : Nat),
      Ch.GetTransaction self.nCollateralHash = some (tx, nBlockHash) →
      (∃ txin ∈ tx.vin, Ch.GetTransaction txin.prevout.hash = none) →
      (IsCollateralValid V Ch self).1 = false) := by
  have hfound : (IsCollateralValid V Ch self).1 = true →
      ∃ (tx : CTransaction) (nBlockHash : Nat),
        Ch.GetTransaction self.nCollateralHash = some (tx, nBlockHash) ∧
        (∀ txin ∈ tx.vin, Ch.GetTransaction txin.prevout.hash ≠ none) ∧
        IsCollateralValid_sumOutputs tx.vout 0
          ≤ (IsCollateralValid_sumInputs Ch tx.vin (0, false)).1 ∧
        GetMinCollateralFee V self ≤
          wrap64 ((IsCollateralValid_sumInputs Ch tx.vin (0, false)).1
            - IsCollateralValid_sumOutputs tx.vout 0) := by
    intro h
    obtain ⟨tx, nBlockHash, hget, _, hmiss, hle, hfee, _, _⟩ := IsCollateralValid_true V Ch self h
    refine ⟨tx, nBlockHash, hget, ?_, hle, hfee⟩
    intro txin hin hnone
    have := (IsCollateralValid_sumInputs_snd Ch tx.vin 0 false).mpr (Or.inr ⟨txin, hin, hnone⟩)
    rw [hmiss] at this
    exact absurd this (by decide)
  refine ⟨⟨?_, ?_, ?_, ?_⟩, ?_, ?_⟩
  · intro h
    simp [GetMinCollateralFee, h]
  · intro h
    have : ¬ V.GOVERNANCE_OBJECT_TRIGGER = V.GOVERNANCE_OBJECT_PROPOSAL := fun e => hPT e.symm
    simp [GetMinCollateralFee, h, this]
  · intro h
    have : ¬ V.GOVERNANCE_OBJECT_WATCHDOG = V.GOVERNANCE_OBJECT_PROPOSAL := fun e => hPW e.symm
    simp [GetMinCollateralFee, h, this]
  · intro h1 h2 h3
    simp [GetMinCollateralFee, h1, h2, h3]
  · intro h
    obtain ⟨tx, nBlockHash, hget, hall, hle, hfee⟩ := hfound h
    refine ⟨tx, nBlockHash, hget, hall, ?_⟩
    intro hout hin hsout hsin
    have eo := IsCollateralValid_sumOutputs_eq tx.vout hout 0 (le_refl 0) (by omega)
    have ei := IsCollateralValid_sumInputs_fst Ch tx.vin hin 0 false (le_refl 0) (by omega)
    have ho : 0 ≤ (tx.vout.map (fun o => o.nValue)).sum :=
      List.sum_nonneg (fun x hx => by
        obtain ⟨y, hy, rfl⟩ := List.mem_map.mp hx
        exact hout y hy)
    have hi : 0 ≤ (tx.vin.map (inputValue Ch)).sum :=
      List.sum_nonneg (fun x hx => by
        obtain ⟨y, hy, rfl⟩ := List.mem_map.mp hx
        exact hin y hy)
    rw [eo, ei] at hle hfee
    have hw : wrap64 (0 + (tx.vin.map (inputValue Ch)).sum
        - (0 + (tx.vout.map (fun o => o.nValue)).sum))
        = (tx.vin.map (inputValue Ch)).sum - (tx.vout.map (fun o => o.nValue)).sum :=
      (wrap64_of_range _ (by omega) (by omega)).trans (by omega)
    rw [hw] at hfee
    unfold netValue
    constructor
    · omega
    · exact hfee
  · intro tx nBlockHash hget hmissing
    by_contra hne
    have htrue : (IsCollateralValid V Ch self).1 = true := by
      cases hv : (IsCollateralValid V Ch self).1 with
      | true => rfl
      | false => exact absurd hv hne
    obtain ⟨tx', nBlockHash', hget', hall, _, _⟩ := hfound htrue
    rw [hget] at hget'
    obtain ⟨txin, hin, hnone⟩ := hmissing
    have htx : tx = tx' := by
      injection hget' with e
      exact (Prod.mk.inj e).1
    rw [htx] at hin
    exact hall txin hin hnone

/-- C13 at concrete inputs: the example proposal needs a fee of 500000000, and its
collateral transaction with an unknown input is rejected. -/
theorem C13_true_only_if_inputs_found_and_fee_paid_witness :
    GetMinCollateralFee exampleValidationEnv exampleProposal = 500000000 ∧
    (IsCollateralValid exampleValidationEnv
      (exampleChainUnknownInput [⟨100, [1]⟩, ⟨0, [106, 1006]⟩]) exampleProposal).1 = false :=
  ⟨(C13_true_only_if_inputs_found_and_fee_paid exampleValidationEnv
      (exampleChainUnknownInput [⟨100, [1]⟩, ⟨0, [106, 1006]⟩]) exampleProposal
      (by decide) (by decide)).1.1 (by decide),
    (C13_true_only_if_inputs_found_and_fee_paid exampleValidationEnv
      (exampleChainUnknownInput [⟨100, [1]⟩, ⟨0, [106, 1006]⟩]) exampleProposal
      (by decide) (by decide)).2.2
      { vin := [{ prevout := { hash := 88, n := 0 }, scriptSig := [], nSequence := 0 }],
        vout := [⟨100, [1]⟩, ⟨0, [106, 1006]⟩] } 5 (by decide)
      ⟨{ prevout := { hash := 88, n := 0 }, scriptSig := [], nSequence := 0 },
        by decide, by decide⟩⟩

/-! ## Identity hash, signed message and signatures -/

theorem hexChar_injective :
    ∀ a, a < 16 → ∀ b, b < 16 → hexChar a = hexChar b → a = b := by
  decide

theorem hexFixed_length (w x : Nat) : (hexFixed w x).length = w := by
  induction w generalizing x with
  | zero => rfl
  | succ w ih => simp [hexFixed, ih]

/-- Fixed-width hexadecimal forms are equal only for values equal modulo `16 ^ w`. -/
theorem hexFixed_injective (w : Nat) :
    ∀ x y : Nat, hexFixed w x = hexFixed w y → x % 16 ^ w = y % 16 ^ w := by
  induction w with
  | zero => intro x y _; simp [Nat.mod_one]
  | succ w ih =>
    intro x y h
    simp only [hexFixed] at h
    have hlen : (hexFixed w (x / 16)).length = (hexFixed w (y / 16)).length := by
      rw [hexFixed_length, hexFixed_length]
    obtain ⟨h1, h2⟩ := List.append_inj h hlen
    have hd : x % 16 = y % 16 :=
      hexChar_injective _ (Nat.mod_lt _ (by decide)) _ (Nat.mod_lt _ (by decide))
        (List.singleton_inj.mp h2)
    have hq := ih _ _ h1
    rw [pow_succ', Nat.mod_mul, Nat.mod_mul, hd, hq]

/-- The hexadecimal form of a 256-bit value determines the value. -/
theorem uint256_ToString_injective (x y : Nat) (hx : x < 2 ^ 256) (hy : y < 2 ^ 256)
    (h : uint256_ToString x = uint256_ToString y) : x = y := by
  have hd : hexFixed 64 x = hexFixed 64 y := by
    have := congrArg String.data h
    exact this
  have hm := hexFixed_injective 64 x y hd
  have e : (16 : Nat) ^ 64 = 2 ^ 256 := by norm_num
  rw [e, Nat.mod_eq_of_lt hx, Nat.mod_eq_of_lt hy] at hm
  exact hm

theorem String_append_left_cancel (a b c : String) (h : a ++ b = a ++ c) : b = c := by
  have := congrArg String.data h
  simp only [String.data_append] at this
  exact String.ext (List.append_cancel_left this)

/-- The signed message does not read the signature. -/
theorem GetSignatureMessage_vchSig (s : CGovernanceObject) (sig : List Nat) :
    GetSignatureMessage { s with vchSig := sig } = GetSignatureMessage s := rfl

/-- C14: two objects that agree on parent hash, revision, creation time, data,
submitter (`vinMasternode`) and signature have the same `GetHash`, whatever their other
fields; in particular replacing the collateral hash by a different 256-bit value leaves
`GetHash` as it is, while it changes `GetSignatureMessage`. -/
theorem C14_hash_ignores_collateral_message_does_not (V : ValidationEnv)
    (s : CGovernanceObject) :
    (∀ t : CGovernanceObject, t.nHashParent = s.nHashParent → t.nRevision = s.nRevision →
      t.nTime = s.nTime → t.strData = s.strData → t.vinMasternode = s.vinMasternode →
      t.vchSig = s.vchSig → GetHash V t = GetHash V s) ∧
    (∀ c : Nat, c < 2 ^ 256 → s.nCollateralHash < 2 ^ 256 → c ≠ s.nCollateralHash →
      GetHash V { s with nCollateralHash := c } = GetHash V s ∧
      GetSignatureMessage { s with nCollateralHash := c } ≠ GetSignatureMessage s) := by
  constructor
  · intro t h1 h2 h3 h4 h5 h6
    simp only [GetHash, h1, h2, h3, h4, h5, h6]
  · intro c hc hs hne
    refine ⟨rfl, ?_⟩
    intro h
    unfold GetSignatureMessage at h
    exact hne (uint256_ToString_injective c s.nCollateralHash hc hs
      (String_append_left_cancel _ _ _ h))

/-- C14 at a concrete input: the example proposal with collateral hash 78 instead of 77
has the same hash and another signed message. -/
theorem C14_hash_ignores_collateral_message_does_not_witness :
    GetHash exampleValidationEnv { exampleProposal with nCollateralHash := 78 }
      = GetHash exampleValidationEnv exampleProposal ∧
    GetSignatureMessage { exampleProposal with nCollateralHash := 78 }
      ≠ GetSignatureMessage exampleProposal :=
  (C14_hash_ignores_collateral_message_does_not exampleValidationEnv exampleProposal).2 78
    (by decide) (by decide) (by decide)

/-- C15: whenever `Sign` returns true, `CheckSignature` with the same public key on the
object `Sign` leaves behind returns true; `Sign` returns false when the signature it
stored does not verify against the signed message; and the signed message is the same
before and after `Sign`, since it does not read the signature. -/
theorem C15_sign_then_check_signature (V : ValidationEnv) (keyMasternode pubKeyMasternode : Nat)
    (s : CGovernanceObject) :
    ((Sign V keyMasternode pubKeyMasternode s).1 = true →
      CheckSignature V pubKeyMasternode (Sign V keyMasternode pubKeyMasternode s).2 = true) ∧
    (V.VerifyMessage pubKeyMasternode (Sign V keyMasternode pubKeyMasternode s).2.vchSig
        (GetSignatureMessage s) = false →
      (Sign V keyMasternode pubKeyMasternode s).1 = false) ∧
    (Sign V keyMasternode pubKeyMasternode s).2.vchSig
      = (V.SignMessage (GetSignatureMessage s) keyMasternode s.vchSig).2 ∧
    GetSignatureMessage (Sign V keyMasternode pubKeyMasternode s).2
      = GetSignatureMessage s := by
  have hobj : (Sign V keyMasternode pubKeyMasternode s).2
      = { s with vchSig := (V.SignMessage (GetSignatureMessage s) keyMasternode s.vchSig).2 } := by
    unfold Sign
    dsimp only
    split_ifs <;> rfl
  refine ⟨?_, ?_, ?_, ?_⟩
  · intro h
    rw [hobj]
    unfold Sign at h
    dsimp only at h
    split_ifs at h with h1 h2
    show (if (!V.VerifyMessage pubKeyMasternode
        (V.SignMessage (GetSignatureMessage s) keyMasternode s.vchSig).2
        (GetSignatureMessage s)) = true then false else true) = true
    rw [if_neg h2]
  · intro hv
    rw [hobj] at hv
    unfold Sign
    dsimp only
    split_ifs with h1 h2
    · rfl
    · rfl
    · simp [hv] at h2
  · rw [hobj]
  · rw [hobj]
    rfl

/-- C15 at a concrete input: signing the example proposal with key 5 and checking with
public key 5. -/
theorem C15_sign_then_check_signature_witness :
    CheckSignature exampleValidationEnv 5 (Sign exampleValidationEnv 5 5 exampleProposal).2
      = true :=
  (C15_sign_then_check_signature exampleValidationEnv 5 5 exampleProposal).1
    (by simp [Sign, exampleValidationEnv])

/-! ## Unresolved voters and the effect of a commit -/

/-- C16: when the voter of the vote does not resolve to an index, `ProcessVote` returns
false with a warning of penalty 0; the orphan cache afterwards holds the entry (voter
identity, vote, adjusted time plus `GOVERNANCE_ORPHAN_EXPIRATION_TIME`) next to its old
entries; the peer is asked for the identity exactly when the entry was not in the cache
before and a peer was given; the ledger, the VoteStore and the dirty flag are unchanged
and nothing is handed to the invalid-vote ledger. -/
theorem C16_unresolved_voter_is_orphaned (E : Env) (W : World) (pfrom : Bool)
    (vote : CGovernanceVote) (s : CGovernanceObject)
    (h : W.GetMasternodeIndex vote.vinMasternode < 0) :
    (ProcessVote E W pfrom vote s).ret = false ∧
    (ProcessVote E W pfrom vote s).exception
      = some { eType := GOVERNANCE_EXCEPTION_WARNING, nNodePenalty := 0 } ∧
    orphanEntry E W vote ∈ (ProcessVote E W pfrom vote s).obj.mapOrphanVotes ∧
    (∀ x : OrphanItem, x ∈ (ProcessVote E W pfrom vote s).obj.mapOrphanVotes ↔
      x = orphanEntry E W vote ∨ x ∈ s.mapOrphanVotes) ∧
    ((ProcessVote E W pfrom vote s).fAskedForMN = true ↔
      (orphanEntry E W vote ∉ s.mapOrphanVotes ∧ pfrom = true)) ∧
    (ProcessVote E W pfrom vote s).obj.mapCurrentMNVotes = s.mapCurrentMNVotes ∧
    (ProcessVote E W pfrom vote s).obj.fileVotes = s.fileVotes ∧
    (ProcessVote E W pfrom vote s).obj.fDirtyCache = s.fDirtyCache ∧
    (ProcessVote E W pfrom vote s).fAddedInvalidVote = false := by
  have hmem : ∀ x : OrphanItem, x ∈ (ProcessVote E W pfrom vote s).obj.mapOrphanVotes ↔
      x = orphanEntry E W vote ∨ x ∈ s.mapOrphanVotes := by
    intro x
    rw [mem_ProcessVote_mapOrphanVotes]
    constructor
    · rintro (hx | ⟨_, hx⟩)
      · exact Or.inr hx
      · exact Or.inl hx
    · rintro (hx | hx)
      · exact Or.inr ⟨h, hx⟩
      · exact Or.inl hx
  refine ⟨?_, ?_, (hmem _).mpr (Or.inl rfl), hmem, ?_, ?_, ?_, ?_, ?_⟩
  · rw [ProcessVote_unresolved E W pfrom vote s h]
  · rw [ProcessVote_unresolved E W pfrom vote s h]
  · rw [ProcessVote_unresolved E W pfrom vote s h]
    simp only [CacheMultiMap.Insert, orphanEntry]
    split_ifs with hin <;> simp [hin]
  · rw [ProcessVote_unresolved E W pfrom vote s h]
  · rw [ProcessVote_unresolved E W pfrom vote s h]
  · rw [ProcessVote_unresolved E W pfrom vote s h]
  · rw [ProcessVote_unresolved E W pfrom vote s h]

/-- C16 at a concrete input: the vote of an unknown voter arrives from a peer at time
10000; the peer is asked for the voter and the entry expires at 10600. -/
theorem C16_unresolved_voter_is_orphaned_witness :
    (ProcessVote exampleEnv { exampleWorld 10000 with GetMasternodeIndex := fun _ => -1 }
      true (exampleVote 7 1 1 100) exampleObject).fAskedForMN = true ∧
    (ProcessVote exampleEnv { exampleWorld 10000 with GetMasternodeIndex := fun _ => -1 }
      true (exampleVote 7 1 1 100) exampleObject).obj.mapOrphanVotes = [exampleOrphan 10600] :=
  ⟨(C16_unresolved_voter_is_orphaned exampleEnv
      { exampleWorld 10000 with GetMasternodeIndex := fun _ => -1 } true
      (exampleVote 7 1 1 100) exampleObject (by decide)).2.2.2.2.1.mpr
      ⟨by decide, rfl⟩,
    by decide⟩

/-- C17 (the code at the failing input): on a fresh object a vote committed at time
10000 gets an instance with last update time 0, and a vote that replaces an instance
last updated at time 9000 and is committed at time 20000 leaves the last update time at
9000: the commit writes the previous `nTime` back, not the time of the update. The
outcome and the creation time are those of the vote. -/
theorem C17_commit_keeps_previous_update_time :
    (ProcessVote exampleEnv (exampleWorld 10000) false (exampleVote 0 1 1 100)
      exampleObject).ret = true ∧
    (exampleWorld 10000).GetTime = 10000 ∧
    ledgerInstance (ProcessVote exampleEnv (exampleWorld 10000) false (exampleVote 0 1 1 100)
      exampleObject).obj.mapCurrentMNVotes 0 1
      = some { eOutcome := 1, nTime := 0, nCreationTime := 100 } ∧
    (ProcessVote exampleEnv (exampleWorld 20000) false (exampleVote 0 1 2 200)
      exampleVotedObject).ret = true ∧
    (exampleWorld 20000).GetTime = 20000 ∧
    ledgerInstance (ProcessVote exampleEnv (exampleWorld 20000) false (exampleVote 0 1 2 200)
      exampleVotedObject).obj.mapCurrentMNVotes 0 1
      = some { eOutcome := 2, nTime := 9000, nCreationTime := 200 } := by
  decide

theorem stdmap_find?_insertSorted_of_ne {α : Type} (m : List (Int × α)) (k k' : Int) (v : α)
    (hne : k ≠ k') : stdmap.find? (stdmap.insertSorted k v m) k' = stdmap.find? m k' := by
  induction m with
  | nil => simp [stdmap.insertSorted, stdmap.find?, hne]
  | cons p rest ih =>
    obtain ⟨k0, v0⟩ := p
    unfold stdmap.insertSorted
    split_ifs
    · simp [stdmap.find?, hne]
    · simp only [stdmap.find?, ih]

theorem stdmap_find?_insert_of_ne {α : Type} (m : List (Int × α)) (k k' : Int) (v : α)
    (hne : k ≠ k') : stdmap.find? (stdmap.insert m k v) k' = stdmap.find? m k' := by
  unfold stdmap.insert
  cases stdmap.find? m k with
  | none => exact stdmap_find?_insertSorted_of_ne m k k' v hne
  | some x => rfl

theorem stdmap_find?_assign_of_ne {α : Type} (m : List (Int × α)) (k k' : Int) (v : α)
    (hne : k ≠ k') : stdmap.find? (stdmap.assign m k v) k' = stdmap.find? m k' := by
  induction m with
  | nil => rfl
  | cons p rest ih =>
    obtain ⟨k0, v0⟩ := p
    unfold stdmap.assign
    split_ifs with h
    · have h' : ¬ k0 = k' := fun e => hne (h.symm.trans e)
      simp [stdmap.find?, h']
    · simp only [stdmap.find?, ih]

/-- The object after a successful `ProcessVote`, field by field. -/
theorem ProcessVote_success_obj (E : Env) (W : World) (pfrom : Bool) (vote : CGovernanceVote)
    (s : CGovernanceObject) (h : (ProcessVote E W pfrom vote s).ret = true) :
    (ProcessVote E W pfrom vote s).obj =
      { s with
        mapCurrentMNVotes :=
          stdmap.assign
            (stdmap.insert s.mapCurrentMNVotes (W.GetMasternodeIndex vote.vinMasternode)
              vote_rec_t.default)
            (W.GetMasternodeIndex vote.vinMasternode)
            { mapInstances :=
                stdmap.assign
                  (stdmap.insert
                    ((stdmap.find? s.mapCurrentMNVotes
                      (W.GetMasternodeIndex vote.vinMasternode)).getD
                        vote_rec_t.default).mapInstances
                    vote.nVoteSignal (vote_instance_t.default E))
                  vote.nVoteSignal
                  { eOutcome := vote.nVoteOutcome
                    nTime := ((ledgerInstance s.mapCurrentMNVotes
                      (W.GetMasternodeIndex vote.vinMasternode) vote.nVoteSignal).getD
                        (vote_instance_t.default E)).nTime
                    nCreationTime := vote.nTime } }
        fileVotes :=
          if fileVotes_HasVote E s.fileVotes (E.voteGetHash vote) then s.fileVotes
          else fileVotes_AddVote s.fileVotes vote
        fDirtyCache := true } := by
  have e1 := stdmap.find?_insert_self s.mapCurrentMNVotes
    (W.GetMasternodeIndex vote.vinMasternode) vote_rec_t.default
  have e2 := stdmap.find?_insert_self
    ((stdmap.find? s.mapCurrentMNVotes (W.GetMasternodeIndex vote.vinMasternode)).getD
      vote_rec_t.default).mapInstances vote.nVoteSignal (vote_instance_t.default E)
  have e3 : (stdmap.find? ((stdmap.find? s.mapCurrentMNVotes
      (W.GetMasternodeIndex vote.vinMasternode)).getD vote_rec_t.default).mapInstances
      vote.nVoteSignal).getD (vote_instance_t.default E)
      = (ledgerInstance s.mapCurrentMNVotes (W.GetMasternodeIndex vote.vinMasternode)
          vote.nVoteSignal).getD (vote_instance_t.default E) := by
    unfold ledgerInstance
    cases stdmap.find? s.mapCurrentMNVotes (W.GetMasternodeIndex vote.vinMasternode) with
    | none => simp [vote_rec_t.default, stdmap.find?]
    | some r => simp
  generalize hr : ProcessVote E W pfrom vote s = r at h ⊢
  unfold ProcessVote at hr
  dsimp only at hr
  simp only [e1, Option.getD_some, e2, e3] at hr
  split_ifs at hr with h1 h2 h3 h4 h5 h6 h7 h8 <;> subst hr <;>
    first | (simp at h; done) | rfl | (simp only [h8, if_true, if_false] <;> rfl)

/-- The ledger after a successful `ProcessVote`: the records of other voter indices and
the instances of the voter's other signals are as before, and the instance of the vote's
signal holds the vote's outcome, the previous last update time (0 for a new instance)
and the vote's timestamp as creation time. -/
theorem ProcessVote_success_ledger (E : Env) (W : World) (pfrom : Bool)
    (vote : CGovernanceVote) (s : CGovernanceObject)
    (h : (ProcessVote E W pfrom vote s).ret = true) :
    (∀ j : Int, j ≠ W.GetMasternodeIndex vote.vinMasternode →
      stdmap.find? (ProcessVote E W pfrom vote s).obj.mapCurrentMNVotes j
        = stdmap.find? s.mapCurrentMNVotes j) ∧
    (∀ eSignal : Int, eSignal ≠ vote.nVoteSignal →
      ledgerInstance (ProcessVote E W pfrom vote s).obj.mapCurrentMNVotes
          (W.GetMasternodeIndex vote.vinMasternode) eSignal
        = ledgerInstance s.mapCurrentMNVotes (W.GetMasternodeIndex vote.vinMasternode) eSignal) ∧
    ledgerInstance (ProcessVote E W pfrom vote s).obj.mapCurrentMNVotes
        (W.GetMasternodeIndex vote.vinMasternode) vote.nVoteSignal
      = some { eOutcome := vote.nVoteOutcome
               nTime := ((ledgerInstance s.mapCurrentMNVotes
                 (W.GetMasternodeIndex vote.vinMasternode) vote.nVoteSignal).getD
                   (vote_instance_t.default E)).nTime
               nCreationTime := vote.nTime } := by
  have e1 := stdmap.find?_insert_self s.mapCurrentMNVotes
    (W.GetMasternodeIndex vote.vinMasternode) vote_rec_t.default
  have e2 := stdmap.find?_insert_self
    ((stdmap.find? s.mapCurrentMNVotes (W.GetMasternodeIndex vote.vinMasternode)).getD
      vote_rec_t.default).mapInstances vote.nVoteSignal (vote_instance_t.default E)
  rw [ProcessVote_success_obj E W pfrom vote s h]
  dsimp only
  refine ⟨?_, ?_, ?_⟩
  · intro j hj
    rw [stdmap_find?_assign_of_ne _ _ _ _ (Ne.symm hj),
      stdmap_find?_insert_of_ne _ _ _ _ (Ne.symm hj)]
  · intro eSignal hsig
    unfold ledgerInstance
    rw [stdmap.find?_assign_self _ _ _ _ e1]
    simp only [Option.some_bind]
    rw [stdmap_find?_assign_of_ne _ _ _ _ (Ne.symm hsig),
      stdmap_find?_insert_of_ne _ _ _ _ (Ne.symm hsig)]
    cases stdmap.find? s.mapCurrentMNVotes (W.GetMasternodeIndex vote.vinMasternode) with
    | none => simp [vote_rec_t.default, stdmap.find?]
    | some r => rfl
  · unfold ledgerInstance
    rw [stdmap.find?_assign_self _ _ _ _ e1]
    simp only [Option.some_bind]
    rw [stdmap.find?_assign_self _ _ _ _ e2]

/-! ## Local validity -/

/-- C18: `IsValidLocally` follows the decision table: its return value and the
missing-voter-identity flag are those of `IsValidLocally_table`; an unparsable payload
gives the error "Object data unparseable"; the flag is set in exactly one case, a
trigger or watchdog checked with collateral whose submitter the roster does not know; and
for a trigger or watchdog the result does not depend on the chain (two worlds that agree
on the roster's answer for the submitter give the same result). -/
theorem C18_local_validity_decision_table (V : ValidationEnv) (Ch : ChainWorld)
    (self : CGovernanceObject) (strError : String) (fCheckCollateral : Bool) :
    ((IsValidLocally V Ch self strError fCheckCollateral).ret,
      (IsValidLocally V Ch self strError fCheckCollateral).fMissingMasternode)
      = IsValidLocally_table V Ch self fCheckCollateral ∧
    (self.fUnparsable = true →
      IsValidLocally V Ch self strError fCheckCollateral
        = { ret := false, strError := "Object data unparseable", fMissingMasternode := false }) ∧
    ((IsValidLocally V Ch self strError fCheckCollateral).fMissingMasternode = true ↔
      (self.fUnparsable = false ∧ fCheckCollateral = true ∧
        (self.nObjectType = V.GOVERNANCE_OBJECT_TRIGGER
          ∨ self.nObjectType = V.GOVERNANCE_OBJECT_WATCHDOG) ∧
        (Ch.GetMasternodeInfo self.vinMasternode).fInfoValid = false)) ∧
    (self.nObjectType = V.GOVERNANCE_OBJECT_TRIGGER
        ∨ self.nObjectType = V.GOVERNANCE_OBJECT_WATCHDOG →
      ∀ Ch' : ChainWorld,
        Ch'.GetMasternodeInfo self.vinMasternode = Ch.GetMasternodeInfo self.vinMasternode →
        IsValidLocally V Ch' self strError fCheckCollateral
          = IsValidLocally V Ch self strError fCheckCollateral) := by
  refine ⟨?_, ?_, ?_, ?_⟩
  · unfold IsValidLocally IsValidLocally_table
    split_ifs <;> simp_all
    split_ifs <;> simp_all
  · intro hu
    unfold IsValidLocally
    simp [hu]
  · unfold IsValidLocally
    split_ifs <;> simp_all <;> split_ifs <;> simp_all
  · intro htw Ch' hinfo
    unfold IsValidLocally
    by_cases hu : self.fUnparsable = true
    · simp [hu]
    have hset : self.nObjectType = V.GOVERNANCE_OBJECT_PROPOSAL
        ∨ self.nObjectType = V.GOVERNANCE_OBJECT_TRIGGER
        ∨ self.nObjectType = V.GOVERNANCE_OBJECT_WATCHDOG := Or.inr htw
    simp only [hu, hset, htw, hinfo, not_true_eq_false, if_true, if_false, Bool.false_eq_true]

/-- C18 at concrete inputs: a trigger whose submitter the roster does not know is
invalid with the flag set when checked with collateral, and the example proposal with a
sufficient fee is valid. -/
theorem C18_local_validity_decision_table_witness :
    IsValidLocally exampleValidationEnv (exampleChain [] 0) { exampleObject with nObjectType := 2 }
        "" true =
      { ret := false
        strError := "Masternode not found: " ++ (exampleVin 0).prevout.ToStringShort
        fMissingMasternode := true } ∧
    (IsValidLocally exampleValidationEnv
      (exampleChain [⟨100, [1]⟩, ⟨0, [106, 1006]⟩] 500000100) exampleProposal "" true).ret
      = true :=
  ⟨by decide,
    (congrArg Prod.fst (C18_local_validity_decision_table exampleValidationEnv
      (exampleChain [⟨100, [1]⟩, ⟨0, [106, 1006]⟩] 500000100) exampleProposal "" true).1).trans
      (by decide)⟩

/-! ## Ledger maintenance -/

/-- C19 (counterexample): voter `(7, 0)` votes and the vote is committed under index 7;
later the roster neither has the voter nor resolves index 7 to any identity.
`ClearMasternodeVotes` drops the voter's record, but the voter's vote stays in the
VoteStore. -/
theorem C19_unresolved_index_is_dropped_without_purge :
    (ProcessVote exampleEnv (exampleWorld 10000) false (exampleVote 7 1 1 100)
      exampleObject).obj.mapCurrentMNVotes
      = [(7, { mapInstances := [(1, { eOutcome := 1, nTime := 0, nCreationTime := 100 })] })] ∧
    exampleRoster.Has (exampleVote 7 1 1 100).vinMasternode = false ∧
    exampleRoster.Get 7 = none ∧
    (ClearMasternodeVotes exampleRoster
      (ProcessVote exampleEnv (exampleWorld 10000) false (exampleVote 7 1 1 100)
        exampleObject).obj).mapCurrentMNVotes = [] ∧
    exampleVote 7 1 1 100 ∈
      (ClearMasternodeVotes exampleRoster
        (ProcessVote exampleEnv (exampleWorld 10000) false (exampleVote 7 1 1 100)
          exampleObject).obj).fileVotes := by
  decide

/-- The ledger entries that the loop of `ClearMasternodeVotes` leaves. -/
theorem ClearMasternodeVotes_loop_fst (Ch : ChainWorld) (ledger : List (Int × vote_rec_t)) :
    ∀ store : List CGovernanceVote,
      (ClearMasternodeVotes_loop Ch ledger store).1
        = ledger.filter (ClearMasternodeVotes_keeps Ch) := by
  induction ledger with
  | nil => intro store; rfl
  | cons entry rest ih =>
    intro store
    unfold ClearMasternodeVotes_loop
    cases hget : Ch.Get entry.1 with
    | none =>
      have hk : ClearMasternodeVotes_keeps Ch entry = false := by
        simp [ClearMasternodeVotes_keeps, hget]
      simp only [List.filter_cons, hk, Bool.false_eq_true, if_false]
      exact ih store
    | some vin =>
      have hk : ClearMasternodeVotes_keeps Ch entry = Ch.Has vin := by
        simp [ClearMasternodeVotes_keeps, hget]
      simp only [List.filter_cons, hk]
      split_ifs
      · simp only [ih]
      · exact ih _

/-- The VoteStore that the loop of `ClearMasternodeVotes` leaves: exactly the votes that
belong to none of the voters dropped with a resolved identity. -/
theorem ClearMasternodeVotes_loop_snd (Ch : ChainWorld) (ledger : List (Int × vote_rec_t))
    (v : CGovernanceVote) :
    ∀ store : List CGovernanceVote,
      v ∈ (ClearMasternodeVotes_loop Ch ledger store).2 ↔
        v ∈ store ∧ ∀ entry ∈ ledger, ∀ vin : CTxIn, Ch.Get entry.1 = some vin →
          Ch.Has vin = false → v.vinMasternode ≠ vin := by
  induction ledger with
  | nil => intro store; simp [ClearMasternodeVotes_loop]
  | cons entry rest ih =>
    intro store
    unfold ClearMasternodeVotes_loop
    cases hget : Ch.Get entry.1 with
    | none =>
      simp only [ih, List.mem_cons, forall_eq_or_imp, hget]
      constructor
      · rintro ⟨h1, h2⟩
        exact ⟨h1, fun vin hv => (by cases hv), h2⟩
      · rintro ⟨h1, _, h2⟩
        exact ⟨h1, h2⟩
    | some vin =>
      by_cases hhas : Ch.Has vin = true
      · simp only [hhas, if_true, ih, List.mem_cons, forall_eq_or_imp, hget]
        constructor
        · rintro ⟨h1, h2⟩
          refine ⟨h1, ?_, h2⟩
          intro vin' hv hf
          injection hv with hv
          rw [← hv, hhas] at hf
          cases hf
        · rintro ⟨h1, _, h2⟩
          exact ⟨h1, h2⟩
      · simp only [hhas, if_false, ih, List.mem_cons, forall_eq_or_imp, hget,
          fileVotes_RemoveVotesFromMasternode, List.mem_filter, Bool.not_eq_true',
          decide_eq_false_iff_not, Bool.false_eq_true]
        constructor
        · rintro ⟨⟨h1, h3⟩, h2⟩
          refine ⟨h1, ?_, h2⟩
          intro vin' hv _
          injection hv with hv
          rw [← hv]
          exact h3
        · rintro ⟨h1, h3, h2⟩
          exact ⟨⟨h1, h3 vin rfl (by simpa using hhas)⟩, h2⟩

/-- C19 (amended): after `ClearMasternodeVotes` the ledger is exactly the prior entries
whose index resolves to an identity that the roster has, in their order and with their
records unchanged; a vote is in the VoteStore afterwards exactly when it was there before
and its voter is not the identity of a dropped entry whose index resolves: the VoteStore
entries of a voter whose index resolves to an identity the roster no longer has are all
purged, and no other entry is. -/
theorem C19_clear_drops_absent_voters (Ch : ChainWorld) (s : CGovernanceObject) :
    (ClearMasternodeVotes Ch s).mapCurrentMNVotes
      = s.mapCurrentMNVotes.filter (ClearMasternodeVotes_keeps Ch) ∧
    (∀ v : CGovernanceVote, v ∈ (ClearMasternodeVotes Ch s).fileVotes ↔
      v ∈ s.fileVotes ∧ ∀ entry ∈ s.mapCurrentMNVotes, ∀ vin : CTxIn,
        Ch.Get entry.1 = some vin → Ch.Has vin = false → v.vinMasternode ≠ vin) ∧
    (∀ entry ∈ s.mapCurrentMNVotes, ∀ vin : CTxIn, Ch.Get entry.1 = some vin →
      Ch.Has vin = false →
      entry ∉ (ClearMasternodeVotes Ch s).mapCurrentMNVotes ∧
      ∀ v ∈ (ClearMasternodeVotes Ch s).fileVotes, v.vinMasternode ≠ vin) := by
  have h1 : (ClearMasternodeVotes Ch s).mapCurrentMNVotes
      = s.mapCurrentMNVotes.filter (ClearMasternodeVotes_keeps Ch) :=
    ClearMasternodeVotes_loop_fst Ch s.mapCurrentMNVotes s.fileVotes
  have h2 : ∀ v : CGovernanceVote, v ∈ (ClearMasternodeVotes Ch s).fileVotes ↔
      v ∈ s.fileVotes ∧ ∀ entry ∈ s.mapCurrentMNVotes, ∀ vin : CTxIn,
        Ch.Get entry.1 = some vin → Ch.Has vin = false → v.vinMasternode ≠ vin :=
    fun v => ClearMasternodeVotes_loop_snd Ch s.mapCurrentMNVotes v s.fileVotes
  refine ⟨h1, h2, ?_⟩
  intro entry hentry vin hget hhas
  constructor
  · rw [h1, List.mem_filter]
    rintro ⟨_, hk⟩
    simp [ClearMasternodeVotes_keeps, hget, hhas] at hk
  · intro v hv
    exact ((h2 v).mp hv).2 entry hentry vin hget hhas

/-- C19 (amended) at a concrete input: of three voters only voter `(0, 0)` is still in
the roster; the records and votes of the other two are gone. -/
theorem C19_clear_drops_absent_voters_witness :
    (ClearMasternodeVotes exampleRoster exampleThreeVotersObject).mapCurrentMNVotes
      = [(0, { mapInstances := [(1, { eOutcome := 1, nTime := 0, nCreationTime := 100 })] })] ∧
    exampleVote 1 1 1 100 ∉
      (ClearMasternodeVotes exampleRoster exampleThreeVotersObject).fileVotes :=
  ⟨(C19_clear_drops_absent_voters exampleRoster exampleThreeVotersObject).1.trans (by decide),
    fun h => ((C19_clear_drops_absent_voters exampleRoster exampleThreeVotersObject).2.2
      (1, { mapInstances := [(1, { eOutcome := 1, nTime := 0, nCreationTime := 100 })] })
      (by decide) (exampleVin 1) (by decide) (by decide)).2 _ h rfl⟩

/-! ### RebuildVoteMap -/

theorem stdmap_find?_eq_none {α : Type} (m : List (Int × α)) (k : Int) :
    stdmap.find? m k = none ↔ k ∉ m.map Prod.fst := by
  induction m with
  | nil => simp [stdmap.find?]
  | cons p rest ih =>
    obtain ⟨k0, v0⟩ := p
    unfold stdmap.find?
    by_cases h : k0 = k
    · simp [h]
    · simp only [h, if_false, ih, List.map_cons, List.mem_cons, not_or]
      exact ⟨fun hr => ⟨fun e => h e.symm, hr⟩, fun hr => hr.2⟩

theorem stdmap_find?_of_mem {α : Type} (m : List (Int × α)) (hk : (m.map Prod.fst).Nodup)
    (k : Int) (v : α) (h : (k, v) ∈ m) : stdmap.find? m k = some v := by
  induction m with
  | nil => cases h
  | cons p rest ih =>
    obtain ⟨k0, v0⟩ := p
    simp only [List.map_cons, List.nodup_cons] at hk
    unfold stdmap.find?
    rcases List.mem_cons.mp h with h | h
    · injection h with h1 h2
      simp [h1, h2]
    · have hne : ¬ k0 = k := by
        intro e
        apply hk.1
        rw [e]
        exact List.mem_map.mpr ⟨(k, v), h, rfl⟩
      simp only [hne, if_false]
      exact ih hk.2 h

theorem stdmap_assign_insertSorted {α : Type} (m : List (Int × α)) (k : Int) (d r : α)
    (hk : k ∉ m.map Prod.fst) :
    stdmap.assign (stdmap.insertSorted k d m) k r = stdmap.insertSorted k r m := by
  induction m with
  | nil => simp [stdmap.insertSorted, stdmap.assign]
  | cons p rest ih =>
    obtain ⟨k0, v0⟩ := p
    simp only [List.map_cons, List.mem_cons, not_or] at hk
    unfold stdmap.insertSorted
    split_ifs
    · simp [stdmap.assign]
    · have hne : ¬ k0 = k := fun e => hk.1 e.symm
      simp only [stdmap.assign, hne, if_false, ih hk.2]

theorem stdmap_insertSorted_perm {α : Type} (m : List (Int × α)) (k : Int) (r : α) :
    (stdmap.insertSorted k r m).Perm ((k, r) :: m) := by
  induction m with
  | nil => exact List.Perm.refl _
  | cons p rest ih =>
    obtain ⟨k0, v0⟩ := p
    unfold stdmap.insertSorted
    split_ifs
    · exact List.Perm.refl _
    · exact ((List.Perm.cons _ ih).trans (List.Perm.swap _ _ _))

/-- Writing a record under a key the map does not hold yet, as `map[k] = r` does, adds
the pair and changes nothing else. -/
theorem stdmap_set_perm {α : Type} (m : List (Int × α)) (k : Int) (d r : α)
    (hk : k ∉ m.map Prod.fst) :
    (stdmap.assign (stdmap.insert m k d) k r).Perm ((k, r) :: m) := by
  have hnone := (stdmap_find?_eq_none m k).mpr hk
  unfold stdmap.insert
  rw [hnone]
  simp only []
  rw [stdmap_assign_insertSorted m k d r hk]
  exact stdmap_insertSorted_perm m k r

theorem mem_RebuildVoteMap_located (Ch : ChainWorld) (ledger : List (Int × vote_rec_t))
    (p : Int × vote_rec_t) :
    p ∈ RebuildVoteMap_located Ch ledger ↔
      ∃ entry ∈ ledger, RebuildVoteMap_newIndex Ch entry.1 = some p.1 ∧ entry.2 = p.2 := by
  unfold RebuildVoteMap_located
  rw [List.mem_filterMap]
  constructor
  · rintro ⟨entry, hin, hmap⟩
    refine ⟨entry, hin, ?_⟩
    cases hni : RebuildVoteMap_newIndex Ch entry.1 with
    | none => simp [hni] at hmap
    | some j =>
      simp only [hni, Option.map_some', Option.some.injEq] at hmap
      rw [← hmap]
      exact ⟨rfl, rfl⟩
  · rintro ⟨entry, hin, hni, h2⟩
    refine ⟨entry, hin, ?_⟩
    rw [hni]
    simp only [Option.map_some', Option.some.injEq]
    rw [h2]

theorem RebuildVoteMap_located_cons (Ch : ChainWorld) (entry : Int × vote_rec_t)
    (rest : List (Int × vote_rec_t)) :
    RebuildVoteMap_located Ch (entry :: rest) =
      match RebuildVoteMap_newIndex Ch entry.1 with
      | some nNewIndex => (nNewIndex, entry.2) :: RebuildVoteMap_located Ch rest
      | none => RebuildVoteMap_located Ch rest := by
  unfold RebuildVoteMap_located
  cases h : RebuildVoteMap_newIndex Ch entry.1 with
  | none => simp [List.filterMap_cons, h]
  | some j => simp [List.filterMap_cons, h]

/-- When the ledger keys are distinct and no two located entries get the same current
index, the current indices of the located entries are distinct. -/
theorem RebuildVoteMap_located_keys_nodup (Ch : ChainWorld)
    (ledger : List (Int × vote_rec_t)) (hkeys : (ledger.map Prod.fst).Nodup)
    (hinj : ∀ e1 ∈ ledger, ∀ e2 ∈ ledger, ∀ j : Int,
      RebuildVoteMap_newIndex Ch e1.1 = some j → RebuildVoteMap_newIndex Ch e2.1 = some j →
      e1.1 = e2.1) :
    ((RebuildVoteMap_located Ch ledger).map Prod.fst).Nodup := by
  induction ledger with
  | nil => simp [RebuildVoteMap_located]
  | cons entry rest ih =>
    simp only [List.map_cons, List.nodup_cons] at hkeys
    have ih' := ih hkeys.2 (fun e1 h1 e2 h2 j => hinj e1 (List.mem_cons_of_mem _ h1) e2
      (List.mem_cons_of_mem _ h2) j)
    rw [RebuildVoteMap_located_cons]
    cases hni : RebuildVoteMap_newIndex Ch entry.1 with
    | none => exact ih'
    | some j =>
      simp only [List.map_cons, List.nodup_cons]
      refine ⟨?_, ih'⟩
      intro hmem
      obtain ⟨p, hp, hpj⟩ := List.mem_map.mp hmem
      obtain ⟨e2, h2, hni2, _⟩ := (mem_RebuildVoteMap_located Ch rest p).mp hp
      rw [hpj] at hni2
      have := hinj entry (List.mem_cons_self _ _) e2 (List.mem_cons_of_mem _ h2) j hni hni2
      apply hkeys.1
      rw [this]
      exact List.mem_map.mpr ⟨e2, h2, rfl⟩

/-- With distinct target indices the loop of `RebuildVoteMap` adds the located entries
under their current indices to the map built so far, and nothing else. -/
theorem RebuildVoteMap_loop_perm (Ch : ChainWorld) (ledger : List (Int × vote_rec_t)) :
    ∀ acc : List (Int × vote_rec_t),
      ((RebuildVoteMap_located Ch ledger).map Prod.fst).Nodup →
      (∀ k ∈ (RebuildVoteMap_located Ch ledger).map Prod.fst, k ∉ acc.map Prod.fst) →
      (RebuildVoteMap_loop Ch ledger acc).Perm (acc ++ RebuildVoteMap_located Ch ledger) := by
  induction ledger with
  | nil =>
    intro acc _ _
    simp [RebuildVoteMap_loop, RebuildVoteMap_located]
  | cons entry rest ih =>
    intro acc hnd hdis
    rw [RebuildVoteMap_located_cons] at hnd hdis ⊢
    unfold RebuildVoteMap_loop
    cases hni : RebuildVoteMap_newIndex Ch entry.1 with
    | none =>
      simp only [hni] at hnd hdis ⊢
      exact ih acc hnd hdis
    | some j =>
      simp only [hni, List.map_cons, List.nodup_cons, List.mem_cons, forall_eq_or_imp]
        at hnd hdis ⊢
      have hset := stdmap_set_perm acc j vote_rec_t.default entry.2 hdis.1
      have hstep := ih (stdmap.assign (stdmap.insert acc j vote_rec_t.default) j entry.2)
        hnd.2 (by
          intro k hk hk'
          have hk2 : k ∈ ((j, entry.2) :: acc).map Prod.fst := (hset.map Prod.fst).subset hk'
          simp only [List.map_cons, List.mem_cons] at hk2
          rcases hk2 with e | e
          · rw [e] at hk
            exact hnd.1 hk
          · exact hdis.2 k hk e)
      refine hstep.trans ?_
      refine (List.Perm.append_right _ hset).trans ?_
      simp only [List.cons_append]
      exact List.perm_middle.symm

theorem CountMatchingVotes_loop_cons (eSignal eOutcome : Int) (entry : Int × vote_rec_t)
    (rest : List (Int × vote_rec_t)) :
    CountMatchingVotes_loop eSignal eOutcome (entry :: rest)
      = CountMatchingVotes_loop eSignal eOutcome rest
        + CountMatchingVotes_loop eSignal eOutcome [(0, entry.2)] := by
  obtain ⟨k, r⟩ := entry
  simp only [CountMatchingVotes_loop]
  cases stdmap.find? r.mapInstances eSignal with
  | none => simp
  | some inst =>
    simp only []
    split_ifs <;> simp

/-- The tally does not depend on the order of the ledger entries. -/
theorem CountMatchingVotes_loop_perm (eSignal eOutcome : Int)
    {l1 l2 : List (Int × vote_rec_t)} (h : l1.Perm l2) :
    CountMatchingVotes_loop eSignal eOutcome l1 = CountMatchingVotes_loop eSignal eOutcome l2 := by
  induction h with
  | nil => rfl
  | cons x _ ih =>
    rw [CountMatchingVotes_loop_cons _ _ x, CountMatchingVotes_loop_cons _ _ x, ih]
  | swap x y l =>
    rw [CountMatchingVotes_loop_cons _ _ y, CountMatchingVotes_loop_cons _ _ x,
      CountMatchingVotes_loop_cons _ _ x, CountMatchingVotes_loop_cons _ _ y]
    omega
  | trans _ _ ih1 ih2 => exact ih1.trans ih2

/-- The tally over the relocated entries is the tally over the located entries. -/
theorem CountMatchingVotes_loop_located (Ch : ChainWorld) (eSignal eOutcome : Int)
    (ledger : List (Int × vote_rec_t)) :
    CountMatchingVotes_loop eSignal eOutcome (RebuildVoteMap_located Ch ledger)
      = CountMatchingVotes_loop eSignal eOutcome
          (ledger.filter (fun entry => (RebuildVoteMap_newIndex Ch entry.1).isSome)) := by
  induction ledger with
  | nil => rfl
  | cons entry rest ih =>
    rw [RebuildVoteMap_located_cons]
    cases hni : RebuildVoteMap_newIndex Ch entry.1 with
    | none =>
      simp only [List.filter_cons, hni, Option.isSome_none, Bool.false_eq_true, if_false]
      exact ih
    | some j =>
      simp only [List.filter_cons, hni, Option.isSome_some, if_true]
      rw [CountMatchingVotes_loop_cons _ _ (j, entry.2), CountMatchingVotes_loop_cons _ _ entry, ih]

theorem RebuildVoteMap_located_length (Ch : ChainWorld) (ledger : List (Int × vote_rec_t)) :
    (RebuildVoteMap_located Ch ledger).length
      = (ledger.filter (fun entry => (RebuildVoteMap_newIndex Ch entry.1).isSome)).length := by
  induction ledger with
  | nil => rfl
  | cons entry rest ih =>
    rw [RebuildVoteMap_located_cons]
    cases hni : RebuildVoteMap_newIndex Ch entry.1 with
    | none =>
      simp only [List.filter_cons, hni, Option.isSome_none, Bool.false_eq_true, if_false]
      exact ih
    | some j =>
      simp only [List.filter_cons, hni, Option.isSome_some, if_true, List.length_cons, ih]

/-- C20: when the ledger keys are distinct and no two located entries get the same
current index, `RebuildVoteMap` keeps the record of every located entry, unchanged, under
the voter's current index; every entry of the new ledger is such a relocated entry, so
exactly the entries whose voter cannot be located (the old index has no identity, or the
identity has no current index that is not negative) are dropped; the number of entries is
the number of located entries; and every tally of the new ledger is the tally over the
located entries of the old one. -/
theorem C20_rebuild_remaps_located_voters (Ch : ChainWorld) (s : CGovernanceObject)
    (hkeys : (s.mapCurrentMNVotes.map Prod.fst).Nodup)
    (hinj : ∀ e1 ∈ s.mapCurrentMNVotes, ∀ e2 ∈ s.mapCurrentMNVotes, ∀ j : Int,
      RebuildVoteMap_newIndex Ch e1.1 = some j → RebuildVoteMap_newIndex Ch e2.1 = some j →
      e1.1 = e2.1) :
    (∀ entry ∈ s.mapCurrentMNVotes, ∀ j : Int, RebuildVoteMap_newIndex Ch entry.1 = some j →
      stdmap.find? (RebuildVoteMap Ch s).mapCurrentMNVotes j = some entry.2) ∧
    (∀ (j : Int) (r : vote_rec_t), (j, r) ∈ (RebuildVoteMap Ch s).mapCurrentMNVotes →
      ∃ entry ∈ s.mapCurrentMNVotes,
        RebuildVoteMap_newIndex Ch entry.1 = some j ∧ entry.2 = r) ∧
    (RebuildVoteMap Ch s).mapCurrentMNVotes.length
      = (s.mapCurrentMNVotes.filter
          (fun entry => (RebuildVoteMap_newIndex Ch entry.1).isSome)).length ∧
    (∀ eSignal eOutcome : Int,
      CountMatchingVotes (RebuildVoteMap Ch s) eSignal eOutcome
        = CountMatchingVotes_loop eSignal eOutcome
            (s.mapCurrentMNVotes.filter
              (fun entry => (RebuildVoteMap_newIndex Ch entry.1).isSome))) := by
  have hnd := RebuildVoteMap_located_keys_nodup Ch s.mapCurrentMNVotes hkeys hinj
  have hperm : (RebuildVoteMap Ch s).mapCurrentMNVotes.Perm
      (RebuildVoteMap_located Ch s.mapCurrentMNVotes) := by
    have := RebuildVoteMap_loop_perm Ch s.mapCurrentMNVotes [] hnd (by simp)
    simpa [RebuildVoteMap] using this
  have hnd' : ((RebuildVoteMap Ch s).mapCurrentMNVotes.map Prod.fst).Nodup :=
    (hperm.map Prod.fst).nodup_iff.mpr hnd
  refine ⟨?_, ?_, ?_, ?_⟩
  · intro entry hentry j hni
    apply stdmap_find?_of_mem _ hnd'
    apply hperm.mem_iff.mpr
    exact (mem_RebuildVoteMap_located Ch _ (j, entry.2)).mpr ⟨entry, hentry, hni, rfl⟩
  · intro j r hmem
    exact (mem_RebuildVoteMap_located Ch _ (j, r)).mp (hperm.mem_iff.mp hmem)
  · rw [hperm.length_eq, RebuildVoteMap_located_length]
  · intro eSignal eOutcome
    unfold CountMatchingVotes
    rw [CountMatchingVotes_loop_perm eSignal eOutcome hperm, CountMatchingVotes_loop_located]

/-- C20 at a concrete input: of the voters with old indices 0, 1 and 2 the second cannot
be located; the records of the other two move to the indices 10 and 12 and the yes tally
on the funding signal is 2. -/
theorem C20_rebuild_remaps_located_voters_witness :
    (RebuildVoteMap exampleRoster exampleThreeVotersObject).mapCurrentMNVotes.length = 2 ∧
    stdmap.find? (RebuildVoteMap exampleRoster exampleThreeVotersObject).mapCurrentMNVotes 12
      = some { mapInstances := [(1, { eOutcome := 1, nTime := 0, nCreationTime := 100 })] } ∧
    CountMatchingVotes (RebuildVoteMap exampleRoster exampleThreeVotersObject) 1 1 = 2 := by
  have h := C20_rebuild_remaps_located_voters exampleRoster exampleThreeVotersObject
    (by decide) (by decide)
  exact ⟨h.2.2.1.trans (by decide),
    h.1 (2, { mapInstances := [(1, { eOutcome := 1, nTime := 0, nCreationTime := 100 })] })
      (by decide) 12 (by decide),
    (h.2.2.2 1 1).trans (by decide)⟩

/-! ## The checks of ProcessVote -/

/-- The instance `ProcessVote` binds to `voteInstance` is the ledger's instance for the
voter index and signal, or the default one. -/
theorem ProcessVote_voteInstance_eq (E : Env) (W : World) (vote : CGovernanceVote)
    (s : CGovernanceObject) :
    (stdmap.find? ((stdmap.find? s.mapCurrentMNVotes
      (W.GetMasternodeIndex vote.vinMasternode)).getD vote_rec_t.default).mapInstances
      vote.nVoteSignal).getD (vote_instance_t.default E)
      = ProcessVote_voteInstance E W vote s := by
  unfold ProcessVote_voteInstance ledgerInstance
  cases stdmap.find? s.mapCurrentMNVotes (W.GetMasternodeIndex vote.vinMasternode) with
  | none => simp [vote_rec_t.default, stdmap.find?]
  | some r => simp

/-- The return value, the exception and the invalid-vote report of `ProcessVote` as a
chain of its checks. -/
theorem ProcessVote_outcome (E : Env) (W : World) (pfrom : Bool) (vote : CGovernanceVote)
    (s : CGovernanceObject) :
    ((ProcessVote E W pfrom vote s).ret, (ProcessVote E W pfrom vote s).exception,
        (ProcessVote E W pfrom vote s).fAddedInvalidVote) =
      if W.GetMasternodeIndex vote.vinMasternode < 0 then
        (false, some ⟨GOVERNANCE_EXCEPTION_WARNING, 0⟩, false)
      else if vote.nVoteSignal = E.VOTE_SIGNAL_NONE then
        (false, some ⟨GOVERNANCE_EXCEPTION_WARNING, 0⟩, false)
      else if vote.nVoteSignal > E.MAX_SUPPORTED_VOTE_SIGNAL then
        (false, some ⟨GOVERNANCE_EXCEPTION_PERMANENT_ERROR, 20⟩, false)
      else if vote.nTime < (ProcessVote_voteInstance E W vote s).nCreationTime then
        (false, some ⟨GOVERNANCE_EXCEPTION_NONE, 0⟩, false)
      else if (W.AreRateChecksEnabled
          && decide (wrap64 (W.GetTime - (ProcessVote_voteInstance E W vote s).nTime)
              < E.GOVERNANCE_UPDATE_MIN)) = true then
        (false, some ⟨GOVERNANCE_EXCEPTION_TEMPORARY_ERROR, 0⟩, false)
      else if W.IsValid vote = false then
        (false, some ⟨GOVERNANCE_EXCEPTION_PERMANENT_ERROR, 20⟩, true)
      else if W.AddGovernanceVote vote.vinMasternode vote.nParentHash = false then
        (false, some ⟨GOVERNANCE_EXCEPTION_PERMANENT_ERROR, 0⟩, false)
      else (true, none, false) := by
  have e1 := stdmap.find?_insert_self s.mapCurrentMNVotes
    (W.GetMasternodeIndex vote.vinMasternode) vote_rec_t.default
  have e2 := stdmap.find?_insert_self
    ((stdmap.find? s.mapCurrentMNVotes (W.GetMasternodeIndex vote.vinMasternode)).getD
      vote_rec_t.default).mapInstances vote.nVoteSignal (vote_instance_t.default E)
  have e3 := ProcessVote_voteInstance_eq E W vote s
  generalize hr : ProcessVote E W pfrom vote s = r
  unfold ProcessVote at hr
  dsimp only at hr
  simp only [e1, Option.getD_some, e2, e3] at hr
  split_ifs at hr ⊢ <;> subst hr <;> simp_all

/-- C21: `ProcessVote` applies its checks in the fixed order voter resolved, signal not
None, signal not above `MAX_SUPPORTED_VOTE_SIGNAL`, not obsolete, rate limit, signature
valid, roster registration. The exception it reports is that of the first failing check
(Warning, Warning, PermanentError 20, None, TemporaryError, PermanentError 20,
PermanentError 0 in that order) and none when no check fails; it returns true exactly
when no check fails; the vote is handed to the invalid-vote ledger exactly when the
first five checks pass and the signature is invalid; and when one of the first five
checks fails, the return value, the exception and the invalid-vote report are the same
whatever the signature check would answer. -/
theorem C21_checks_in_order_first_failure_reported (E : Env) (W : World) (pfrom : Bool)
    (vote : CGovernanceVote) (s : CGovernanceObject) :
    (ProcessVote_checks E W vote s).map (fun c => c.2) =
        [⟨GOVERNANCE_EXCEPTION_WARNING, 0⟩, ⟨GOVERNANCE_EXCEPTION_WARNING, 0⟩,
          ⟨GOVERNANCE_EXCEPTION_PERMANENT_ERROR, 20⟩, ⟨GOVERNANCE_EXCEPTION_NONE, 0⟩,
          ⟨GOVERNANCE_EXCEPTION_TEMPORARY_ERROR, 0⟩,
          ⟨GOVERNANCE_EXCEPTION_PERMANENT_ERROR, 20⟩,
          ⟨GOVERNANCE_EXCEPTION_PERMANENT_ERROR, 0⟩] ∧
    (ProcessVote E W pfrom vote s).exception = ProcessVote_firstFailure E W vote s ∧
    ((ProcessVote E W pfrom vote s).ret = true ↔
      ∀ c ∈ ProcessVote_checks E W vote s, c.1 = false) ∧
    ((ProcessVote E W pfrom vote s).fAddedInvalidVote = true ↔
      ((∀ c ∈ (ProcessVote_checks E W vote s).take 5, c.1 = false) ∧
        W.IsValid vote = false)) ∧
    ((∃ c ∈ (ProcessVote_checks E W vote s).take 5, c.1 = true) →
      ∀ IsValid' : CGovernanceVote → Bool,
        (ProcessVote E { W with IsValid := IsValid' } pfrom vote s).ret
            = (ProcessVote E W pfrom vote s).ret ∧
          (ProcessVote E { W with IsValid := IsValid' } pfrom vote s).exception
            = (ProcessVote E W pfrom vote s).exception ∧
          (ProcessVote E { W with IsValid := IsValid' } pfrom vote s).fAddedInvalidVote
            = false) := by
  have h := ProcessVote_outcome E W pfrom vote s
  refine ⟨rfl, ?_, ?_, ?_, ?_⟩
  · have hx : (ProcessVote E W pfrom vote s).exception = _ := congrArg (fun t => t.2.1) h
    rw [hx]
    unfold ProcessVote_firstFailure ProcessVote_checks
    split_ifs <;> simp [List.find?, *]
  · have hx : (ProcessVote E W pfrom vote s).ret = _ := congrArg (fun t => t.1) h
    rw [hx]
    unfold ProcessVote_checks
    split_ifs <;> simp_all
  · have hx : (ProcessVote E W pfrom vote s).fAddedInvalidVote = _ :=
      congrArg (fun t => t.2.2) h
    rw [hx]
    unfold ProcessVote_checks
    split_ifs <;> simp_all
  · intro hfail IsValid'
    have h' := ProcessVote_outcome E { W with IsValid := IsValid' } pfrom vote s
    have hi : ProcessVote_voteInstance E { W with IsValid := IsValid' } vote s
        = ProcessVote_voteInstance E W vote s := rfl
    rw [hi] at h'
    dsimp only at h'
    unfold ProcessVote_checks at hfail
    have a1 := congrArg (fun t => t.1) h
    have a2 := congrArg (fun t => t.2.1) h
    have a3 := congrArg (fun t => t.2.2) h
    have b1 := congrArg (fun t => t.1) h'
    have b2 := congrArg (fun t => t.2.1) h'
    have b3 := congrArg (fun t => t.2.2) h'
    dsimp only at a1 a2 a3 b1 b2 b3
    rw [a1, a2, b1, b2, b3]
    clear a1 a2 a3 b1 b2 b3 h h' hi
    by_cases h1 : W.GetMasternodeIndex vote.vinMasternode < 0
    · simp [h1]
    by_cases h2 : vote.nVoteSignal = E.VOTE_SIGNAL_NONE
    · simp [h1, h2]
    by_cases h3 : vote.nVoteSignal > E.MAX_SUPPORTED_VOTE_SIGNAL
    · simp [h1, h2, h3]
    by_cases h4 : vote.nTime < (ProcessVote_voteInstance E W vote s).nCreationTime
    · simp [h1, h2, h3, h4]
    by_cases h5 : (W.AreRateChecksEnabled
          && decide (wrap64 (W.GetTime - (ProcessVote_voteInstance E W vote s).nTime)
              < E.GOVERNANCE_UPDATE_MIN)) = true
    · simp only [h1, h2, h3, h4, h5, if_true, if_false, and_self]
    · exfalso
      simp [h1, h2, h3, h4] at hfail
      simp [hfail] at h5

/-- C21 at a concrete call: a vote with signal None whose signature is invalid is
rejected with the Warning of the signal check, and stays so whatever the signature
check answers. -/
theorem C21_checks_in_order_first_failure_reported_witness :
    (ProcessVote exampleEnv { exampleWorld 10000 with IsValid := fun _ => false } false
        (exampleVote 0 0 1 100) exampleObject).exception
      = some ⟨GOVERNANCE_EXCEPTION_WARNING, 0⟩ ∧
    (ProcessVote exampleEnv { exampleWorld 10000 with IsValid := fun _ => false } false
        (exampleVote 0 0 1 100) exampleObject).fAddedInvalidVote = false ∧
    (ProcessVote exampleEnv (exampleWorld 10000) false
        (exampleVote 0 0 1 100) exampleObject).exception
      = some ⟨GOVERNANCE_EXCEPTION_WARNING, 0⟩ :=
  have h := (C21_checks_in_order_first_failure_reported exampleEnv (exampleWorld 10000)
    false (exampleVote 0 0 1 100) exampleObject).2.2.2.2 (by decide) (fun _ => false)
  ⟨h.2.1.trans (by decide), h.2.2, by decide⟩

/-! ## What a rejected vote leaves behind -/

/-- The object after a rejected `ProcessVote`: the VoteStore and the dirty flag are as
before, and the ledger is as before, or has gained an empty record for the voter index,
or has in addition gained a default instance for the signal in that record. -/
theorem ProcessVote_failure_obj (E : Env) (W : World) (pfrom : Bool) (vote : CGovernanceVote)
    (s : CGovernanceObject) (h : (ProcessVote E W pfrom vote s).ret = false) :
    (ProcessVote E W pfrom vote s).obj.fileVotes = s.fileVotes ∧
    (ProcessVote E W pfrom vote s).obj.fDirtyCache = s.fDirtyCache ∧
    ((ProcessVote E W pfrom vote s).obj.mapCurrentMNVotes = s.mapCurrentMNVotes ∨
      (ProcessVote E W pfrom vote s).obj.mapCurrentMNVotes =
        stdmap.insert s.mapCurrentMNVotes (W.GetMasternodeIndex vote.vinMasternode)
          vote_rec_t.default ∨
      (ProcessVote E W pfrom vote s).obj.mapCurrentMNVotes =
        stdmap.assign
          (stdmap.insert s.mapCurrentMNVotes (W.GetMasternodeIndex vote.vinMasternode)
            vote_rec_t.default)
          (W.GetMasternodeIndex vote.vinMasternode)
          { mapInstances :=
              stdmap.insert
                ((stdmap.find? s.mapCurrentMNVotes
                  (W.GetMasternodeIndex vote.vinMasternode)).getD
                    vote_rec_t.default).mapInstances
                vote.nVoteSignal (vote_instance_t.default E) }) := by
  have e1 := stdmap.find?_insert_self s.mapCurrentMNVotes
    (W.GetMasternodeIndex vote.vinMasternode) vote_rec_t.default
  generalize hr : ProcessVote E W pfrom vote s = r at h ⊢
  unfold ProcessVote at hr
  dsimp only at hr
  simp only [e1, Option.getD_some] at hr
  split_ifs at hr <;> subst hr <;>
    first
    | (simp at h; done)
    | exact ⟨rfl, rfl, Or.inl rfl⟩
    | exact ⟨rfl, rfl, Or.inr (Or.inl rfl)⟩
    | exact ⟨rfl, rfl, Or.inr (Or.inr rfl)⟩

/-- An empty record inserted for a voter index adds no instance to the ledger. -/
theorem ledgerInstance_insert_default (L : List (Int × vote_rec_t)) (i j g : Int) :
    ledgerInstance (stdmap.insert L i vote_rec_t.default) j g = ledgerInstance L j g := by
  unfold ledgerInstance
  by_cases hj : i = j
  · subst hj
    rw [stdmap.find?_insert_self]
    cases stdmap.find? L i with
    | none => simp [vote_rec_t.default, stdmap.find?]
    | some r => rfl
  · rw [stdmap_find?_insert_of_ne _ _ _ _ hj]

/-- A default instance inserted for a signal into the record of a voter index shows at
that index and signal only, and only when there was no instance before. -/
theorem ledgerInstance_insert_instance (L : List (Int × vote_rec_t)) (i sig : Int)
    (d : vote_instance_t) (j g : Int) :
    ledgerInstance
        (stdmap.assign (stdmap.insert L i vote_rec_t.default) i
          { mapInstances :=
              stdmap.insert ((stdmap.find? L i).getD vote_rec_t.default).mapInstances sig d })
        j g
      = if j = i ∧ g = sig then some ((ledgerInstance L i sig).getD d)
        else ledgerInstance L j g := by
  have e1 := stdmap.find?_insert_self L i vote_rec_t.default
  by_cases hj : i = j
  · subst hj
    unfold ledgerInstance
    rw [stdmap.find?_assign_self _ _ _ _ e1]
    simp only [Option.some_bind, true_and]
    by_cases hg : sig = g
    · subst hg
      rw [stdmap.find?_insert_self, if_pos rfl]
      cases stdmap.find? L i with
      | none => simp [vote_rec_t.default, stdmap.find?]
      | some r => simp
    · rw [stdmap_find?_insert_of_ne _ _ _ _ hg, if_neg (fun e => hg e.symm)]
      cases stdmap.find? L i with
      | none => simp [vote_rec_t.default, stdmap.find?]
      | some r => rfl
  · have hj' : ¬ (j = i ∧ g = sig) := fun e => hj e.1.symm
    rw [if_neg hj']
    unfold ledgerInstance
    rw [stdmap_find?_assign_of_ne _ _ _ _ hj, stdmap_find?_insert_of_ne _ _ _ _ hj]

/-- The instances of the ledger after a rejected `ProcessVote`: each is as before,
except that the voter index and signal of the vote may have gained a default instance
where there was none. -/
theorem ProcessVote_failure_ledgerInstance (E : Env) (W : World) (pfrom : Bool)
    (vote : CGovernanceVote) (s : CGovernanceObject)
    (h : (ProcessVote E W pfrom vote s).ret = false) (j g : Int) :
    ledgerInstance (ProcessVote E W pfrom vote s).obj.mapCurrentMNVotes j g
        = ledgerInstance s.mapCurrentMNVotes j g ∨
      (ledgerInstance s.mapCurrentMNVotes j g = none ∧
        j = W.GetMasternodeIndex vote.vinMasternode ∧ g = vote.nVoteSignal ∧
        ledgerInstance (ProcessVote E W pfrom vote s).obj.mapCurrentMNVotes j g
          = some (vote_instance_t.default E)) := by
  obtain ⟨_, _, hl | hl | hl⟩ := ProcessVote_failure_obj E W pfrom vote s h
  · rw [hl]; exact Or.inl rfl
  · rw [hl, ledgerInstance_insert_default]; exact Or.inl rfl
  · rw [hl, ledgerInstance_insert_instance]
    by_cases hc : j = W.GetMasternodeIndex vote.vinMasternode ∧ g = vote.nVoteSignal
    · rw [if_pos hc]
      obtain ⟨hj, hg⟩ := hc
      subst hj hg
      cases hx : ledgerInstance s.mapCurrentMNVotes
          (W.GetMasternodeIndex vote.vinMasternode) vote.nVoteSignal with
      | none => exact Or.inr ⟨rfl, rfl, rfl, rfl⟩
      | some x => exact Or.inl rfl
    · rw [if_neg hc]; exact Or.inl rfl

/-- Assigning to the record of a voter index a record that matches the same votes as
the one it replaces leaves the count unchanged. -/
theorem CountMatchingVotes_loop_assign (eSignal eOutcome : Int)
    (L : List (Int × vote_rec_t)) (i : Int) (r r' : vote_rec_t)
    (hfind : stdmap.find? L i = some r)
    (hsame : CountMatchingVotes_loop eSignal eOutcome [(0, r')]
      = CountMatchingVotes_loop eSignal eOutcome [(0, r)]) :
    CountMatchingVotes_loop eSignal eOutcome (stdmap.assign L i r')
      = CountMatchingVotes_loop eSignal eOutcome L := by
  induction L with
  | nil => rfl
  | cons p rest ih =>
    obtain ⟨k, v⟩ := p
    unfold stdmap.assign
    by_cases hk : k = i
    · simp only [stdmap.find?, hk, if_true, Option.some.injEq] at hfind
      subst hfind
      rw [if_pos hk, CountMatchingVotes_loop_cons _ _ (k, r'),
        CountMatchingVotes_loop_cons _ _ (k, v), hsame]
    · simp only [stdmap.find?, hk, if_false] at hfind
      rw [if_neg hk, CountMatchingVotes_loop_cons _ _ (k, v),
        CountMatchingVotes_loop_cons _ _ (k, v) rest, ih hfind]

/-- An empty record inserted for a voter index matches no vote. -/
theorem CountMatchingVotes_loop_insert_default (eSignal eOutcome : Int)
    (L : List (Int × vote_rec_t)) (i : Int) :
    CountMatchingVotes_loop eSignal eOutcome (stdmap.insert L i vote_rec_t.default)
      = CountMatchingVotes_loop eSignal eOutcome L := by
  unfold stdmap.insert
  cases stdmap.find? L i with
  | some r => rfl
  | none =>
    simp only []
    rw [CountMatchingVotes_loop_perm _ _ (stdmap_insertSorted_perm L i vote_rec_t.default),
      CountMatchingVotes_loop_cons]
    simp [CountMatchingVotes_loop, vote_rec_t.default, stdmap.find?]

/-- A default instance inserted into a record matches no vote with an outcome other
than the default outcome. -/
theorem CountMatchingVotes_loop_insert_instance (E : Env) (eSignal eOutcome : Int)
    (r : vote_rec_t) (sig : Int) (ho : eOutcome ≠ E.VOTE_OUTCOME_NONE) :
    CountMatchingVotes_loop eSignal eOutcome
        [(0, { mapInstances := stdmap.insert r.mapInstances sig (vote_instance_t.default E) })]
      = CountMatchingVotes_loop eSignal eOutcome [(0, r)] := by
  simp only [CountMatchingVotes_loop]
  by_cases hg : sig = eSignal
  · subst hg
    rw [stdmap.find?_insert_self]
    cases stdmap.find? r.mapInstances sig with
    | none =>
      have : ¬ E.VOTE_OUTCOME_NONE = eOutcome := fun e => ho e.symm
      simp [vote_instance_t.default, this]
    | some x => rfl
  · rw [stdmap_find?_insert_of_ne _ _ _ _ hg]

/-- A rejected `ProcessVote` leaves every count of an outcome other than the default
outcome as it was. -/
theorem ProcessVote_failure_count (E : Env) (W : World) (pfrom : Bool)
    (vote : CGovernanceVote) (s : CGovernanceObject)
    (h : (ProcessVote E W pfrom vote s).ret = false) (eSignal eOutcome : Int)
    (ho : eOutcome ≠ E.VOTE_OUTCOME_NONE) :
    CountMatchingVotes (ProcessVote E W pfrom vote s).obj eSignal eOutcome
      = CountMatchingVotes s eSignal eOutcome := by
  unfold CountMatchingVotes
  obtain ⟨_, _, hl | hl | hl⟩ := ProcessVote_failure_obj E W pfrom vote s h
  · rw [hl]
  · rw [hl, CountMatchingVotes_loop_insert_default]
  · rw [hl, CountMatchingVotes_loop_assign _ _ _ _ _ _
      (stdmap.find?_insert_self _ _ _)
      (CountMatchingVotes_loop_insert_instance E _ _ _ _ ho),
      CountMatchingVotes_loop_insert_default]

/-- C24: a rejected vote never moves a tally. When `ProcessVote` returns false (and the
outcomes Yes, No and Abstain differ from the default outcome None, as the enumeration
has them), `CountMatchingVotes` is unchanged for every signal and each of the outcomes
Yes, No and Abstain, so are the counts `GetYesCount`, `GetNoCount` and
`GetAbstainCount`, and so are the VoteStore and the dirty flag, whatever empty record or
default instance the call has left in the ledger. -/
theorem C24_rejected_vote_moves_no_tally (E : Env) (W : World) (pfrom : Bool)
    (vote : CGovernanceVote) (s : CGovernanceObject)
    (hYes : E.VOTE_OUTCOME_YES ≠ E.VOTE_OUTCOME_NONE)
    (hNo : E.VOTE_OUTCOME_NO ≠ E.VOTE_OUTCOME_NONE)
    (hAbstain : E.VOTE_OUTCOME_ABSTAIN ≠ E.VOTE_OUTCOME_NONE)
    (h : (ProcessVote E W pfrom vote s).ret = false) :
    (∀ eSignal eOutcome : Int,
      eOutcome ∈ [E.VOTE_OUTCOME_YES, E.VOTE_OUTCOME_NO, E.VOTE_OUTCOME_ABSTAIN] →
      CountMatchingVotes (ProcessVote E W pfrom vote s).obj eSignal eOutcome
        = CountMatchingVotes s eSignal eOutcome) ∧
    (∀ eSignal : Int,
      GetYesCount E (ProcessVote E W pfrom vote s).obj eSignal = GetYesCount E s eSignal ∧
      GetNoCount E (ProcessVote E W pfrom vote s).obj eSignal = GetNoCount E s eSignal ∧
      GetAbstainCount E (ProcessVote E W pfrom vote s).obj eSignal
        = GetAbstainCount E s eSignal) ∧
    (ProcessVote E W pfrom vote s).obj.fileVotes = s.fileVotes ∧
    (ProcessVote E W pfrom vote s).obj.fDirtyCache = s.fDirtyCache := by
  have hc := ProcessVote_failure_count E W pfrom vote s h
  obtain ⟨hstore, hdirty, _⟩ := ProcessVote_failure_obj E W pfrom vote s h
  refine ⟨?_, ?_, hstore, hdirty⟩
  · intro eSignal eOutcome ho
    simp only [List.mem_cons, List.mem_singleton, List.not_mem_nil, or_false] at ho
    rcases ho with ho | ho | ho <;> subst ho
    · exact hc _ _ hYes
    · exact hc _ _ hNo
    · exact hc _ _ hAbstain
  · intro eSignal
    exact ⟨hc _ _ hYes, hc _ _ hNo, hc _ _ hAbstain⟩

/-- C24 at a concrete call: a first vote with an invalid signature is rejected after the
record and a default instance were created for it; the ledger has changed, the tallies,
the VoteStore and the dirty flag have not. -/
theorem C24_rejected_vote_moves_no_tally_witness :
    (ProcessVote exampleEnv { exampleWorld 10000 with IsValid := fun _ => false } false
        (exampleVote 0 1 1 100) { exampleObject with fDirtyCache := false }).obj.mapCurrentMNVotes
      = [(0, { mapInstances := [(1, { eOutcome := 0, nTime := 0, nCreationTime := 0 })] })] ∧
    (∀ eSignal eOutcome : Int, eOutcome ∈ [(1 : Int), 2, 3] →
      CountMatchingVotes
        (ProcessVote exampleEnv { exampleWorld 10000 with IsValid := fun _ => false } false
          (exampleVote 0 1 1 100) { exampleObject with fDirtyCache := false }).obj
        eSignal eOutcome = 0) ∧
    (ProcessVote exampleEnv { exampleWorld 10000 with IsValid := fun _ => false } false
        (exampleVote 0 1 1 100) { exampleObject with fDirtyCache := false }).obj.fileVotes
      = [] ∧
    (ProcessVote exampleEnv { exampleWorld 10000 with IsValid := fun _ => false } false
        (exampleVote 0 1 1 100) { exampleObject with fDirtyCache := false }).obj.fDirtyCache
      = false :=
  have h := C24_rejected_vote_moves_no_tally exampleEnv
    { exampleWorld 10000 with IsValid := fun _ => false } false (exampleVote 0 1 1 100)
    { exampleObject with fDirtyCache := false } (by decide) (by decide) (by decide)
    (by decide)
  ⟨by decide, h.1, h.2.2.1, h.2.2.2⟩

/-! ## Creation times -/

/-- A vote is committed only when its timestamp is not before the creation time of the
instance it replaces. -/
theorem ProcessVote_success_not_obsolete (E : Env) (W : World) (pfrom : Bool)
    (vote : CGovernanceVote) (s : CGovernanceObject)
    (h : (ProcessVote E W pfrom vote s).ret = true) :
    (ProcessVote_voteInstance E W vote s).nCreationTime ≤ vote.nTime := by
  have ho := congrArg (fun t => t.1) (ProcessVote_outcome E W pfrom vote s)
  dsimp only at ho
  rw [h] at ho
  by_contra hlt
  have hlt' : vote.nTime < (ProcessVote_voteInstance E W vote s).nCreationTime := by omega
  split_ifs at ho

/-- One call of `ProcessVote`, accepted or rejected, keeps every instance of the ledger
and does not lower its creation time. -/
theorem ProcessVote_creationTime_mono (E : Env) (W : World) (pfrom : Bool)
    (vote : CGovernanceVote) (s : CGovernanceObject) (j g : Int) (inst : vote_instance_t)
    (hi : ledgerInstance s.mapCurrentMNVotes j g = some inst) :
    ∃ inst', ledgerInstance (ProcessVote E W pfrom vote s).obj.mapCurrentMNVotes j g
        = some inst' ∧ inst.nCreationTime ≤ inst'.nCreationTime := by
  cases hret : (ProcessVote E W pfrom vote s).ret with
  | false =>
    rcases ProcessVote_failure_ledgerInstance E W pfrom vote s hret j g with hl | hl
    · exact ⟨inst, hl.trans hi, le_refl _⟩
    · rw [hl.1] at hi
      cases hi
  | true =>
    obtain ⟨hother, hsig, hself⟩ := ProcessVote_success_ledger E W pfrom vote s hret
    by_cases hj : j = W.GetMasternodeIndex vote.vinMasternode
    · subst hj
      by_cases hg : g = vote.nVoteSignal
      · subst hg
        refine ⟨_, hself, ?_⟩
        have hno := ProcessVote_success_not_obsolete E W pfrom vote s hret
        unfold ProcessVote_voteInstance at hno
        rw [hi] at hno
        exact hno
      · exact ⟨inst, (hsig g hg).trans hi, le_refl _⟩
    · refine ⟨inst, ?_, le_refl _⟩
      unfold ledgerInstance at hi ⊢
      rw [hother j hj]
      exact hi

/-- C22: vote timestamps are monotonic per (voter index, signal). For every state and
every call of `ProcessVote`, accepted or rejected, every instance the ledger held before
the call is still there afterwards with a creation time greater than or equal to its
previous value; after an accepted call the instance of the vote's voter index and signal
has the vote's timestamp as creation time; and over any sequence of `ProcessVote` calls
the creation time of an instance never decreases. -/
theorem C22_creation_time_never_decreases (E : Env) :
    (∀ (W : World) (pfrom : Bool) (vote : CGovernanceVote) (s : CGovernanceObject)
        (j g : Int) (inst : vote_instance_t),
      ledgerInstance s.mapCurrentMNVotes j g = some inst →
      ∃ inst', ledgerInstance (ProcessVote E W pfrom vote s).obj.mapCurrentMNVotes j g
          = some inst' ∧ inst.nCreationTime ≤ inst'.nCreationTime) ∧
    (∀ (W : World) (pfrom : Bool) (vote : CGovernanceVote) (s : CGovernanceObject),
      (ProcessVote E W pfrom vote s).ret = true →
      ∃ inst', ledgerInstance (ProcessVote E W pfrom vote s).obj.mapCurrentMNVotes
          (W.GetMasternodeIndex vote.vinMasternode) vote.nVoteSignal = some inst' ∧
        inst'.nCreationTime = vote.nTime) ∧
    (∀ (calls : List (World × Bool × CGovernanceVote)) (s : CGovernanceObject)
        (j g : Int) (inst : vote_instance_t),
      ledgerInstance s.mapCurrentMNVotes j g = some inst →
      ∃ inst', ledgerInstance (ProcessVote_sequence E calls s).mapCurrentMNVotes j g
          = some inst' ∧ inst.nCreationTime ≤ inst'.nCreationTime) := by
  refine ⟨fun W pfrom vote s j g inst hi =>
      ProcessVote_creationTime_mono E W pfrom vote s j g inst hi, ?_, ?_⟩
  · intro W pfrom vote s hret
    exact ⟨_, (ProcessVote_success_ledger E W pfrom vote s hret).2.2, rfl⟩
  · intro calls
    induction calls with
    | nil => intro s j g inst hi; exact ⟨inst, hi, le_refl _⟩
    | cons c rest ih =>
      intro s j g inst hi
      obtain ⟨W, pfrom, vote⟩ := c
      obtain ⟨inst1, h1, hle1⟩ := ProcessVote_creationTime_mono E W pfrom vote s j g inst hi
      obtain ⟨inst2, h2, hle2⟩ := ih (ProcessVote E W pfrom vote s).obj j g inst1 h1
      exact ⟨inst2, h2, le_trans hle1 hle2⟩

/-- C22 at a concrete sequence: after an obsolete vote (rejected) and a newer vote
(accepted) of the same voter on the same signal, the instance that had creation time
100 is still there with a creation time of at least 100. -/
theorem C22_creation_time_never_decreases_witness :
    ∃ inst', ledgerInstance
        (ProcessVote_sequence exampleEnv
          [(exampleWorld 20000, false, exampleVote 0 1 2 50),
            (exampleWorld 20000, false, exampleVote 0 1 2 200)]
          exampleVotedObject).mapCurrentMNVotes 0 1 = some inst' ∧
      (100 : Int) ≤ inst'.nCreationTime :=
  (C22_creation_time_never_decreases exampleEnv).2.2
    [(exampleWorld 20000, false, exampleVote 0 1 2 50),
      (exampleWorld 20000, false, exampleVote 0 1 2 200)]
    exampleVotedObject 0 1 { eOutcome := 1, nTime := 9000, nCreationTime := 100 }
    (by decide)


/-! ## The signed message determines the signed fields -/

theorem decDigit_injective :
    ∀ a, a < 10 → ∀ b, b < 10 → Char.ofNat (48 + a) = Char.ofNat (48 + b) → a = b := by
  decide

theorem decDigit_not_separator :
    ∀ a, a < 10 → Char.ofNat (48 + a) ≠ '|' ∧ Char.ofNat (48 + a) ≠ '-' := by
  decide

theorem decDigits_ne_nil (fuel n : Nat) (h : 0 < fuel) : decDigits fuel n ≠ [] := by
  obtain ⟨f, rfl⟩ : ∃ f, fuel = f + 1 := ⟨fuel - 1, by omega⟩
  unfold decDigits
  split_ifs <;> simp

/-- Every character of a decimal form is a decimal digit. -/
theorem decDigits_digit (fuel : Nat) :
    ∀ (n : Nat) (c : Char), c ∈ decDigits fuel n → ∃ d, d < 10 ∧ c = Char.ofNat (48 + d) := by
  induction fuel with
  | zero => intro n c hc; simp [decDigits] at hc
  | succ f ih =>
    intro n c hc
    unfold decDigits at hc
    split_ifs at hc with h
    · exact ⟨n, h, List.mem_singleton.mp hc⟩
    · rcases List.mem_append.mp hc with hc | hc
      · exact ih _ _ hc
      · exact ⟨n % 10, Nat.mod_lt _ (by decide), List.mem_singleton.mp hc⟩

theorem decDigits_no_separator (fuel n : Nat) :
    '|' ∉ decDigits fuel n ∧ '-' ∉ decDigits fuel n := by
  constructor
  · intro hc
    obtain ⟨d, hd, e⟩ := decDigits_digit fuel n _ hc
    exact (decDigit_not_separator d hd).1 e.symm
  · intro hc
    obtain ⟨d, hd, e⟩ := decDigits_digit fuel n _ hc
    exact (decDigit_not_separator d hd).2 e.symm

/-- With fuel for all their digits, two numbers with the same decimal digits are
equal. -/
theorem decDigits_injective :
    ∀ (n m fuel fuel' : Nat), n < fuel → m < fuel' →
      decDigits fuel n = decDigits fuel' m → n = m := by
  intro n
  induction n using Nat.strong_induction_on with
  | _ n ih =>
    intro m fuel fuel' hn hm h
    obtain ⟨f, rfl⟩ : ∃ f, fuel = f + 1 := ⟨fuel - 1, by omega⟩
    obtain ⟨f', rfl⟩ : ∃ f', fuel' = f' + 1 := ⟨fuel' - 1, by omega⟩
    unfold decDigits at h
    by_cases h1 : n < 10 <;> by_cases h2 : m < 10
    · simp only [h1, h2, if_true] at h
      exact decDigit_injective n h1 m h2 (List.singleton_inj.mp h)
    · simp only [h1, h2, if_true, if_false] at h
      have hl := congrArg List.length h
      simp only [List.length_singleton, List.length_append] at hl
      exact absurd (List.length_eq_zero.mp (by omega : (decDigits f' (m / 10)).length = 0))
        (decDigits_ne_nil f' (m / 10) (by omega))
    · simp only [h1, h2, if_true, if_false] at h
      have hl := congrArg List.length h
      simp only [List.length_singleton, List.length_append] at hl
      exact absurd (List.length_eq_zero.mp (by omega : (decDigits f (n / 10)).length = 0))
        (decDigits_ne_nil f (n / 10) (by omega))
    · simp only [h1, h2, if_false] at h
      obtain ⟨hq, hd⟩ := List.append_inj' h rfl
      have e1 := ih (n / 10) (by omega) (m / 10) f f' (by omega) (by omega) hq
      have e2 := decDigit_injective _ (Nat.mod_lt n (by decide)) _ (Nat.mod_lt m (by decide))
        (List.singleton_inj.mp hd)
      omega

theorem natToDecimal_injective (n m : Nat) (h : natToDecimal n = natToDecimal m) : n = m :=
  decDigits_injective n m (n + 1) (m + 1) (by omega) (by omega)
    (by simpa [natToDecimal] using congrArg String.data h)

theorem lexical_cast_string_data (x : Int) :
    (lexical_cast_string x).data =
      if x < 0 then '-' :: decDigits ((-x).toNat + 1) (-x).toNat
      else decDigits (x.toNat + 1) x.toNat := by
  unfold lexical_cast_string natToDecimal
  split_ifs <;> simp [String.data_append]

/-- The decimal form of an integer determines the integer. -/
theorem lexical_cast_string_injective (x y : Int)
    (h : lexical_cast_string x = lexical_cast_string y) : x = y := by
  have hd := congrArg String.data h
  rw [lexical_cast_string_data, lexical_cast_string_data] at hd
  split_ifs at hd with hx hy hy
  · have := decDigits_injective _ _ _ _ (by omega) (by omega) (List.tail_eq_of_cons_eq hd)
    omega
  · have hmem : '-' ∈ decDigits (y.toNat + 1) y.toNat := by rw [← hd]; simp
    exact absurd hmem (decDigits_no_separator _ _).2
  · have hmem : '-' ∈ decDigits (x.toNat + 1) x.toNat := by rw [hd]; simp
    exact absurd hmem (decDigits_no_separator _ _).2
  · have := decDigits_injective _ _ _ _ (by omega) (by omega) hd
    omega

/-- The decimal form of an integer holds no pipe character. -/
theorem lexical_cast_string_no_pipe (x : Int) : '|' ∉ (lexical_cast_string x).data := by
  rw [lexical_cast_string_data]
  split_ifs
  · intro hc
    rcases List.mem_cons.mp hc with hc | hc
    · exact absurd hc (by decide)
    · exact (decDigits_no_separator _ _).1 hc
  · exact (decDigits_no_separator _ _).1

/-- Two strings that continue after the first occurrence of a separator agree before
and after it. -/
theorem List_sep_prefix (sep : Char) :
    ∀ (a b x y : List Char), sep ∉ a → sep ∉ b → a ++ sep :: x = b ++ sep :: y →
      a = b ∧ x = y := by
  intro a
  induction a with
  | nil =>
    intro b x y _ hb h
    cases b with
    | nil => exact ⟨rfl, List.tail_eq_of_cons_eq h⟩
    | cons c b' =>
      simp only [List.nil_append, List.cons_append, List.cons.injEq] at h
      exact absurd (by rw [h.1]; exact List.mem_cons_self _ _) hb
  | cons c a' ih =>
    intro b x y ha hb h
    cases b with
    | nil =>
      simp only [List.nil_append, List.cons_append, List.cons.injEq] at h
      exact absurd (by rw [← h.1]; exact List.mem_cons_self _ _) ha
    | cons d b' =>
      simp only [List.cons_append, List.cons.injEq] at h
      obtain ⟨e1, e2⟩ := ih b' x y (fun hc => ha (List.mem_cons_of_mem _ hc))
        (fun hc => hb (List.mem_cons_of_mem _ hc)) h.2
      exact ⟨by rw [h.1, e1], e2⟩

/-- Two strings that end after the last occurrence of a separator agree before and
after it. -/
theorem List_sep_suffix (sep : Char) (a b x y : List Char) (ha : sep ∉ a) (hb : sep ∉ b)
    (h : x ++ sep :: a = y ++ sep :: b) : x = y ∧ a = b := by
  have hr := congrArg List.reverse h
  simp only [List.reverse_append, List.reverse_cons, List.append_assoc,
    List.singleton_append] at hr
  obtain ⟨e1, e2⟩ := List_sep_prefix sep a.reverse b.reverse x.reverse y.reverse
    (by simpa using ha) (by simpa using hb) hr
  exact ⟨List.reverse_injective e2, List.reverse_injective e1⟩

/-- The layout of the signed message can be read back: with three fields of fixed
width, two fields free of the pipe character and one free of the dash, the seven parts
are determined by the whole, whatever the data part contains. -/
theorem signed_message_parts (P P' R R' T T' D D' H H' N N' C C' : List Char)
    (hP : P.length = P'.length) (hH : H.length = H'.length) (hC : C.length = C'.length)
    (hR : '|' ∉ R) (hR' : '|' ∉ R') (hT : '|' ∉ T) (hT' : '|' ∉ T')
    (hN : '-' ∉ N) (hN' : '-' ∉ N')
    (h : P ++ '|' :: (R ++ '|' :: (T ++ '|' :: (D ++ '|' :: (H ++ '-' :: (N ++ '|' :: C)))))
      = P' ++ '|' :: (R' ++ '|' :: (T' ++ '|' :: (D' ++ '|' :: (H' ++ '-' :: (N' ++ '|' :: C')))))) :
    P = P' ∧ R = R' ∧ T = T' ∧ D = D' ∧ H = H' ∧ N = N' ∧ C = C' := by
  obtain ⟨eP, h1⟩ := List.append_inj h hP
  obtain ⟨eR, h2⟩ := List_sep_prefix '|' R R' _ _ hR hR' (List.tail_eq_of_cons_eq h1)
  obtain ⟨eT, h3⟩ := List_sep_prefix '|' T T' _ _ hT hT' h2
  have h4 : (D ++ '|' :: (H ++ '-' :: (N ++ ['|']))) ++ C
      = (D' ++ '|' :: (H' ++ '-' :: (N' ++ ['|']))) ++ C' := by
    simp only [List.append_assoc, List.cons_append, List.nil_append]
    exact h3
  obtain ⟨h5, eC⟩ := List.append_inj' h4 hC
  have h6 : (D ++ '|' :: (H ++ '-' :: N)) ++ ['|'] = (D' ++ '|' :: (H' ++ '-' :: N')) ++ ['|'] := by
    simp only [List.append_assoc, List.cons_append, List.nil_append]
    exact h5
  obtain ⟨h7, _⟩ := List.append_inj' h6 rfl
  have h8 : (D ++ '|' :: H) ++ '-' :: N = (D' ++ '|' :: H') ++ '-' :: N' := by
    simp only [List.append_assoc, List.cons_append, List.nil_append]
    exact h7
  obtain ⟨h9, eN⟩ := List_sep_suffix '-' N N' _ _ hN hN' h8
  have h10 : (D ++ ['|']) ++ H = (D' ++ ['|']) ++ H' := by
    simp only [List.append_assoc, List.cons_append, List.nil_append]
    exact h9
  obtain ⟨h11, eH⟩ := List.append_inj' h10 hH
  obtain ⟨eD, _⟩ := List.append_inj' h11 rfl
  exact ⟨eP, eR, eT, eD, eH, eN, eC⟩

/-- The characters of the signed message. -/
theorem GetSignatureMessage_data (s : CGovernanceObject) :
    (GetSignatureMessage s).data =
      hexFixed 64 s.nHashParent ++ '|' :: ((lexical_cast_string s.nRevision).data ++ '|' ::
        ((lexical_cast_string s.nTime).data ++ '|' :: (s.strData.data ++ '|' ::
          (hexFixed 64 s.vinMasternode.prevout.hash ++ '-' ::
            ((natToDecimal s.vinMasternode.prevout.n).data ++ '|' ::
              hexFixed 64 s.nCollateralHash))))) := by
  simp [GetSignatureMessage, COutPoint.ToStringShort, uint256_ToString, String.data_append,
    List.append_assoc]

/-- The signed message determines the six signed fields. -/
theorem GetSignatureMessage_injective (s t : CGovernanceObject)
    (hsp : s.nHashParent < 2 ^ 256) (htp : t.nHashParent < 2 ^ 256)
    (hsh : s.vinMasternode.prevout.hash < 2 ^ 256)
    (hth : t.vinMasternode.prevout.hash < 2 ^ 256)
    (hsc : s.nCollateralHash < 2 ^ 256) (htc : t.nCollateralHash < 2 ^ 256)
    (h : GetSignatureMessage s = GetSignatureMessage t) :
    s.nHashParent = t.nHashParent ∧ s.nRevision = t.nRevision ∧ s.nTime = t.nTime ∧
      s.strData = t.strData ∧ s.vinMasternode.prevout = t.vinMasternode.prevout ∧
      s.nCollateralHash = t.nCollateralHash := by
  have hd := congrArg String.data h
  rw [GetSignatureMessage_data, GetSignatureMessage_data] at hd
  obtain ⟨eP, eR, eT, eD, eH, eN, eC⟩ := signed_message_parts _ _ _ _ _ _ _ _ _ _ _ _ _ _
    (by rw [hexFixed_length, hexFixed_length]) (by rw [hexFixed_length, hexFixed_length])
    (by rw [hexFixed_length, hexFixed_length])
    (lexical_cast_string_no_pipe _) (lexical_cast_string_no_pipe _)
    (lexical_cast_string_no_pipe _) (lexical_cast_string_no_pipe _)
    (decDigits_no_separator _ _).2 (decDigits_no_separator _ _).2 hd
  have hex : ∀ x y : Nat, x < 2 ^ 256 → y < 2 ^ 256 → hexFixed 64 x = hexFixed 64 y → x = y :=
    fun x y hx hy e => uint256_ToString_injective x y hx hy (congrArg String.mk e)
  refine ⟨hex _ _ hsp htp eP, lexical_cast_string_injective _ _ (String.ext eR),
    lexical_cast_string_injective _ _ (String.ext eT), String.ext eD, ?_, hex _ _ hsc htc eC⟩
  have e1 := hex _ _ hsh hth eH
  have e2 := natToDecimal_injective _ _ (String.ext eN)
  cases hs : s.vinMasternode.prevout with
  | mk a b =>
    cases ht : t.vinMasternode.prevout with
    | mk c d =>
      rw [hs, ht] at e1 e2
      simp only at e1 e2
      rw [e1, e2]

/-- C23: the signed message `GetSignatureMessage` (parent hash in fixed-width
hexadecimal, revision and creation time in decimal, data, the short form of the
submitter outpoint and the collateral hash in fixed-width hexadecimal, joined by pipe
characters) is injective in these six fields, whatever characters the data holds: two
objects with 256-bit hashes have the same message exactly when they agree on all six.
Hence, when the signature of an object is accepted for no message but that of the
object, `CheckSignature` fails on every object that carries the same signature and
differs in one of the six fields. -/
theorem C23_signed_message_is_injective (s t : CGovernanceObject)
    (hsp : s.nHashParent < 2 ^ 256) (htp : t.nHashParent < 2 ^ 256)
    (hsh : s.vinMasternode.prevout.hash < 2 ^ 256)
    (hth : t.vinMasternode.prevout.hash < 2 ^ 256)
    (hsc : s.nCollateralHash < 2 ^ 256) (htc : t.nCollateralHash < 2 ^ 256) :
    (GetSignatureMessage s = GetSignatureMessage t ↔
      (s.nHashParent = t.nHashParent ∧ s.nRevision = t.nRevision ∧ s.nTime = t.nTime ∧
        s.strData = t.strData ∧ s.vinMasternode.prevout = t.vinMasternode.prevout ∧
        s.nCollateralHash = t.nCollateralHash)) ∧
    (∀ (V : ValidationEnv) (pubKeyMasternode : Nat),
      (∀ m : String, V.VerifyMessage pubKeyMasternode s.vchSig m = true →
        m = GetSignatureMessage s) →
      t.vchSig = s.vchSig →
      ¬ (s.nHashParent = t.nHashParent ∧ s.nRevision = t.nRevision ∧ s.nTime = t.nTime ∧
        s.strData = t.strData ∧ s.vinMasternode.prevout = t.vinMasternode.prevout ∧
        s.nCollateralHash = t.nCollateralHash) →
      CheckSignature V pubKeyMasternode t = false) := by
  have hinj := GetSignatureMessage_injective s t hsp htp hsh hth hsc htc
  refine ⟨⟨hinj, ?_⟩, ?_⟩
  · rintro ⟨h1, h2, h3, h4, h5, h6⟩
    unfold GetSignatureMessage
    rw [h1, h2, h3, h4, h5, h6]
  · intro V pk honly hsig hne
    unfold CheckSignature
    dsimp only
    cases hv : V.VerifyMessage pk t.vchSig (GetSignatureMessage t) with
    | false => rfl
    | true =>
      rw [hsig] at hv
      exact absurd (hinj (honly _ hv).symm) hne

/-- C23 at a concrete input: the example proposal with data `a|b`, signed by a signer
whose signature is accepted for the signed message only, and the same object with the
data cut at the pipe character. -/
theorem C23_signed_message_is_injective_witness :
    GetSignatureMessage { exampleProposal with strData := "a|b" }
      ≠ GetSignatureMessage { exampleProposal with strData := "a" } ∧
    CheckSignature
      { exampleValidationEnv with
        VerifyMessage := fun _ _ m =>
          decide (m = GetSignatureMessage { exampleProposal with strData := "a|b" }) }
      5 { exampleProposal with strData := "a" } = false :=
  have h := C23_signed_message_is_injective { exampleProposal with strData := "a|b" }
    { exampleProposal with strData := "a" } (by decide) (by decide) (by decide) (by decide)
    (by decide) (by decide)
  ⟨fun e => absurd (h.1.mp e).2.2.2.1 (by decide),
    h.2 _ 5 (fun _ hm => of_decide_eq_true hm) rfl (fun e => absurd e.2.2.2.1 (by decide))⟩

end Governance
